import Mathlib

/-! Verification development for the simulation core

Shallow embedding of

* `source/Base/NumberGeneratorImpl.cpp` (ring-backed random stream and ID allocator),
* `source/Model/Impl/ModelBuilderFacadeImpl.cpp` (unit construction and neighbour wiring),
* `source/Tests/SimulationGpuTest.cpp` (`calcEnergy` and its helpers, the data of the
  decomposition test and of the fusion test),
* `source/Tests/ConstructurGpuTests.cpp` (`createTokenForConstruction`, `checkResult`),

and models, written from the spec, of the constructor cell function, of the scheduling in
`UnitThreadControllerImpl`, of the decomposition of clusters and of the fusion of particles,
none of which is among the sources.

Machine integers are natural numbers or integers with the wrap-around written out
(`% 2 ^ 32`, `% 2 ^ 64`, `% 2 ^ 16`).  Operations whose C++ behaviour is undefined
(remainder by zero, reading an empty optional) return `none`.  A `double` is the rational
number it stands for; in `getRandomReal(min, max)`, whose operations round, every
operation is followed by the rounding to the nearest binary64 value (`Binary64.round`).
-/

namespace Alien

/-! ## NumberGeneratorImpl -/

/-- The number `2^16`: size of the `uint16_t` range. -/
def UInt16Size : Nat := 2 ^ 16

/-- The number `2^32`: size of the `uint32_t` range. -/
def UInt32Size : Nat := 2 ^ 32

/-- The number `2^64`: size of the `uint64_t` range. -/
def UInt64Size : Nat := 2 ^ 64

/-- The constant `RandMax = 4294967296.0` of the source, as an exact rational. -/
def RandMax : ℚ := 4294967296

/-- Member variables of `NumberGeneratorImpl`.  `_threadId` and `_runningNumber` are
`uint64_t`, the ring holds `uint32_t` words.  The header declaring the members is not part
of the sources at hand; `_index` is kept as a natural number (it is only ever assigned a
remainder modulo the ring size). -/
structure NumberGeneratorImpl where
  _index : Nat
  _arrayOfRandomNumbers : List Nat
  _runningNumber : Nat
  _threadId : Nat
deriving DecidableEq

namespace NumberGeneratorImpl

/-- A freshly constructed generator (all members at their default value). -/
def new : NumberGeneratorImpl :=
  { _index := 0, _arrayOfRandomNumbers := [], _runningNumber := 0, _threadId := 0 }

/-- Embedding of `NumberGeneratorImpl::init(uint32_t arraySize, uint16_t threadId)`.
The words delivered by `QRandomGenerator::global()->generate()` are given by `entropy`
(the `i`-th generated word is `entropy i`, truncated to 32 bits).  The arguments are
converted to their parameter types.  `_index` is not assigned. -/
def init (g : NumberGeneratorImpl) (entropy : Nat → Nat) (arraySize : Nat) (threadId : Nat) :
    NumberGeneratorImpl :=
  { g with
    _threadId := ((threadId % UInt16Size) * 2 ^ 48) % UInt64Size
    _arrayOfRandomNumbers :=
      (List.range (arraySize % UInt32Size)).map (fun i => entropy i % UInt32Size)
    _runningNumber := 0 }

/-- Embedding of `NumberGeneratorImpl::getNumberFromArray()`; returns the word and the
new state.  A remainder by zero (empty ring) or a read outside the ring is `none`. -/
def getNumberFromArray (g : NumberGeneratorImpl) : Option (Nat × NumberGeneratorImpl) :=
  if g._arrayOfRandomNumbers.length = 0 then none
  else
    let index := (g._index + 1) % g._arrayOfRandomNumbers.length
    match g._arrayOfRandomNumbers[index]? with
    | none => none
    | some w => some (w, { g with _index := index })

/-- Embedding of `NumberGeneratorImpl::getRandomInt()`. -/
def getRandomInt (g : NumberGeneratorImpl) : Option (Nat × NumberGeneratorImpl) :=
  g.getNumberFromArray

/-- Embedding of `NumberGeneratorImpl::getRandomInt(uint32_t range)`.  The remainder by a
zero `range` is undefined: `none`. -/
def getRandomIntRange (g : NumberGeneratorImpl) (range : Nat) :
    Option (Nat × NumberGeneratorImpl) :=
  match g.getNumberFromArray with
  | none => none
  | some (w, g') => if range % UInt32Size = 0 then none else some (w % (range % UInt32Size), g')

/-- Embedding of `NumberGeneratorImpl::getRandomInt(uint32_t min, uint32_t max)`.
`auto delta = max - min + 1` and the sum `min + ...` are computed in 32-bit unsigned
arithmetic.  The remainder by a zero `delta` is undefined: `none`. -/
def getRandomIntMinMax (g : NumberGeneratorImpl) (min max : Nat) :
    Option (Nat × NumberGeneratorImpl) :=
  let min32 := min % UInt32Size
  let max32 := max % UInt32Size
  let delta := (max32 + UInt32Size - min32 + 1) % UInt32Size
  match g.getNumberFromArray with
  | none => none
  | some (w, g') => if delta = 0 then none else some ((min32 + w % delta) % UInt32Size, g')

/-- Embedding of `NumberGeneratorImpl::getLargeRandomInt(uint32_t range)`; `range + 1` is
computed in 32-bit unsigned arithmetic, the remainder by zero is `none`. -/
def getLargeRandomInt (g : NumberGeneratorImpl) (range : Nat) :
    Option (Nat × NumberGeneratorImpl) :=
  let modulus := (range % UInt32Size + 1) % UInt32Size
  match g.getNumberFromArray with
  | none => none
  | some (w, g') => if modulus = 0 then none else some (w % modulus, g')

/-- Embedding of `NumberGeneratorImpl::getRandomReal()`.  The conversion of a 32-bit word
to `double` and the division by the power of two `RandMax` are exact, so the result is
given as a rational number. -/
def getRandomReal (g : NumberGeneratorImpl) : Option (ℚ × NumberGeneratorImpl) :=
  match g.getNumberFromArray with
  | none => none
  | some (w, g') => some ((w : ℚ) / RandMax, g')

/-- Embedding of `NumberGeneratorImpl::getId()`: pre-increment of the 64-bit counter,
then bitwise or with `_threadId`. -/
def getId (g : NumberGeneratorImpl) : Nat × NumberGeneratorImpl :=
  let runningNumber := (g._runningNumber + 1) % UInt64Size
  (g._threadId ||| runningNumber, { g with _runningNumber := runningNumber })

/-- State of the generator after `n` calls of `getId`. -/
def afterIds : Nat → NumberGeneratorImpl → NumberGeneratorImpl
  | 0, g => g
  | n + 1, g => (afterIds n g).getId.2

/-- The value returned by the `k`-th call of `getId` (calls are counted from 1). -/
def kthId (g : NumberGeneratorImpl) (k : Nat) : Nat :=
  (afterIds (k - 1) g).getId.1

/-- The members have values of their C++ types: ring words are 32-bit, counter and
thread id are 64-bit. -/
def WellTyped (g : NumberGeneratorImpl) : Prop :=
  (∀ w ∈ g._arrayOfRandomNumbers, w < UInt32Size) ∧
    g._runningNumber < UInt64Size ∧ g._threadId < UInt64Size

instance (g : NumberGeneratorImpl) : Decidable (WellTyped g) := by
  unfold WellTyped; infer_instance

end NumberGeneratorImpl

/-! ## ModelBuilderFacadeImpl -/

/-- The constant `ARRAY_SIZE_FOR_RANDOM_NUMBERS` of the source. -/
def ARRAY_SIZE_FOR_RANDOM_NUMBERS : Nat := 234327

/-- A pair of `int` coordinates.  The `int` arithmetic of the builder is carried out in
the integers; none of the sums below leaves the 32-bit range for a grid whose units fit
into memory. -/
structure IntVector2D where
  x : Int
  y : Int
deriving DecidableEq

/-- The enumeration `MapCompartment::RelativeLocation`. -/
inductive RelativeLocation where
  | UpperLeft | Upper | UpperRight | Left | Right | LowerLeft | Lower | LowerRight
deriving DecidableEq

/-- What `buildSimulationUnit` produces, as far as the builder determines it: the grid
position the compartment is initialised for, the local `threadId` and the unit's number
generator. -/
structure Unit where
  gridPos : IntVector2D
  threadId : Nat
  numberGen : NumberGeneratorImpl
deriving DecidableEq

/-- Modelled from the spec: `UnitGrid` (its implementation is not among the sources) is a
fixed 2D array of units; here the list of `registerUnit(gridPos, unit)` calls, latest
first, together with the size handed to `init`. -/
structure UnitGrid where
  size : IntVector2D
  units : List (IntVector2D × Unit)
deriving DecidableEq

namespace UnitGrid

/-- Modelled from the spec: `UnitGrid::registerUnit` stores the unit at the position. -/
def registerUnit (grid : UnitGrid) (gridPos : IntVector2D) (unit : Unit) : UnitGrid :=
  { grid with units := (gridPos, unit) :: grid.units }

/-- Modelled from the spec: `UnitGrid::getUnitOfGridPos` returns the unit registered at the
position; `none` when the position holds no unit. -/
def getUnitOfGridPos (grid : UnitGrid) (gridPos : IntVector2D) : Option Unit :=
  (grid.units.find? (fun e => decide (e.1 = gridPos))).map Prod.snd

end UnitGrid

/-- One call `compartment->registerNeighborContext(location, context)`: the unit owning the
compartment, the relative location and the unit whose context was looked up (`none` for a
lookup that found no unit). -/
structure NeighborRegistration where
  unit : Option Unit
  location : RelativeLocation
  neighbor : Option Unit
deriving DecidableEq

/-- The parts of the simulation context assembled by `buildSimulationController` that the
properties below talk about: global number generator, unit grid, the units in the order of
`threads->registerUnit`, and the neighbour registrations in call order. -/
structure SimulationController where
  numberGen : NumberGeneratorImpl
  grid : UnitGrid
  threads : List Unit
  neighbors : List NeighborRegistration
deriving DecidableEq

namespace ModelBuilderFacadeImpl

/-- The local `uint16_t threadId = gridPos.x + gridPos.y * grid->getSize().x + 1` of
`buildSimulationUnit`: the `int` value converted to 16 bits. -/
def threadIdOf (gridSize gridPos : IntVector2D) : Nat :=
  ((gridPos.x + gridPos.y * gridSize.x + 1) % (UInt16Size : Int)).toNat

/-- Embedding of `ModelBuilderFacadeImpl::buildSimulationUnit(gridPos, context)`.  From the
context only the grid size is read; `entropy` are the words the unit's generator is
filled with. -/
def buildSimulationUnit (entropy : Nat → Nat) (gridSize gridPos : IntVector2D) : Unit :=
  let threadId := threadIdOf gridSize gridPos
  { gridPos := gridPos
    threadId := threadId
    numberGen := NumberGeneratorImpl.new.init entropy ARRAY_SIZE_FOR_RANDOM_NUMBERS threadId }

/-- The grid positions visited by `for x in 0 .. gridSize.x-1, for y in 0 .. gridSize.y-1`,
in the order of the loops. -/
def gridPositions (gridSize : IntVector2D) : List IntVector2D :=
  (List.range gridSize.x.toNat).flatMap
    (fun (x : Nat) => (List.range gridSize.y.toNat).map
      (fun (y : Nat) => IntVector2D.mk (Int.ofNat x) (Int.ofNat y)))

/-- The part of the global random stream consumed by the `n`-th `init` call. -/
def entropyOfCall (entropy : Nat → Nat) (n : Nat) : Nat → Nat :=
  fun i => entropy (n * ARRAY_SIZE_FOR_RANDOM_NUMBERS + i)

/-- Number of units built before the loops reach `gridPos`. -/
def buildOrder (gridSize gridPos : IntVector2D) : Nat :=
  gridPos.x.toNat * gridSize.y.toNat + gridPos.y.toNat

/-- The unit that the first double loop builds for `gridPos`. -/
def unitAt (entropy : Nat → Nat) (gridSize gridPos : IntVector2D) : Unit :=
  buildSimulationUnit (entropyOfCall entropy (buildOrder gridSize gridPos + 1)) gridSize gridPos

/-- First double loop of `buildSimulationController`: build every unit and register it
with the grid and the thread controller. -/
def registerUnits (entropy : Nat → Nat) (gridSize : IntVector2D) :
    List IntVector2D → UnitGrid × List Unit → UnitGrid × List Unit
  | [], acc => acc
  | gridPos :: rest, (grid, threads) =>
    let unit := buildSimulationUnit
      (entropyOfCall entropy (buildOrder gridSize gridPos + 1)) gridSize gridPos
    registerUnits entropy gridSize rest (grid.registerUnit gridPos unit, threads ++ [unit])

/-- The lambda `getContextFromDelta` of `buildSimulationController`; `%` is the truncating
remainder of C++. -/
def getContextFromDelta (grid : UnitGrid) (gridSize : IntVector2D) (x y : Int)
    (delta : IntVector2D) : Option Unit :=
  grid.getUnitOfGridPos
    ⟨Int.tmod (x + delta.x + gridSize.x) gridSize.x, Int.tmod (y + delta.y + gridSize.y) gridSize.y⟩

/-- The argument `delta` of `getContextFromDelta` used for each relative location. -/
def deltaOf : RelativeLocation → IntVector2D
  | .UpperLeft => ⟨-1, -1⟩
  | .Upper => ⟨0, -1⟩
  | .UpperRight => ⟨1, -1⟩
  | .Left => ⟨-1, 0⟩
  | .Right => ⟨1, 0⟩
  | .LowerLeft => ⟨-1, 1⟩
  | .Lower => ⟨0, 1⟩
  | .LowerRight => ⟨1, 1⟩

/-- The relative locations in the order of the eight `registerNeighborContext` calls. -/
def registrationOrder : List RelativeLocation :=
  [.UpperLeft, .Upper, .UpperRight, .Left, .Right, .LowerLeft, .Lower, .LowerRight]

/-- Body of the second double loop: the eight `registerNeighborContext` calls made for the
unit at `(x, y)`. -/
def registerNeighborContexts (grid : UnitGrid) (gridSize : IntVector2D) (gridPos : IntVector2D) :
    List NeighborRegistration :=
  registrationOrder.map (fun location =>
    { unit := grid.getUnitOfGridPos ⟨gridPos.x, gridPos.y⟩
      location := location
      neighbor := getContextFromDelta grid gridSize gridPos.x gridPos.y (deltaOf location) })

/-- Embedding of `ModelBuilderFacadeImpl::buildSimulationController`, restricted to number
generators, grid, thread registration and neighbour registration. -/
def buildSimulationController (entropy : Nat → Nat) (gridSize : IntVector2D) :
    SimulationController :=
  let numberGen :=
    NumberGeneratorImpl.new.init (entropyOfCall entropy 0) ARRAY_SIZE_FOR_RANDOM_NUMBERS 0
  let built := registerUnits entropy gridSize (gridPositions gridSize)
    ({ size := gridSize, units := [] }, [])
  { numberGen := numberGen
    grid := built.1
    threads := built.2
    neighbors := (gridPositions gridSize).flatMap (registerNeighborContexts built.1 gridSize) }

/-- The unit registered as neighbour of the unit at `gridPos` at `location`: the
`neighbor` of the first matching `registerNeighborContext` call. -/
def neighborOf (c : SimulationController) (gridPos : IntVector2D) (location : RelativeLocation) :
    Option Unit :=
  match c.neighbors.find?
      (fun r => decide (r.unit = c.grid.getUnitOfGridPos gridPos ∧ r.location = location)) with
  | none => none
  | some r => r.neighbor

end ModelBuilderFacadeImpl

/-! ## SimulationGpuTest: total energy of a data description

Energies, positions and velocities are `double`/`float` in the source; they are taken as
exact rationals here, so the sums below are the sums of exact arithmetic. -/

/-- A `QVector2D`. -/
structure QVector2D where
  x : ℚ
  y : ℚ
deriving DecidableEq

/-- Difference of two vectors (`operator-` of `QVector2D`). -/
def QVector2D.sub (a b : QVector2D) : QVector2D := ⟨a.x - b.x, a.y - b.y⟩

/-- The fields of `TokenDescription` used here; `optional` members are `Option`. -/
structure TokenDescription where
  energy : Option ℚ
  data : Option (List Nat)
deriving DecidableEq

/-- The fields of `CellFeatureDescription` used here; the type is the numeric value of the
`Enums::CellFunction` enumerator. -/
structure CellFeatureDescription where
  type : Int := 0
  constData : List Nat := []
  volatileData : List Nat := []
deriving DecidableEq

/-- The fields of `CellDescription` used here. -/
structure CellDescription where
  id : Nat
  pos : Option QVector2D
  energy : Option ℚ
  tokens : Option (List TokenDescription)
  maxConnections : Option Int := none
  connectingCells : Option (List Nat) := none
  tokenBlocked : Option Bool := none
  tokenBranchNumber : Option Int := none
  cellFeature : Option CellFeatureDescription := none
deriving DecidableEq

/-- The fields of `ClusterDescription` used here. -/
structure ClusterDescription where
  id : Nat
  pos : Option QVector2D
  vel : Option QVector2D
  angularVel : Option ℚ
  cells : Option (List CellDescription)
deriving DecidableEq

/-- The fields of `ParticleDescription` used here. -/
structure ParticleDescription where
  id : Nat
  pos : Option QVector2D
  vel : Option QVector2D
  energy : Option ℚ
deriving DecidableEq

/-- A `DataDescription`: optional clusters and optional particles. -/
structure DataDescription where
  clusters : Option (List ClusterDescription)
  particles : Option (List ParticleDescription)
deriving DecidableEq

/-- The two functions of the `Physics` module called by `calcKineticEnergy`; the module is
not among the sources, so they are parameters of the embedding. -/
structure Physics where
  angularMass : List QVector2D → ℚ
  kineticEnergy : ℚ → QVector2D → ℚ → ℚ → ℚ

namespace SimulationGpuTest

/-- The `std::transform` of `calcKineticEnergy`: `*cell.pos - *cluster.pos` for every cell,
in order; `none` when a cell has no position. -/
def relPositions (clusterPos : QVector2D) : List CellDescription → Option (List QVector2D)
  | [] => some []
  | cell :: rest =>
    match cell.pos, relPositions clusterPos rest with
    | some p, some ps => some (p.sub clusterPos :: ps)
    | _, _ => none

/-- Embedding of `SimulationGpuTest::calcKineticEnergy(ClusterDescription const&)`.  Every
optional that the source dereferences without a test must be present. -/
def calcKineticEnergyCluster (ph : Physics) (cluster : ClusterDescription) : Option ℚ :=
  match cluster.cells, cluster.vel, cluster.pos, cluster.angularVel with
  | some cells, some vel, some pos, some angularVel =>
    match relPositions pos cells with
    | some rel =>
      some (ph.kineticEnergy (cells.length : ℚ) vel (ph.angularMass rel) angularVel)
    | none => none
  | _, _, _, _ => none

/-- The loop `for cell in *cluster.cells: result += *cell.energy`. -/
def addCellEnergies : ℚ → List CellDescription → Option ℚ
  | result, [] => some result
  | result, cell :: rest =>
    match cell.energy with
    | some e => addCellEnergies (result + e) rest
    | none => none

/-- Embedding of `SimulationGpuTest::calcEnergy(ClusterDescription const&)`. -/
def calcEnergyCluster (ph : Physics) (cluster : ClusterDescription) : Option ℚ :=
  match calcKineticEnergyCluster ph cluster with
  | none => none
  | some result =>
    match cluster.cells with
    | some cells => addCellEnergies result cells
    | none => some result

/-- The loop `for cluster in *data.clusters: result += calcEnergy(cluster)`. -/
def addClusterEnergies (ph : Physics) : ℚ → List ClusterDescription → Option ℚ
  | result, [] => some result
  | result, cluster :: rest =>
    match calcEnergyCluster ph cluster with
    | some e => addClusterEnergies ph (result + e) rest
    | none => none

/-- The loop `for particle in *data.particles: result += *particle.energy`. -/
def addParticleEnergies : ℚ → List ParticleDescription → Option ℚ
  | result, [] => some result
  | result, particle :: rest =>
    match particle.energy with
    | some e => addParticleEnergies (result + e) rest
    | none => none

/-- Embedding of `SimulationGpuTest::calcEnergy(DataDescription const&)`. -/
def calcEnergy (ph : Physics) (data : DataDescription) : Option ℚ :=
  let afterClusters : Option ℚ :=
    match data.clusters with
    | some clusters => addClusterEnergies ph 0 clusters
    | none => some 0
  match afterClusters with
  | none => none
  | some result =>
    match data.particles with
    | some particles => addParticleEnergies result particles
    | none => some result

/-! ### The four sums named by the energy-conservation property -/

/-- The clusters of a data description (none present: the empty list). -/
def clustersOf (data : DataDescription) : List ClusterDescription := data.clusters.getD []

/-- The particles of a data description. -/
def particlesOf (data : DataDescription) : List ParticleDescription := data.particles.getD []

/-- The cells of a cluster. -/
def cellsOf (cluster : ClusterDescription) : List CellDescription := cluster.cells.getD []

/-- All cells of all clusters. -/
def allCells (data : DataDescription) : List CellDescription :=
  (clustersOf data).flatMap cellsOf

/-- All tokens of all cells. -/
def allTokens (data : DataDescription) : List TokenDescription :=
  (allCells data).flatMap (fun cell => cell.tokens.getD [])

/-- Sum of `cell.energy` over all cells. -/
def sumCellEnergy (data : DataDescription) : ℚ :=
  ((allCells data).map (fun cell => cell.energy.getD 0)).sum

/-- Sum of `token.energy` over all tokens. -/
def sumTokenEnergy (data : DataDescription) : ℚ :=
  ((allTokens data).map (fun token => token.energy.getD 0)).sum

/-- Sum of `particle.energy` over all particles. -/
def sumParticleEnergy (data : DataDescription) : ℚ :=
  ((particlesOf data).map (fun particle => particle.energy.getD 0)).sum

/-- Sum of the kinetic energies of all clusters. -/
def sumKineticEnergy (ph : Physics) (data : DataDescription) : ℚ :=
  ((clustersOf data).map (fun cluster => (calcKineticEnergyCluster ph cluster).getD 0)).sum

/-- Every optional that `calcEnergy` dereferences is present: each cluster has cells,
position, velocity and angular velocity, each cell has position and energy, each particle
has an energy. -/
def Complete (data : DataDescription) : Prop :=
  (∀ cluster ∈ clustersOf data,
      cluster.cells.isSome ∧ cluster.vel.isSome ∧ cluster.pos.isSome ∧
        cluster.angularVel.isSome ∧
        ∀ cell ∈ cellsOf cluster, cell.pos.isSome ∧ cell.energy.isSome) ∧
    ∀ particle ∈ particlesOf data, particle.energy.isSome

/-- A concrete `Physics`: angular mass `Σ |r|²` and kinetic energy
`(m·|v|² + I·ω²) / 2`. -/
def standardPhysics : Physics where
  angularMass := fun rel => (rel.map (fun r => r.x * r.x + r.y * r.y)).sum
  kineticEnergy := fun mass vel angularMass angularVel =>
    (mass * (vel.x * vel.x + vel.y * vel.y) + angularMass * (angularVel * angularVel)) / 2

/-- A cluster at rest made of one cell of energy 100 that carries one token of
energy 50. -/
def clusterWithToken : ClusterDescription :=
  { id := 1, pos := some ⟨10, 10⟩, vel := some ⟨0, 0⟩, angularVel := some 0
    cells := some [{ id := 2, pos := some ⟨10, 10⟩, energy := some 100
                     tokens := some [{ energy := some 50, data := none }] }] }

/-- A data description consisting of `clusterWithToken` only. -/
def dataWithToken : DataDescription :=
  { clusters := some [clusterWithToken], particles := none }

end SimulationGpuTest

/-! ## ConstructorGpuTests: building and decoding construction tokens

A `QByteArray` is a list of bytes (natural numbers below 256).  `char` is signed: a byte
read with `at()` is a value between -128 and 127. -/

namespace QByteArray

/-- Conversion of an `int` to `char`: the stored byte. -/
def charOf (v : Int) : Nat := (v % 256).toNat

/-- Value of a stored byte as a (signed) `char` promoted to `int`. -/
def toInt (b : Nat) : Int := if b < 128 then (b : Int) else (b : Int) - 256

/-- Assignment `array[i] = v` for an index inside the array.  An index outside the array
(where Qt would enlarge the array with unspecified bytes) is `none`. -/
def setAt (a : List Nat) (i : Int) (v : Int) : Option (List Nat) :=
  if 0 ≤ i ∧ i < (a.length : Int) then some (a.set i.toNat (charOf v)) else none

/-- Read `array.at(i)`: the `char` at index `i`; an index outside the array is `none`. -/
def charAt (a : List Nat) (i : Int) : Option Int :=
  if 0 ≤ i ∧ i < (a.length : Int) then (a[i.toNat]?).map toInt else none

/-- Call `array.replace(pos, len, after)` for a position inside the array: `len` bytes from
`pos` on are removed (fewer when the array ends earlier) and `after` is inserted at `pos`.
A position outside the array is `none`. -/
def replace (a : List Nat) (pos len : Int) (after : List Nat) : Option (List Nat) :=
  if 0 ≤ pos ∧ pos ≤ (a.length : Int) ∧ 0 ≤ len then
    some (a.take pos.toNat ++ after ++ a.drop (pos.toNat + len.toNat))
  else none

/-- Call `array.mid(pos, len)` for `pos ≥ 0`: the bytes from `pos` on, at most `len` of
them; a negative `len` or one that reaches beyond the end takes all bytes up to the end.
A negative position is `none`. -/
def mid (a : List Nat) (pos len : Int) : Option (List Nat) :=
  if pos < 0 then none
  else if len < 0 ∨ (a.length : Int) - pos < len then some (a.drop pos.toNat)
  else some ((a.drop pos.toNat).take len.toNat)

end QByteArray

/-- Modelled from the spec: the enumeration `Enums::ConstrIn` (the header is not among the
sources), the actions of the table in the constructor section. -/
inductive ConstrIn where
  | DO_NOTHING | SAFE | UNSAFE | BRUTEFORCE
deriving DecidableEq

/-- Modelled from the spec: the enumeration `Enums::ConstrInOption`, the options of the
table in the constructor section. -/
inductive ConstrInOption where
  | STANDARD | CREATE_EMPTY_TOKEN | CREATE_DUP_TOKEN | FINISH_NO_SEP | FINISH_WITH_SEP
  | FINISH_WITH_SEP_RED | FINISH_WITH_TOKEN_SEP_RED
deriving DecidableEq

/-- Modelled from the spec: the enumeration `Enums::ConstrOut`, the values the handler
writes to `OUT`. -/
inductive ConstrOut where
  | SUCCESS | ERROR_NO_ENERGY | ERROR_OBSTACLE | ERROR_CONNECTION | ERROR_DIST
deriving DecidableEq

/-- Modelled from the spec: numeric value of a `ConstrIn` enumerator, numbered in the
order of the spec's table. -/
def ConstrIn.code : ConstrIn → Int
  | .DO_NOTHING => 0
  | .SAFE => 1
  | .UNSAFE => 2
  | .BRUTEFORCE => 3

/-- Modelled from the spec: numeric value of a `ConstrInOption` enumerator, numbered in
the order of the spec's table. -/
def ConstrInOption.code : ConstrInOption → Int
  | .STANDARD => 0
  | .CREATE_EMPTY_TOKEN => 1
  | .CREATE_DUP_TOKEN => 2
  | .FINISH_NO_SEP => 3
  | .FINISH_WITH_SEP => 4
  | .FINISH_WITH_SEP_RED => 5
  | .FINISH_WITH_TOKEN_SEP_RED => 6

/-- Modelled from the spec: numeric value of a `ConstrOut` enumerator, numbered in the
order in which the spec lists them. -/
def ConstrOut.code : ConstrOut → Int
  | .SUCCESS => 0
  | .ERROR_NO_ENERGY => 1
  | .ERROR_OBSTACLE => 2
  | .ERROR_CONNECTION => 3
  | .ERROR_DIST => 4

/-- The byte offsets `Enums::Constr::*` into the token memory.  The header defining them
is not among the sources, so they are a parameter of the embedding. -/
structure Constr where
  OUT : Nat
  IN : Nat
  IN_OPTION : Nat
  INOUT_ANGLE : Nat
  IN_DIST : Nat
  IN_CELL_MAX_CONNECTIONS : Nat
  IN_CELL_BRANCH_NO : Nat
  IN_CELL_FUNCTION : Nat
  IN_CELL_FUNCTION_DATA : Nat
deriving DecidableEq

/-- The scalar fields lie before the function data, which is the last block of the
layout. -/
def Constr.DataIsLast (c : Constr) : Prop :=
  c.IN < c.IN_CELL_FUNCTION_DATA ∧ c.IN_OPTION < c.IN_CELL_FUNCTION_DATA ∧
    c.INOUT_ANGLE < c.IN_CELL_FUNCTION_DATA ∧ c.IN_DIST < c.IN_CELL_FUNCTION_DATA ∧
    c.IN_CELL_MAX_CONNECTIONS < c.IN_CELL_FUNCTION_DATA ∧
    c.IN_CELL_BRANCH_NO < c.IN_CELL_FUNCTION_DATA ∧
    c.IN_CELL_FUNCTION < c.IN_CELL_FUNCTION_DATA ∧ c.OUT < c.IN_CELL_FUNCTION_DATA

instance (c : Constr) : Decidable c.DataIsLast := by
  unfold Constr.DataIsLast; infer_instance

/-- Modelled from the spec: the token memory layout of the spec's interface section
(`[1] IN` to `[8]` length of static data).  The table does not list `OUT`; it is put at
offset 0 here. -/
def Constr.specLayout : Constr :=
  { OUT := 0, IN := 1, IN_OPTION := 2, INOUT_ANGLE := 3, IN_DIST := 4
    IN_CELL_MAX_CONNECTIONS := 5, IN_CELL_BRANCH_NO := 6, IN_CELL_FUNCTION := 7
    IN_CELL_FUNCTION_DATA := 8 }

/-- The simulation parameters read by the tests and by the constructor.  Energies and
distances are exact rationals. -/
structure SimulationParameters where
  cellMinDistance : ℚ
  cellMaxBonds : Nat
  cellMinEnergy : ℚ
  tokenMinEnergy : ℚ
  tokenMemorySize : Nat
  cellFunctionConstructorOffspringCellEnergy : ℚ
  cellFunctionConstructorOffspringCellDistance : ℚ
  cellFunctionConstructorOffspringTokenEnergy : ℚ
deriving DecidableEq

/-- What the test fixture provides besides the parameters: the memory layout, the token
returned by `createSimpleToken()` and the two `QuantityConverter` encoders.  None of them
is among the sources. -/
structure TestFixture where
  parameters : SimulationParameters
  layout : Constr
  simpleToken : TokenDescription
  convertAngleToData : ℚ → Int
  convertDistanceToData : ℚ → Int

namespace ConstructorGpuTests

/-- The struct `TokenForConstructionParameters` with its default member values.  The cell
function type is kept as the numeric value of the enumerator. -/
structure TokenForConstructionParameters where
  energy : Option ℚ := none
  constructionInput : ConstrIn := .DO_NOTHING
  constructionOption : ConstrInOption := .STANDARD
  cellFunctionType : Int := 0
  cellBranchNumber : Int := 0
  maxConnections : Int := 0
  staticData : List Nat := []
  mutableData : List Nat := []
  angle : ℚ := 0
  distance : ℚ := 0

/-- The sequence of writes into `tokenData` in `createTokenForConstruction`. -/
def writeTokenData (fx : TestFixture) (tokenParameters : TokenForConstructionParameters)
    (tokenData : List Nat) : Option (List Nat) := do
  let c := fx.layout
  let d ← QByteArray.setAt tokenData c.IN tokenParameters.constructionInput.code
  let d ← QByteArray.setAt d c.IN_OPTION tokenParameters.constructionOption.code
  let d ← QByteArray.setAt d c.INOUT_ANGLE (fx.convertAngleToData tokenParameters.angle)
  let d ← QByteArray.setAt d c.IN_DIST (fx.convertDistanceToData tokenParameters.distance)
  let d ← QByteArray.setAt d c.IN_CELL_MAX_CONNECTIONS tokenParameters.maxConnections
  let d ← QByteArray.setAt d c.IN_CELL_BRANCH_NO tokenParameters.cellBranchNumber
  let d ← QByteArray.setAt d c.IN_CELL_FUNCTION_DATA tokenParameters.staticData.length
  let d ← QByteArray.replace d (c.IN_CELL_FUNCTION_DATA + 1) tokenParameters.staticData.length
    tokenParameters.staticData
  let mutableDataIndex : Int := c.IN_CELL_FUNCTION_DATA + 1 + tokenParameters.staticData.length
  let d ← QByteArray.setAt d mutableDataIndex tokenParameters.mutableData.length
  QByteArray.replace d (mutableDataIndex + 1) tokenParameters.mutableData.length
    tokenParameters.mutableData

/-- Embedding of `ConstructorGpuTests::createTokenForConstruction`. -/
def createTokenForConstruction (fx : TestFixture)
    (tokenParameters : TokenForConstructionParameters) : Option TokenDescription :=
  match fx.simpleToken.data with
  | none => none
  | some tokenData =>
    match writeTokenData fx tokenParameters tokenData with
    | none => none
    | some d =>
      some { data := some d
             energy := some (tokenParameters.energy.getD
               (2 * fx.parameters.tokenMinEnergy
                 + 2 * fx.parameters.cellFunctionConstructorOffspringCellEnergy)) }

/-- The length-prefixed decoding of the function data in `checkResult`:
`expectedStaticData` and `expectedMutableData`. -/
def decodeFunctionData (c : Constr) (data : List Nat) : Option (List Nat × List Nat) := do
  let expectedStaticDataLength ← QByteArray.charAt data c.IN_CELL_FUNCTION_DATA
  let expectedStaticData ←
    QByteArray.mid data (c.IN_CELL_FUNCTION_DATA + 1) expectedStaticDataLength
  let mutableDataIndex : Int := c.IN_CELL_FUNCTION_DATA + 1 + expectedStaticDataLength
  let expectedMutableDataLength ← QByteArray.charAt data mutableDataIndex
  let expectedMutableData ← QByteArray.mid data (mutableDataIndex + 1) expectedMutableDataLength
  pure (expectedStaticData, expectedMutableData)

end ConstructorGpuTests

/-- A fixture for examples: the spec's layout, a 32-byte token memory filled with zeros
and encoders that round to the nearest integer below. -/
def exampleFixture : TestFixture :=
  { parameters :=
      { cellMinDistance := 3 / 10, cellMaxBonds := 6, cellMinEnergy := 50
        tokenMinEnergy := 3, tokenMemorySize := 32
        cellFunctionConstructorOffspringCellEnergy := 100
        cellFunctionConstructorOffspringCellDistance := 1
        cellFunctionConstructorOffspringTokenEnergy := 60 }
    layout := Constr.specLayout
    simpleToken := { energy := some 0, data := some (List.replicate 32 0) }
    convertAngleToData := fun angle => Int.floor angle
    convertDistanceToData := fun distance => Int.floor distance }


/-! ## The constructor cell function

The handler itself is not among the sources (only its tests are); it is modelled from the
constructor section of the spec.  Where the spec leaves the order of the checks open, the
model checks the token energy first, then the connection limits, then obstacles. -/

/-- Sum of two vectors (`operator+` of `QVector2D`). -/
def QVector2D.add (a b : QVector2D) : QVector2D := ⟨a.x + b.x, a.y + b.y⟩

/-- A vector multiplied by a scalar (`operator*` of `QVector2D`). -/
def QVector2D.scale (a : QVector2D) (f : ℚ) : QVector2D := ⟨a.x * f, a.y * f⟩

namespace ConstrIn

/-- Modelled from the spec: the action named by a byte of the token memory; a byte that
names no action is `none`. -/
def ofByte : Nat → Option ConstrIn
  | 0 => some .DO_NOTHING
  | 1 => some .SAFE
  | 2 => some .UNSAFE
  | 3 => some .BRUTEFORCE
  | _ => none

end ConstrIn

namespace ConstrInOption

/-- Modelled from the spec: the option named by a byte of the token memory. -/
def ofByte : Nat → Option ConstrInOption
  | 0 => some .STANDARD
  | 1 => some .CREATE_EMPTY_TOKEN
  | 2 => some .CREATE_DUP_TOKEN
  | 3 => some .FINISH_NO_SEP
  | 4 => some .FINISH_WITH_SEP
  | 5 => some .FINISH_WITH_SEP_RED
  | 6 => some .FINISH_WITH_TOKEN_SEP_RED
  | _ => none

/-- Modelled from the spec: the options that disconnect the offspring from the
constructor (`FINISH_WITH_SEP`, `FINISH_WITH_SEP_RED`, `FINISH_WITH_TOKEN_SEP_RED`). -/
def separates : ConstrInOption → Bool
  | .FINISH_WITH_SEP => true
  | .FINISH_WITH_SEP_RED => true
  | .FINISH_WITH_TOKEN_SEP_RED => true
  | _ => false

/-- Modelled from the spec: the options that unblock the offspring (the four `FINISH_*`
options). -/
def finishes : ConstrInOption → Bool
  | .FINISH_NO_SEP => true
  | .FINISH_WITH_SEP => true
  | .FINISH_WITH_SEP_RED => true
  | .FINISH_WITH_TOKEN_SEP_RED => true
  | _ => false

/-- Modelled from the spec: the options that reduce the offspring's max-connections by 1
(`FINISH_WITH_SEP_RED`, `FINISH_WITH_TOKEN_SEP_RED`). -/
def reduces : ConstrInOption → Bool
  | .FINISH_WITH_SEP_RED => true
  | .FINISH_WITH_TOKEN_SEP_RED => true
  | _ => false

/-- Modelled from the spec: the options that spawn a token on the offspring
(`CREATE_EMPTY_TOKEN`, `CREATE_DUP_TOKEN`, `FINISH_WITH_TOKEN_SEP_RED`). -/
def spawnsToken : ConstrInOption → Bool
  | .CREATE_EMPTY_TOKEN => true
  | .CREATE_DUP_TOKEN => true
  | .FINISH_WITH_TOKEN_SEP_RED => true
  | _ => false

end ConstrInOption

/-- What the handler takes from modules that are not among the sources: the parameters,
the memory layout, the `QuantityConverter` decoders, the direction (unit vector) from one
point to another and the distance of two points under the toroidal `SpaceMetric`, and the
rotation by an angle that is not a multiple of a quarter turn. -/
structure ConstructorEnvironment where
  parameters : SimulationParameters
  layout : Constr
  convertDataToAngle : Nat → ℚ
  convertDataToDistance : Nat → ℚ
  direction : QVector2D → QVector2D → QVector2D
  distance : QVector2D → QVector2D → ℚ
  rotate : ℚ → QVector2D → QVector2D

/-- Modelled from the spec: the situation in which a token arrives at a constructor cell:
the constructor `C`, the position of its previous neighbour `P`, the token, the other cells
of the constructor's cluster, the cells of foreign clusters, whether the cluster has no
construction history yet, and the ID the offspring will receive. -/
structure ConstructionSite where
  constructorCell : CellDescription
  previousPos : QVector2D
  token : TokenDescription
  ownCells : List CellDescription
  foreignCells : List CellDescription
  firstConstruction : Bool
  offspringId : Nat
deriving DecidableEq

/-- The site whose token holds the byte `distByte` at `IN_DIST` and is otherwise the
same. -/
def ConstructionSite.withDistance (site : ConstructionSite) (c : Constr) (distByte : Nat) :
    ConstructionSite :=
  { site with
    token :=
      { site.token with
        data := site.token.data.map (fun data => data.set c.IN_DIST distByte) } }

/-- Modelled from the spec: the outcome of the handler: the token with `OUT` written, the
constructor cell, the offspring when one was constructed, and the IDs of destroyed
cells. -/
structure ConstructionResult where
  token : TokenDescription
  constructorCell : CellDescription
  constructedCell : Option CellDescription
  destroyedCells : List Nat
deriving DecidableEq

namespace ConstructorFunction

/-- Modelled from the spec: the energy a token must exceed:
`2·tokenMinEnergy + cellFunctionConstructorOffspringCellEnergy`, plus the new-token energy
when the option spawns a token. -/
def energyThreshold (parameters : SimulationParameters) (option : ConstrInOption) : ℚ :=
  2 * parameters.tokenMinEnergy + parameters.cellFunctionConstructorOffspringCellEnergy
    + (if option.spawnsToken then parameters.cellFunctionConstructorOffspringTokenEnergy else 0)

/-- Modelled from the spec: the placement distance: `2·offspringDistance` for a separating
option; otherwise `offspringDistance` for the first offspring (`IN_DIST` is ignored) and
the decoded `IN_DIST` for subsequent cells. -/
def placementDistance (env : ConstructorEnvironment) (firstConstruction : Bool)
    (option : ConstrInOption) (distByte : Nat) : ℚ :=
  if option.separates then 2 * env.parameters.cellFunctionConstructorOffspringCellDistance
  else if firstConstruction then env.parameters.cellFunctionConstructorOffspringCellDistance
  else env.convertDataToDistance distByte

/-- Modelled from the spec: the rotation `R(angle)` of a vector by `angle` degrees.  The
matrix of a quarter turn is rational and is applied here, with the orientation of the tests
(a turn by 90 degrees takes `(1, 0)` to `(0, 1)`); the rotation by any other angle is taken
from the environment. -/
def rotation (env : ConstructorEnvironment) (angle : ℚ) (v : QVector2D) : QVector2D :=
  if angle = 0 then v
  else if angle = 90 then ⟨-v.y, v.x⟩
  else if angle = -90 then ⟨v.y, -v.x⟩
  else if angle = 180 ∨ angle = -180 then ⟨-v.x, -v.y⟩
  else env.rotate angle v

/-- Modelled from the spec: the offspring position `C + R(angle) · u · distance`, `u` being
the unit vector from `P` to `C` and `angle` the decoded `INOUT_ANGLE`. -/
def offspringPosition (env : ConstructorEnvironment) (site : ConstructionSite)
    (constructorPos : QVector2D) (option : ConstrInOption) (angleByte distByte : Nat) :
    QVector2D :=
  constructorPos.add
    ((rotation env (env.convertDataToAngle angleByte)
        (env.direction site.previousPos constructorPos)).scale
      (placementDistance env site.firstConstruction option distByte))

/-- Modelled from the spec: the cells of a list that lie within `cellMinDistance` of a
position. -/
def cellsNear (env : ConstructorEnvironment) (pos : QVector2D) (cells : List CellDescription) :
    List CellDescription :=
  cells.filter (fun cell =>
    match cell.pos with
    | some p => decide (env.distance p pos < env.parameters.cellMinDistance)
    | none => false)

/-- Modelled from the spec: the max-connections of the offspring: `IN_CELL_MAX_CONNECTIONS`
when non-zero, else `max(currentConnections, 2)`; one less under a reducing option. -/
def offspringMaxConnections (option : ConstrInOption) (maxConnectionsByte : Nat)
    (currentConnections : Nat) : Int :=
  (if maxConnectionsByte ≠ 0 then (maxConnectionsByte : Int)
    else ((max currentConnections 2 : Nat) : Int))
    - (if option.reduces then 1 else 0)

/-- Modelled from the spec: the length-prefixed static and mutable payloads at
`IN_CELL_FUNCTION_DATA`. -/
def readFunctionData (c : Constr) (data : List Nat) : List Nat × List Nat :=
  let staticLength := (data[c.IN_CELL_FUNCTION_DATA]?).getD 0
  let mutableIndex := c.IN_CELL_FUNCTION_DATA + 1 + staticLength
  let mutableLength := (data[mutableIndex]?).getD 0
  ((data.drop (c.IN_CELL_FUNCTION_DATA + 1)).take staticLength,
    (data.drop (mutableIndex + 1)).take mutableLength)

/-- Modelled from the spec: the token spawned on the offspring: zeroed memory for
`CREATE_EMPTY_TOKEN` (and for `FINISH_WITH_TOKEN_SEP_RED`), a copy of the incoming memory
for `CREATE_DUP_TOKEN`; in both `branchNumber` (offset 0) is `IN_CELL_BRANCH_NO` and the
energy is `cellFunctionConstructorOffspringTokenEnergy`. -/
def spawnedToken (env : ConstructorEnvironment) (option : ConstrInOption) (data : List Nat)
    (branchByte : Nat) : TokenDescription :=
  { energy := some env.parameters.cellFunctionConstructorOffspringTokenEnergy
    data := some
      ((match option with
        | .CREATE_DUP_TOKEN => data
        | _ => List.replicate env.parameters.tokenMemorySize 0).set 0 branchByte) }

/-- Modelled from the spec: a handler run that ends without mutation: only `OUT` is
written. -/
def finishWith (env : ConstructorEnvironment) (site : ConstructionSite) (data : List Nat)
    (out : ConstrOut) : ConstructionResult :=
  { token := { site.token with data := some (data.set env.layout.OUT out.code.toNat) }
    constructorCell := site.constructorCell
    constructedCell := none
    destroyedCells := [] }

/-- Modelled from the spec: the token memory fields and cell attributes a construction
command reads: the token memory and energy, the action `IN`, the option `IN_OPTION`, the
bytes `INOUT_ANGLE`, `IN_DIST`, `IN_CELL_MAX_CONNECTIONS`, `IN_CELL_BRANCH_NO` and
`IN_CELL_FUNCTION`, and the position and connections of the constructor. -/
structure Command where
  data : List Nat
  energy : ℚ
  input : ConstrIn
  option : ConstrInOption
  angleByte : Nat
  distByte : Nat
  maxConnectionsByte : Nat
  branchByte : Nat
  functionByte : Nat
  constructorPos : QVector2D
  connections : List Nat
deriving DecidableEq

/-- Modelled from the spec: reading a construction command.  The result is `none` when the
token has no energy, the memory is too short or names no option, or the constructor has no
position or connection list. -/
def readCommand (env : ConstructorEnvironment) (site : ConstructionSite) (data : List Nat)
    (input : ConstrIn) : Option Command :=
  match site.token.energy, (data[env.layout.IN_OPTION]?).bind ConstrInOption.ofByte,
    data[env.layout.INOUT_ANGLE]?, data[env.layout.IN_DIST]?,
    data[env.layout.IN_CELL_MAX_CONNECTIONS]?, data[env.layout.IN_CELL_BRANCH_NO]?,
    data[env.layout.IN_CELL_FUNCTION]?, site.constructorCell.pos,
    site.constructorCell.connectingCells with
  | some energy, some option, some angleByte, some distByte, some maxConnectionsByte,
    some branchByte, some functionByte, some constructorPos, some connections =>
    some { data := data, energy := energy, input := input, option := option
           angleByte := angleByte, distByte := distByte
           maxConnectionsByte := maxConnectionsByte, branchByte := branchByte
           functionByte := functionByte, constructorPos := constructorPos
           connections := connections }
  | _, _, _, _, _, _, _, _, _ => none

/-- Modelled from the spec: the offspring of a successful construction: it gets
`cellFunctionConstructorOffspringCellEnergy`, is connected to the constructor unless the
option separates, is token-blocked unless the option finishes, and carries a spawned token
when the option asks for one. -/
def offspring (env : ConstructorEnvironment) (site : ConstructionSite) (cmd : Command) :
    CellDescription :=
  let offspringConnections : List Nat :=
    if cmd.option.separates then [] else [site.constructorCell.id]
  let functionData := readFunctionData env.layout cmd.data
  { id := site.offspringId
    pos := some (offspringPosition env site cmd.constructorPos cmd.option cmd.angleByte
      cmd.distByte)
    energy := some env.parameters.cellFunctionConstructorOffspringCellEnergy
    tokens := some
      (if cmd.option.spawnsToken then
        [spawnedToken env cmd.option cmd.data cmd.branchByte] else [])
    maxConnections := some
      (offspringMaxConnections cmd.option cmd.maxConnectionsByte offspringConnections.length)
    connectingCells := some offspringConnections
    tokenBlocked := some (!cmd.option.finishes)
    tokenBranchNumber := some (cmd.branchByte : Int)
    cellFeature := some
      { type := (cmd.functionByte : Int)
        constData := functionData.1
        volatileData := functionData.2 } }

/-- Modelled from the spec: a successful construction: the offspring cell energy (and the
energy of a spawned token) is taken from the token, `OUT` is `SUCCESS`, and the constructor
lists the offspring among its connecting cells unless the option separates. -/
def construct (env : ConstructorEnvironment) (site : ConstructionSite) (cmd : Command)
    (destroyed : List Nat) : ConstructionResult :=
  { token :=
      { energy := some (cmd.energy - env.parameters.cellFunctionConstructorOffspringCellEnergy
          - (if cmd.option.spawnsToken then
              env.parameters.cellFunctionConstructorOffspringTokenEnergy else 0))
        data := some (cmd.data.set env.layout.OUT ConstrOut.SUCCESS.code.toNat) }
    constructorCell :=
      { site.constructorCell with
        connectingCells := some
          (if cmd.option.separates then cmd.connections
            else cmd.connections ++ [site.offspringId]) }
    constructedCell := some (offspring env site cmd)
    destroyedCells := destroyed }

/-- Modelled from the spec: the cells of foreign clusters within `cellMinDistance` of the
offspring position of a command. -/
def foreignObstacles (env : ConstructorEnvironment) (site : ConstructionSite) (cmd : Command) :
    List CellDescription :=
  cellsNear env
    (offspringPosition env site cmd.constructorPos cmd.option cmd.angleByte cmd.distByte)
    site.foreignCells

/-- Modelled from the spec: the cells of the constructor's own cluster within
`cellMinDistance` of the offspring position of a command. -/
def ownObstacles (env : ConstructorEnvironment) (site : ConstructionSite) (cmd : Command) :
    List CellDescription :=
  cellsNear env
    (offspringPosition env site cmd.constructorPos cmd.option cmd.angleByte cmd.distByte)
    site.ownCells

/-- Modelled from the spec: the obstacle rule of the three actions.  `SAFE` constructs only
if no cell of any cluster is an obstacle, `UNSAFE` only if no foreign cell is and destroys
the overlapping own cells, `BRUTEFORCE` constructs unconditionally and destroys every
overlapping cell. -/
def resolveObstacles (env : ConstructorEnvironment) (site : ConstructionSite) (cmd : Command) :
    ConstructionResult :=
  match cmd.input with
  | .SAFE =>
    if foreignObstacles env site cmd ≠ [] ∨ ownObstacles env site cmd ≠ [] then
      finishWith env site cmd.data .ERROR_OBSTACLE
    else construct env site cmd []
  | .UNSAFE =>
    if foreignObstacles env site cmd ≠ [] then
      finishWith env site cmd.data .ERROR_OBSTACLE
    else construct env site cmd ((ownObstacles env site cmd).map (fun cell => cell.id))
  | _ =>
    construct env site cmd
      ((foreignObstacles env site cmd ++ ownObstacles env site cmd).map (fun cell => cell.id))

/-- Modelled from the spec: executing a construction command.  The token energy must exceed
the threshold (`ERROR_NO_ENERGY`), the new connection must not push the constructor above
`cellMaxBonds` or the offspring above a non-zero `IN_CELL_MAX_CONNECTIONS`
(`ERROR_CONNECTION`), and the obstacle rule of the action must allow the construction
(`ERROR_OBSTACLE`). -/
def execute (env : ConstructorEnvironment) (site : ConstructionSite) (cmd : Command) :
    ConstructionResult :=
  if cmd.energy ≤ energyThreshold env.parameters cmd.option then
    finishWith env site cmd.data .ERROR_NO_ENERGY
  else if env.parameters.cellMaxBonds < cmd.connections.length + 1
      ∨ (cmd.maxConnectionsByte ≠ 0 ∧ cmd.maxConnectionsByte < 1) then
    finishWith env site cmd.data .ERROR_CONNECTION
  else resolveObstacles env site cmd

/-- Modelled from the spec: the constructor cell function.  `DO_NOTHING` only reports
`SUCCESS`; every other action is read as a construction command and executed.  The result
is `none` when the token has no memory or the memory names no action, or when the command
cannot be read. -/
def processing (env : ConstructorEnvironment) (site : ConstructionSite) :
    Option ConstructionResult :=
  match site.token.data with
  | none => none
  | some data =>
    match (data[env.layout.IN]?).bind ConstrIn.ofByte with
    | none => none
    | some .DO_NOTHING => some (finishWith env site data .SUCCESS)
    | some input => (readCommand env site data input).map (execute env site)

/-- The value of `OUT` in the token of a result. -/
def tokenOutput (env : ConstructorEnvironment) (result : ConstructionResult) : Option Int :=
  match result.token.data with
  | some data => QByteArray.charAt data env.layout.OUT
  | none => none

end ConstructorFunction


/-! ## ConstructorGpuTests: the expectations of `checkResult` -/

/-- The offset of `OUT` differs from the offsets of the input fields, so writing `OUT`
leaves them unchanged. -/
def Constr.OutIsSeparate (c : Constr) : Prop :=
  c.OUT ≠ c.IN ∧ c.OUT ≠ c.IN_OPTION ∧ c.OUT ≠ c.IN_CELL_MAX_CONNECTIONS

instance (c : Constr) : Decidable c.OutIsSeparate := by
  unfold Constr.OutIsSeparate; infer_instance

/-- The offset of `IN_DIST` differs from the offsets of the other scalar fields, so writing
`IN_DIST` leaves them unchanged. -/
def Constr.DistIsSeparate (c : Constr) : Prop :=
  c.IN_DIST ≠ c.IN ∧ c.IN_DIST ≠ c.IN_OPTION ∧ c.IN_DIST ≠ c.INOUT_ANGLE ∧
    c.IN_DIST ≠ c.IN_CELL_MAX_CONNECTIONS ∧ c.IN_DIST ≠ c.IN_CELL_BRANCH_NO ∧
    c.IN_DIST ≠ c.IN_CELL_FUNCTION

instance (c : Constr) : Decidable c.DistIsSeparate := by
  unfold Constr.DistIsSeparate; infer_instance

namespace ConstructorGpuTests

/-- The struct `TestResult`. -/
structure TestResult where
  movementOfCenter : QVector2D
  increaseNumberOfCells : Int
  token : TokenDescription
  constructorCell : CellDescription
  constructedCell : Option CellDescription
deriving DecidableEq

/-- The struct `Expectations` with its default member values. -/
structure Expectations where
  tokenOutput : ConstrOut := .SUCCESS
  constructedCellRelPos : Option QVector2D := none
  constructedToken : Option TokenDescription := none
  destruction : Bool := false
deriving DecidableEq

/-- The local `isSeparated` of `checkResult`. -/
def isSeparated (option : Int) : Bool :=
  decide (ConstrInOption.FINISH_WITH_SEP.code = option)
    || decide (ConstrInOption.FINISH_WITH_SEP_RED.code = option)
    || decide (ConstrInOption.FINISH_WITH_TOKEN_SEP_RED.code = option)

/-- The local `isFinished` of `checkResult`. -/
def isFinished (option : Int) : Bool :=
  decide (ConstrInOption.FINISH_NO_SEP.code = option)
    || decide (ConstrInOption.FINISH_WITH_SEP.code = option)
    || decide (ConstrInOption.FINISH_WITH_SEP_RED.code = option)
    || decide (ConstrInOption.FINISH_WITH_TOKEN_SEP_RED.code = option)

/-- The expectation `EXPECT_EQ(expectations._tokenOutput, token.data->at(Enums::Constr::OUT))`
of `checkResult`; `none` when a dereferenced optional is empty. -/
def expectTokenOutput (c : Constr) (testResult : TestResult) (expectations : Expectations) :
    Option Bool := do
  let data ← testResult.token.data
  let out ← QByteArray.charAt data c.OUT
  pure (decide (expectations.tokenOutput.code = out))

/-- The expectation `EXPECT_FALSE(testResult.constructedCell)` of `checkResult`. -/
def expectNoConstructedCell (testResult : TestResult) : Bool :=
  testResult.constructedCell.isNone

/-- The first connection expectation of `checkResult`: the offspring lists the constructor
among its connecting cells exactly when the option does not separate. -/
def expectConstructedCellConnected (c : Constr) (testResult : TestResult) : Option Bool := do
  let data ← testResult.token.data
  let option ← QByteArray.charAt data c.IN_OPTION
  let constructedCell ← testResult.constructedCell
  let connectingCells ← constructedCell.connectingCells
  pure ((!isSeparated option) == decide (testResult.constructorCell.id ∈ connectingCells))

/-- The second connection expectation of `checkResult`: the constructor lists the offspring
among its connecting cells exactly when the option does not separate. -/
def expectConstructorConnected (c : Constr) (testResult : TestResult) : Option Bool := do
  let data ← testResult.token.data
  let option ← QByteArray.charAt data c.IN_OPTION
  let constructedCell ← testResult.constructedCell
  let connectingCells ← testResult.constructorCell.connectingCells
  pure ((!isSeparated option) == decide (constructedCell.id ∈ connectingCells))

/-- The expectation `EXPECT_EQ(!isFinished, testResult.constructedCell->tokenBlocked)` of
`checkResult`. -/
def expectTokenBlocked (c : Constr) (testResult : TestResult) : Option Bool := do
  let data ← testResult.token.data
  let option ← QByteArray.charAt data c.IN_OPTION
  let constructedCell ← testResult.constructedCell
  pure (decide (some (!isFinished option) = constructedCell.tokenBlocked))

/-- The max-connections expectation of `checkResult`: for `expectedMaxConnections == 0` the
offspring's max-connections is `max(number of connecting cells, 2)`, otherwise it is
`expectedMaxConnections`. -/
def expectMaxConnections (c : Constr) (testResult : TestResult) : Option Bool := do
  let data ← testResult.token.data
  let expectedMaxConnections ← QByteArray.charAt data c.IN_CELL_MAX_CONNECTIONS
  let constructedCell ← testResult.constructedCell
  let maxConnections ← constructedCell.maxConnections
  if expectedMaxConnections = 0 then
    let connectingCells ← constructedCell.connectingCells
    pure (decide (max (connectingCells.length : Int) 2 = maxConnections))
  else
    pure (decide (expectedMaxConnections = maxConnections))

/-- The token energy `lowTokenEnergy` of `testConstructFirstCellOnLineCluster_errorNoEnergy`. -/
def lowTokenEnergy (parameters : SimulationParameters) : ℚ :=
  parameters.tokenMinEnergy + parameters.cellFunctionConstructorOffspringCellEnergy / 2

/-- The token energy that `createTokenForConstruction` gives a token when the test names
none: `2 * tokenMinEnergy + 2 * cellFunctionConstructorOffspringCellEnergy`. -/
def defaultTokenEnergy (parameters : SimulationParameters) : ℚ :=
  2 * parameters.tokenMinEnergy + 2 * parameters.cellFunctionConstructorOffspringCellEnergy

/-- The test result that the three fields of a handler outcome make up, together with the
two fields the test computes from the whole data. -/
def testResultOf (result : ConstructionResult) (movementOfCenter : QVector2D)
    (increaseNumberOfCells : Int) : TestResult :=
  { movementOfCenter := movementOfCenter
    increaseNumberOfCells := increaseNumberOfCells
    token := result.token
    constructorCell := result.constructorCell
    constructedCell := result.constructedCell }

end ConstructorGpuTests

/-- An environment for examples: the parameters and layout of `exampleFixture`, angles
decoded as signed bytes in units of `180/128` degrees, distances in units of `1/100`, the
taxicab distance and the direction normalised by it (exact for axis-parallel vectors), and
a rotation that is exact for quarter turns (other angles are not rotated). -/
def exampleEnvironment : ConstructorEnvironment :=
  { parameters := exampleFixture.parameters
    layout := exampleFixture.layout
    convertDataToAngle := fun b => (QByteArray.toInt b : ℚ) * 180 / 128
    convertDataToDistance := fun b => (b : ℚ) / 100
    direction := fun p c =>
      (c.sub p).scale (1 / (|c.x - p.x| + |c.y - p.y|))
    distance := fun a b => |a.x - b.x| + |a.y - b.y|
    rotate := fun angle v =>
      if angle = 90 then ⟨-v.y, v.x⟩
      else if angle = -90 then ⟨v.y, -v.x⟩
      else if angle = 180 ∨ angle = -180 then ⟨-v.x, -v.y⟩
      else v }

/-- Modelled from the spec: the memory of the token in the line-constructor scenario: the
given action, option, angle, distance and max-connections bytes at the offsets of the
spec's layout in a 32-byte memory. -/
def lineClusterTokenData (input : ConstrIn) (option : ConstrInOption)
    (angleByte distByte maxConnectionsByte : Nat) : List Nat :=
  [0, input.code.toNat, option.code.toNat, angleByte, distByte, maxConnectionsByte, 0, 0, 0, 0]
    ++ List.replicate 22 0

/-- Modelled from the spec: the line-constructor scenario: two horizontal cells at
`(10.5, 10.5)` and `(11.5, 10.5)`, the token on the first, the constructor on the second,
and the given cells of foreign clusters. -/
def lineClusterSite (input : ConstrIn) (option : ConstrInOption)
    (angleByte distByte maxConnectionsByte : Nat) (energy : ℚ)
    (foreignCells : List CellDescription) : ConstructionSite :=
  { constructorCell :=
      { id := 2, pos := some ⟨23 / 2, 21 / 2⟩, energy := some 100, tokens := some []
        maxConnections := some 2, connectingCells := some [1] }
    previousPos := ⟨21 / 2, 21 / 2⟩
    token :=
      { energy := some energy
        data := some (lineClusterTokenData input option angleByte distByte maxConnectionsByte) }
    ownCells :=
      [{ id := 1, pos := some ⟨21 / 2, 21 / 2⟩, energy := some 100, tokens := some []
         maxConnections := some 2, connectingCells := some [2] }]
    foreignCells := foreignCells
    firstConstruction := true
    offspringId := 3 }

/-- The command read from the token of `lineClusterSite`. -/
def lineClusterCommand (input : ConstrIn) (option : ConstrInOption)
    (angleByte distByte maxConnectionsByte : Nat) (energy : ℚ) : ConstructorFunction.Command :=
  { data := lineClusterTokenData input option angleByte distByte maxConnectionsByte
    energy := energy
    input := input
    option := option
    angleByte := angleByte
    distByte := distByte
    maxConnectionsByte := maxConnectionsByte
    branchByte := 0
    functionByte := 0
    constructorPos := ⟨23 / 2, 21 / 2⟩
    connections := [1] }

/-- A cell of a foreign cluster at `(12.65, 10.5)`: `cellMinDistance / 2` to the right of
the place `(12.5, 10.5)` where the line-constructor scenario puts its offspring. -/
def obstacleCell : CellDescription :=
  { id := 10, pos := some ⟨253 / 20, 21 / 2⟩, energy := some 100, tokens := some [] }

/-- Line-constructor scenario with `SAFE`, the given option, angle byte 0,
`IN_CELL_MAX_CONNECTIONS = 3`, token energy 300 and no foreign cells. -/
def exampleSite (option : ConstrInOption) : ConstructionSite :=
  lineClusterSite .SAFE option 0 0 3 300 []

/-- The command read from the token of `exampleSite`. -/
def exampleCommand (option : ConstrInOption) : ConstructorFunction.Command :=
  lineClusterCommand .SAFE option 0 0 3 300

/-- The successful construction in `exampleSite`. -/
def exampleResult (option : ConstrInOption) : ConstructionResult :=
  ConstructorFunction.construct exampleEnvironment (exampleSite option) (exampleCommand option) []

/-- The offspring constructed in `exampleSite`. -/
def exampleOffspring (option : ConstrInOption) : CellDescription :=
  ConstructorFunction.offspring exampleEnvironment (exampleSite option) (exampleCommand option)

/-- Line-constructor scenario with `SAFE`, `STANDARD`, the given bytes at `INOUT_ANGLE` and
`IN_DIST`, `IN_CELL_MAX_CONNECTIONS = 3`, token energy 300 and no foreign cells.  In
`exampleEnvironment` the angle bytes 0, 64 and 192 stand for 0, 90 and -90 degrees and the
distance bytes 50 and 200 for half and double the offspring distance. -/
def angleSite (angleByte distByte : Nat) : ConstructionSite :=
  lineClusterSite .SAFE .STANDARD angleByte distByte 3 300 []

/-- The command read from the token of `angleSite`. -/
def angleCommand (angleByte distByte : Nat) : ConstructorFunction.Command :=
  lineClusterCommand .SAFE .STANDARD angleByte distByte 3 300

/-- The successful construction in `angleSite`. -/
def angleResult (angleByte distByte : Nat) : ConstructionResult :=
  ConstructorFunction.construct exampleEnvironment (angleSite angleByte distByte)
    (angleCommand angleByte distByte) []

/-- The offspring constructed in `angleSite`. -/
def angleOffspring (angleByte distByte : Nat) : CellDescription :=
  ConstructorFunction.offspring exampleEnvironment (angleSite angleByte distByte)
    (angleCommand angleByte distByte)

/-- Line-constructor scenario with `SAFE`, `STANDARD`, the token energy
`tokenMinEnergy + offspringCellEnergy / 2 = 53` of the no-energy test, and the given
foreign cells. -/
def lowEnergySite (foreignCells : List CellDescription) : ConstructionSite :=
  lineClusterSite .SAFE .STANDARD 0 0 0 53 foreignCells

/-- Line-constructor scenario with `SAFE`, `STANDARD`, the default token energy
`2 * 3 + 2 * 100 = 206` of the tests and the foreign cell `obstacleCell`. -/
def obstacleSite : ConstructionSite :=
  lineClusterSite .SAFE .STANDARD 0 0 0 206 [obstacleCell]


/-! ## UnitThreadControllerImpl: scheduling of the unit threads

Only the header of `UnitThreadControllerImpl` is among the sources; the bodies of its member
functions are modelled from the spec.  A unit is identified by its grid position. -/

/-- Modelled from the spec: the per-unit state `{Ready, Running, Finished}`. -/
inductive UnitState where
  | Ready | Running | Finished
deriving DecidableEq

/-- Modelled from the spec: the controller with `_maxRunningThreads`, the units in the order
of `registerUnit`, the dependencies of each unit (the units of the eight neighbour contexts
of its compartment) and the state of every unit. -/
structure UnitThreadControllerImpl where
  maxRunningThreads : Int := 1
  units : List IntVector2D := []
  dependencies : IntVector2D → List IntVector2D := fun _ => []
  state : IntVector2D → UnitState := fun _ => .Ready

namespace UnitThreadControllerImpl

/-- Modelled from the spec: `init(maxRunningThreads)` sets the bound on running threads. -/
def init (c : UnitThreadControllerImpl) (maxRunningThreads : Int) : UnitThreadControllerImpl :=
  { c with maxRunningThreads := maxRunningThreads }

/-- Modelled from the spec: `registerUnit(unit)` appends the unit, which starts `Ready`. -/
def registerUnit (c : UnitThreadControllerImpl) (unit : IntVector2D) :
    UnitThreadControllerImpl :=
  { c with units := c.units ++ [unit] }

/-- Modelled from the spec: the number of units that are `Running`. -/
def numRunning (c : UnitThreadControllerImpl) : Nat :=
  (c.units.toFinset.filter (fun u => c.state u = .Running)).card

/-- Modelled from the spec: a unit is ready when it has not yet stepped for the current tick
(its state is `Ready`) and none of its eight neighbours is currently stepping. -/
def isReady (c : UnitThreadControllerImpl) (unit : IntVector2D) : Bool :=
  decide (c.state unit = .Ready) && (c.dependencies unit).all (fun v => c.state v ≠ .Running)

/-- Modelled from the spec: the unit is dispatched, that is set to `Running`, when it is ready
and fewer than `maxRunningThreads` units are running. -/
def dispatch (c : UnitThreadControllerImpl) (unit : IntVector2D) : UnitThreadControllerImpl :=
  if c.isReady unit = true ∧ (c.numRunning : Int) < c.maxRunningThreads then
    { c with state := Function.update c.state unit .Running }
  else c

/-- Modelled from the spec: `searchAndExecuteReadyThreads` scans the units by index and
dispatches each one that is ready. -/
def searchAndExecuteReadyThreads (c : UnitThreadControllerImpl) : UnitThreadControllerImpl :=
  c.units.foldl dispatch c

/-- Modelled from the spec: `isNoThreadWorking`: no unit is `Running`. -/
def isNoThreadWorking (c : UnitThreadControllerImpl) : Bool :=
  c.units.all (fun u => c.state u ≠ .Running)

/-- Modelled from the spec: `areAllThreadsFinished`: every unit is `Finished`. -/
def areAllThreadsFinished (c : UnitThreadControllerImpl) : Bool :=
  c.units.all (fun u => c.state u = .Finished)

/-- Modelled from the spec: `setAllUnitsReady` resets every unit to `Ready`. -/
def setAllUnitsReady (c : UnitThreadControllerImpl) : UnitThreadControllerImpl :=
  { c with state := fun _ => .Ready }

/-- Modelled from the spec: the unit of a worker that finished becomes `Finished`. -/
def setFinished (c : UnitThreadControllerImpl) (sender : IntVector2D) :
    UnitThreadControllerImpl :=
  { c with state := Function.update c.state sender .Finished }

/-- Modelled from the spec: `calculateTimestep` starts a tick unless a unit is still
running: it dispatches the ready units and reports whether the tick was started. -/
def calculateTimestep (c : UnitThreadControllerImpl) : UnitThreadControllerImpl × Bool :=
  if c.isNoThreadWorking = true then (c.searchAndExecuteReadyThreads, true) else (c, false)

/-- Modelled from the spec: `threadFinishedCalculation(sender)`: the unit of the worker that
finished becomes `Finished`; when all units are `Finished` the tick is complete and all are
reset to `Ready`, otherwise the controller scans for ready units and dispatches them. -/
def threadFinishedCalculation (c : UnitThreadControllerImpl) (sender : IntVector2D) :
    UnitThreadControllerImpl :=
  if (c.setFinished sender).areAllThreadsFinished = true then
    (c.setFinished sender).setAllUnitsReady
  else (c.setFinished sender).searchAndExecuteReadyThreads

/-- One call of a slot of the controller. -/
inductive Call where
  | calculateTimestep
  | threadFinishedCalculation (sender : IntVector2D)
deriving DecidableEq

/-- The controller after one call. -/
def call (c : UnitThreadControllerImpl) : Call → UnitThreadControllerImpl
  | .calculateTimestep => c.calculateTimestep.1
  | .threadFinishedCalculation sender => c.threadFinishedCalculation sender

/-- The controller after a sequence of calls. -/
def run (c : UnitThreadControllerImpl) (calls : List Call) : UnitThreadControllerImpl :=
  calls.foldl call c

/-- The positions that `getContextFromDelta` of `buildSimulationController` looks up for the
eight neighbours of the unit at `gridPos`, in the order of the registrations. -/
def gridDependencies (gridSize gridPos : IntVector2D) : List IntVector2D :=
  ModelBuilderFacadeImpl.registrationOrder.map (fun location =>
    ⟨Int.tmod (gridPos.x + (ModelBuilderFacadeImpl.deltaOf location).x + gridSize.x) gridSize.x,
     Int.tmod (gridPos.y + (ModelBuilderFacadeImpl.deltaOf location).y + gridSize.y)
       gridSize.y⟩)

/-- Modelled from the spec: the controller of a unit grid after `init`, the `registerUnit`
calls of `buildSimulationController` and `updateDependencies`: all units are `Ready`. -/
def ofGrid (gridSize : IntVector2D) (maxRunningThreads : Int) : UnitThreadControllerImpl :=
  { maxRunningThreads := maxRunningThreads
    units := ModelBuilderFacadeImpl.gridPositions gridSize
    dependencies := gridDependencies gridSize
    state := fun _ => .Ready }

/-- The invariant of the scheduler: only registered units run, two different units of which
one depends on the other do not both run, and at most `maxRunningThreads` units run. -/
def Exclusive (c : UnitThreadControllerImpl) : Prop :=
  (∀ u, c.state u = .Running → u ∈ c.units) ∧
  (∀ u v, u ≠ v → v ∈ c.dependencies u → ¬ (c.state u = .Running ∧ c.state v = .Running)) ∧
  (c.numRunning : Int) ≤ c.maxRunningThreads

/-- The dependencies are symmetric among the registered units. -/
def SymmetricDependencies (c : UnitThreadControllerImpl) : Prop :=
  ∀ u ∈ c.units, ∀ v ∈ c.units, v ∈ c.dependencies u → u ∈ c.dependencies v

end UnitThreadControllerImpl


/-! ## Decomposition of a cluster after the loss of a cell

The decomposition step of the unit pipeline is not among the sources; it is modelled from
the spec.  The model determines which cells of the original cluster make up each resulting
cluster. -/

namespace ClusterDecomposition

/-- Modelled from the spec: a cell is removed when its energy is below `cellMinEnergy`. -/
def isRemoved (parameters : SimulationParameters) (cell : CellDescription) : Bool :=
  match cell.energy with
  | some energy => decide (energy < parameters.cellMinEnergy)
  | none => false

/-- Modelled from the spec: the cells of the cluster that are not removed, in their order in
the cluster. -/
def remainingCells (parameters : SimulationParameters) (cluster : ClusterDescription) :
    List CellDescription :=
  (cluster.cells.getD []).filter (fun cell => !isRemoved parameters cell)

/-- Modelled from the spec: an edge of the connection graph: the id of `b` is among the
connecting cells of `a`. -/
def connectedTo (a b : CellDescription) : Bool :=
  (a.connectingCells.getD []).contains b.id

/-- Modelled from the spec: the component holds a cell with the id of `cell`. -/
def inComponent (component : List CellDescription) (cell : CellDescription) : Bool :=
  component.any (fun d => d.id == cell.id)

/-- Modelled from the spec: one round of the component search: the cells of the pool that
are not yet in the component and are connected to one of its cells are added. -/
def grow (pool component : List CellDescription) : List CellDescription :=
  component ++ pool.filter (fun cell =>
    !inComponent component cell && component.any (fun d => connectedTo d cell))

/-- Modelled from the spec: the connected component of `seed` among the cells of the pool:
as many rounds as the pool has cells. -/
def componentOf (pool : List CellDescription) (seed : CellDescription) :
    List CellDescription :=
  (grow pool)^[pool.length] [seed]

/-- Modelled from the spec: the connected components of the cells: the component of the
first cell, then the components of the cells outside it. -/
def componentsAux : Nat → List CellDescription → List (List CellDescription)
  | 0, _ => []
  | _ + 1, [] => []
  | fuel + 1, seed :: rest =>
    componentOf rest seed ::
      componentsAux fuel (rest.filter (fun cell => !inComponent (componentOf rest seed) cell))

/-- Modelled from the spec: the connected components of the connection graph on the given
cells. -/
def components (cells : List CellDescription) : List (List CellDescription) :=
  componentsAux cells.length cells

/-- Modelled from the spec: the decomposition of a cluster: the cells below `cellMinEnergy`
are removed and the connected components of the connection graph on the remaining cells
are the cell sets of the new clusters. -/
def decompose (parameters : SimulationParameters) (cluster : ClusterDescription) :
    List (List CellDescription) :=
  components (remainingCells parameters cluster)

/-- The cells of a cell set are linked: both belong to it and one is a connecting cell of
the other. -/
def Linked (cells : List CellDescription) (a b : CellDescription) : Prop :=
  a ∈ cells ∧ b ∈ cells ∧ (connectedTo a b = true ∨ connectedTo b a = true)

/-- The connection data of a cell: its id and its connecting cells, without the other
members. -/
def skeleton (cell : CellDescription) : CellDescription :=
  { id := cell.id, pos := none, energy := none, tokens := none
    connectingCells := cell.connectingCells }

/-- The cell with its id and the ids of its connecting cells renamed by `f`. -/
def relabel (f : Nat → Nat) (cell : CellDescription) : CellDescription :=
  { cell with id := f cell.id, connectingCells := cell.connectingCells.map (List.map f) }

end ClusterDecomposition

namespace SimulationGpuTest

/-- The cell with index `i < 30` of the cluster of `testDecomposeClusterAfterLowEnergy`
after the connections were set: on the vertical line at `(100, 100 + i)`, connected to its
predecessor and successor on the line, the cell with index 15 of low energy and connected
to the left and the right cell as well.  The cell with index `i` has the id `ids (i + 1)`,
the `(i + 1)`-th id drawn after the id of the cluster. -/
def lineCell (parameters : SimulationParameters) (ids : Nat → Nat) (i : Nat) :
    CellDescription :=
  { id := ids (i + 1)
    pos := some ⟨100, 100 + (i : ℚ)⟩
    energy := some (if i = 15 then parameters.cellMinEnergy / 2
      else parameters.cellMinEnergy * 2)
    tokens := none
    maxConnections := some 4
    connectingCells := some ((if 0 < i then [ids i] else [])
      ++ (if i < 30 - 1 then [ids (i + 2)] else [])
      ++ (if i = 15 then [ids 31, ids 32] else [])) }

/-- The cell `leftCell` of the test (index 30), connected to the cell with index 15. -/
def leftCell (parameters : SimulationParameters) (ids : Nat → Nat) : CellDescription :=
  { id := ids 31, pos := some ⟨99, 115⟩, energy := some (parameters.cellMinEnergy * 2)
    tokens := none, maxConnections := some 4, connectingCells := some [ids 16] }

/-- The cell `rightCell` of the test (index 31), connected to the cell with index 15. -/
def rightCell (parameters : SimulationParameters) (ids : Nat → Nat) : CellDescription :=
  { id := ids 32, pos := some ⟨101, 115⟩, energy := some (parameters.cellMinEnergy * 2)
    tokens := none, maxConnections := some 4, connectingCells := some [ids 16] }

/-- The cluster that `testDecomposeClusterAfterLowEnergy` hands to the simulation: the 30
cells of the line, then the left and the right cell.  The position of the cluster is not
used here. -/
def decomposeTestCluster (parameters : SimulationParameters) (ids : Nat → Nat) :
    ClusterDescription :=
  { id := ids 0, pos := none, vel := some ⟨0, 0⟩, angularVel := some 0
    cells := some ((List.range 30).map (lineCell parameters ids)
      ++ [leftCell parameters ids, rightCell parameters ids]) }

end SimulationGpuTest


/-! ## Arithmetic of `double`

A finite `double` is the rational number it stands for.  An operation on `double`s yields
the exact result rounded to the nearest value of the IEEE 754 binary64 format, a tie going
to the value with the even significand (the default rounding mode of the C++ runtime). -/

namespace Binary64

/-- The exponent of the binade of `x`: `⌊log₂ |x|⌋`, but not below `-1022`, the exponent of
the subnormal numbers. -/
def exponent (x : ℚ) : Int := max (Int.log 2 |x|) (-1022)

/-- The unit in the last place: the spacing `2 ^ (exponent x - 52)` of the binary64
values in the binade of `x` (the significand has 53 bits). -/
def ulp (x : ℚ) : ℚ := (2 : ℚ) ^ (exponent x - 52)

/-- The integer nearest to `y`; of two equally near integers the even one. -/
def roundHalfEven (y : ℚ) : Int :=
  if y - ⌊y⌋ < 1 / 2 then ⌊y⌋
  else if 1 / 2 < y - ⌊y⌋ then ⌊y⌋ + 1
  else if ⌊y⌋ % 2 = 0 then ⌊y⌋ else ⌊y⌋ + 1

/-- Rounding of an exact result to binary64: the multiple of `ulp x` nearest to `x`, ties to
the even multiple; the rounding is symmetric in the sign.  A result of magnitude `2 ^ 1024`
or more stands for an infinite `double`. -/
def round (x : ℚ) : ℚ :=
  if 0 ≤ x then (roundHalfEven (x / ulp x) : ℚ) * ulp x
  else -((roundHalfEven (-x / ulp x) : ℚ) * ulp x)

/-- The rational `x` is the value of a finite `double`. -/
def IsDouble (x : ℚ) : Prop := round x = x ∧ |x| < 2 ^ 1024

instance (x : ℚ) : Decidable (IsDouble x) := by
  unfold IsDouble; infer_instance

end Binary64

/-! ## NumberGeneratorImpl: sequences of draws and reals in an interval -/

namespace NumberGeneratorImpl

/-- The words returned by `n` consecutive calls of `getNumberFromArray`, first call first,
and the state after them. -/
def draws : Nat → NumberGeneratorImpl → Option (List Nat × NumberGeneratorImpl)
  | 0, g => some ([], g)
  | n + 1, g =>
    match g.getNumberFromArray with
    | none => none
    | some (w, g') =>
      match draws n g' with
      | none => none
      | some (ws, g'') => some (w :: ws, g'')

/-- Embedding of `NumberGeneratorImpl::getRandomReal(double min, double max)` for finite
`double` arguments.  Each of the four `double` operations (the difference, the product with
`1000`, the quotient by `1000.0` and the sum) yields the exact result rounded by
`Binary64.round`; the conversion of the 32-bit word to `double` is exact.  The argument of
`getLargeRandomInt` is converted to `uint32_t`: the fractional part is discarded, and a
value whose integral part is not a 32-bit unsigned number is undefined: `none` (this
includes a difference or product beyond the `double` range, which is infinite in the
source). -/
def getRandomRealMinMax (g : NumberGeneratorImpl) (min max : ℚ) :
    Option (ℚ × NumberGeneratorImpl) :=
  let scaled := Binary64.round (Binary64.round (max - min) * 1000)
  if scaled ≤ -1 ∨ (UInt32Size : ℚ) ≤ scaled then none
  else
    match g.getLargeRandomInt ⌊scaled⌋.toNat with
    | none => none
    | some (j, g') => some (Binary64.round (Binary64.round ((j : ℚ) / 1000) + min), g')

end NumberGeneratorImpl


/-! ## ModelBuilderFacadeImpl: opposite relative locations -/

/-- The relative location on the opposite side: Left and Right, Upper and Lower, UpperLeft
and LowerRight, UpperRight and LowerLeft. -/
def RelativeLocation.opposite : RelativeLocation → RelativeLocation
  | .UpperLeft => .LowerRight
  | .Upper => .Lower
  | .UpperRight => .LowerLeft
  | .Left => .Right
  | .Right => .Left
  | .LowerLeft => .UpperRight
  | .Lower => .Upper
  | .LowerRight => .UpperLeft


/-! ## SimulationGpuTest: the data of the fusion test -/

namespace SimulationGpuTest

/-- What `testFusionOfSingleParticles` builds before it hands the data to the simulation:
the two ids it draws, the data `origData` with the two particles, and the generator after
the draws.  `0.5` is the rational `1 / 2`. -/
structure FusionTestSetup where
  particleId1 : Nat
  particleId2 : Nat
  origData : DataDescription
  numberGen : NumberGeneratorImpl

/-- Embedding of the first part of `testFusionOfSingleParticles`, up to the call of
`updateData`. -/
def fusionTestSetup (parameters : SimulationParameters) (numberGen : NumberGeneratorImpl) :
    FusionTestSetup :=
  let particleEnergy := parameters.cellMinEnergy / 2
  let particleId1 := numberGen.getId.1
  let particle1 : ParticleDescription :=
    { id := particleId1, energy := some particleEnergy, pos := some ⟨100, 100⟩
      vel := some ⟨1 / 2, 0⟩ }
  let particleId2 := numberGen.getId.2.getId.1
  let particle2 : ParticleDescription :=
    { id := particleId1, energy := some particleEnergy, pos := some ⟨110, 100⟩
      vel := some ⟨-1 / 2, 0⟩ }
  { particleId1 := particleId1
    particleId2 := particleId2
    origData := { clusters := none, particles := some [particle1, particle2] }
    numberGen := numberGen.getId.2.getId.2 }

end SimulationGpuTest

/-! ## Fusion of particles

The step pipeline of a unit is not among the sources.  The part of it that concerns
particles is modelled from the spec: particles move with their velocity and particles that
occupy the same grid location merge. -/

/-- Modelled from the spec: a particle of the engine with its id, position, velocity and
energy. -/
structure Particle where
  id : Nat
  pos : QVector2D
  vel : QVector2D
  energy : ℚ
deriving DecidableEq

/-- What the spec leaves open about fusion: the id and the position of a merged particle,
and which of the particles whose energy exceeds `cellMinEnergy` have a velocity low enough
to seed a one-cell cluster. -/
structure FusionChoices where
  id : Particle → Particle → Nat
  pos : Particle → Particle → QVector2D
  seeds : Particle → Bool

/-- Modelled from the spec: the particles of the engine and the particles that seeded a
one-cell cluster. -/
structure ParticleWorld where
  particles : List Particle
  seededClusters : List Particle
deriving DecidableEq

namespace ParticleFusion

/-- Modelled from the spec: `SpaceMetric.normalize` reduces the coordinates modulo the
universe size. -/
def normalize (universeSize : IntVector2D) (p : QVector2D) : QVector2D :=
  ⟨p.x - universeSize.x * ⌊p.x / universeSize.x⌋, p.y - universeSize.y * ⌊p.y / universeSize.y⌋⟩

/-- Modelled from the spec: the integer grid location of a position. -/
def gridLocation (p : QVector2D) : IntVector2D := ⟨⌊p.x⌋, ⌊p.y⌋⟩

/-- Modelled from the spec: the particle two particles merge into: its energy is the sum of
both energies and its velocity the energy-weighted mean of both velocities. -/
def merge (choices : FusionChoices) (p q : Particle) : Particle :=
  { id := choices.id p q
    pos := choices.pos p q
    vel := ⟨(p.energy * p.vel.x + q.energy * q.vel.x) / (p.energy + q.energy),
            (p.energy * p.vel.y + q.energy * q.vel.y) / (p.energy + q.energy)⟩
    energy := p.energy + q.energy }

/-- Modelled from the spec: a particle is put among the particles already resolved: it
merges with the particle that occupies its grid location, if there is one. -/
def insertParticle (choices : FusionChoices) : List Particle → Particle → List Particle
  | [], p => [p]
  | q :: rest, p =>
    if gridLocation q.pos = gridLocation p.pos then merge choices q p :: rest
    else q :: insertParticle choices rest p

/-- Modelled from the spec: the fusion phase on a list of particles. -/
def fuse (choices : FusionChoices) (particles : List Particle) : List Particle :=
  particles.foldl (insertParticle choices) []

/-- Modelled from the spec: a particle whose energy exceeds `cellMinEnergy` and whose
velocity is low enough seeds a one-cell cluster. -/
def seedsCluster (parameters : SimulationParameters) (choices : FusionChoices)
    (p : Particle) : Bool :=
  decide (parameters.cellMinEnergy < p.energy) && choices.seeds p

/-- Modelled from the spec: motion of a particle during one tick. -/
def move (universeSize : IntVector2D) (p : Particle) : Particle :=
  { p with pos := normalize universeSize ⟨p.pos.x + p.vel.x, p.pos.y + p.vel.y⟩ }

/-- Modelled from the spec: one tick for the particles: motion, then fusion, then the
seeding of one-cell clusters. -/
def tick (parameters : SimulationParameters) (choices : FusionChoices)
    (universeSize : IntVector2D) (world : ParticleWorld) : ParticleWorld :=
  { particles := (fuse choices (world.particles.map (move universeSize))).filter
      (fun p => !seedsCluster parameters choices p)
    seededClusters := world.seededClusters ++
      (fuse choices (world.particles.map (move universeSize))).filter
        (fun p => seedsCluster parameters choices p) }

/-- Modelled from the spec: `n` ticks. -/
def run (parameters : SimulationParameters) (choices : FusionChoices)
    (universeSize : IntVector2D) (n : Nat) (world : ParticleWorld) : ParticleWorld :=
  (tick parameters choices universeSize)^[n] world

/-- Modelled from the spec: a particle description with position, velocity and energy as a
particle of the engine. -/
def ofDescription (d : ParticleDescription) : Option Particle :=
  match d.pos, d.vel, d.energy with
  | some pos, some vel, some energy => some { id := d.id, pos := pos, vel := vel, energy := energy }
  | _, _, _ => none

/-- Modelled from the spec: the world after a data description without clusters was
handed to the engine. -/
def load (data : DataDescription) : Option ParticleWorld :=
  ((data.particles.getD []).mapM ofDescription).map
    (fun particles => { particles := particles, seededClusters := [] })

/-- The sum of the energies of the particles. -/
def totalEnergy (particles : List Particle) : ℚ := (particles.map (fun p => p.energy)).sum

/-- The first particle of the fusion test after `k` ticks without fusion. -/
def firstParticle (parameters : SimulationParameters) (id : Nat) (k : Nat) : Particle :=
  { id := id, pos := ⟨100 + (k : ℚ) / 2, 100⟩, vel := ⟨1 / 2, 0⟩
    energy := parameters.cellMinEnergy / 2 }

/-- The second particle of the fusion test after `k` ticks without fusion. -/
def secondParticle (parameters : SimulationParameters) (id : Nat) (k : Nat) : Particle :=
  { id := id, pos := ⟨110 - (k : ℚ) / 2, 100⟩, vel := ⟨-1 / 2, 0⟩
    energy := parameters.cellMinEnergy / 2 }

end ParticleFusion

/-- Choices for examples: a merged particle keeps the id and the position of the first of
the two, and every particle whose energy exceeds `cellMinEnergy` seeds a cluster. -/
def exampleChoices : FusionChoices :=
  { id := fun p _ => p.id, pos := fun p _ => p.pos, seeds := fun _ => true }


/-! ### Helper lemmas on the ID allocator -/

namespace NumberGeneratorImpl

theorem afterIds_runningNumber (n : Nat) (g : NumberGeneratorImpl) :
    (afterIds n g)._runningNumber = (g._runningNumber % UInt64Size + n) % UInt64Size ∨
      (n = 0 ∧ afterIds n g = g) := by
  induction n with
  | zero => right; exact ⟨rfl, rfl⟩
  | succ n ih =>
    left
    rcases ih with h | ⟨h0, hg⟩
    · simp only [afterIds, getId, h, UInt64Size]
      omega
    · subst h0
      simp only [afterIds, getId, UInt64Size]
      omega

theorem afterIds_threadId (n : Nat) (g : NumberGeneratorImpl) :
    (afterIds n g)._threadId = g._threadId := by
  induction n with
  | zero => rfl
  | succ n ih => simpa [afterIds, getId] using ih

theorem afterIds_ring (n : Nat) (g : NumberGeneratorImpl) :
    (afterIds n g)._arrayOfRandomNumbers = g._arrayOfRandomNumbers ∧
      (afterIds n g)._index = g._index := by
  induction n with
  | zero => exact ⟨rfl, rfl⟩
  | succ n ih => simpa [afterIds, getId] using ih

/-- After `init`, `n` calls of `getId` leave the counter at `n mod 2^64`. -/
theorem afterIds_init_runningNumber (n : Nat) (g : NumberGeneratorImpl) (entropy : Nat → Nat)
    (arraySize t : Nat) :
    (afterIds n (g.init entropy arraySize t))._runningNumber = n % UInt64Size := by
  rcases afterIds_runningNumber n (g.init entropy arraySize t) with h | ⟨h0, hg⟩
  · rw [h]; simp [init]
  · subst h0; rw [hg]; simp [init, UInt64Size]

/-- The `k`-th ID after `init` is the bitwise or of the shifted shard number and
`k mod 2^64`. -/
theorem kthId_init (g : NumberGeneratorImpl) (entropy : Nat → Nat) (arraySize t k : Nat)
    (hk : 1 ≤ k) :
    kthId (g.init entropy arraySize t) k
      = (((t % UInt16Size) * 2 ^ 48) % UInt64Size) ||| (k % UInt64Size) := by
  unfold kthId
  simp only [getId]
  rw [afterIds_threadId, afterIds_init_runningNumber]
  have : ((k - 1) % UInt64Size + 1) % UInt64Size = k % UInt64Size := by
    have h1 : k - 1 + 1 = k := by omega
    conv_rhs => rw [← h1]
    rw [Nat.add_mod (k - 1) 1]
    simp [UInt64Size]
  rw [this]
  simp [init]

/-- Bitwise or with a value below `2^48` is addition when the other operand is a
multiple of `2^48`. -/
theorem shl48_or (a b : Nat) (hb : b < 2 ^ 48) : (a * 2 ^ 48) ||| b = a * 2 ^ 48 + b := by
  rw [Nat.mul_comm]
  exact (Nat.mul_add_lt_is_or hb a).symm

/-- Closed form of the `k`-th ID for a 16-bit shard number and `1 ≤ k < 2^48`. -/
theorem kthId_init_eq (g : NumberGeneratorImpl) (entropy : Nat → Nat) (arraySize t k : Nat)
    (ht : t < 2 ^ 16) (hk : 1 ≤ k) (hk' : k < 2 ^ 48) :
    kthId (g.init entropy arraySize t) k = t * 2 ^ 48 + k := by
  rw [kthId_init g entropy arraySize t k hk]
  have h1 : t % UInt16Size = t := Nat.mod_eq_of_lt (by simpa [UInt16Size] using ht)
  have h2 : (t * 2 ^ 48) % UInt64Size = t * 2 ^ 48 := by
    apply Nat.mod_eq_of_lt
    have : t * 2 ^ 48 < 2 ^ 16 * 2 ^ 48 := by
      apply Nat.mul_lt_mul_of_pos_right ht (by norm_num)
    simpa [UInt64Size] using this
  have h3 : k % UInt64Size = k := by
    apply Nat.mod_eq_of_lt
    have : (2:Nat) ^ 48 < 2 ^ 64 := by norm_num
    simp only [UInt64Size]; omega
  rw [h1, h2, h3]
  exact shl48_or t k hk'

/-- Bitwise or of two multiples of `2^48`. -/
theorem shl48_or_distrib (a b : Nat) : (a * 2 ^ 48) ||| (b * 2 ^ 48) = (a ||| b) * 2 ^ 48 := by
  simp only [← Nat.shiftLeft_eq]
  apply Nat.eq_of_testBit_eq
  intro i
  simp only [Nat.testBit_or, Nat.testBit_shiftLeft]
  by_cases h : 48 ≤ i <;> simp [h]

/-- The `2^48`-th ID after `init` with a 16-bit shard number `t`. -/
theorem kthId_init_exhausted (g : NumberGeneratorImpl) (entropy : Nat → Nat)
    (arraySize t : Nat) (ht : t < 2 ^ 16) :
    kthId (g.init entropy arraySize t) (2 ^ 48) = (t ||| 1) * 2 ^ 48 := by
  rw [kthId_init g entropy arraySize t (2 ^ 48) (by norm_num)]
  have h1 : t % UInt16Size = t := Nat.mod_eq_of_lt (by simpa [UInt16Size] using ht)
  have h2 : (t * 2 ^ 48) % UInt64Size = t * 2 ^ 48 := by
    apply Nat.mod_eq_of_lt
    have : t * 2 ^ 48 < 2 ^ 16 * 2 ^ 48 := by
      apply Nat.mul_lt_mul_of_pos_right ht (by norm_num)
    simpa [UInt64Size] using this
  have h3 : (2 ^ 48) % UInt64Size = 1 * 2 ^ 48 := by simp [UInt64Size]
  rw [h1, h2, h3]
  exact shl48_or_distrib t 1

/-! ### Helper lemmas on the random stream -/

/-- On a non-empty ring a draw succeeds; it moves the index one step round the ring and
returns the word found there. -/
theorem getNumberFromArray_eq (g : NumberGeneratorImpl) (h : g._arrayOfRandomNumbers ≠ []) :
    ∃ w, g._arrayOfRandomNumbers[(g._index + 1) % g._arrayOfRandomNumbers.length]? = some w ∧
      g.getNumberFromArray
        = some (w, { g with _index := (g._index + 1) % g._arrayOfRandomNumbers.length }) := by
  have hpos : 0 < g._arrayOfRandomNumbers.length := List.length_pos.mpr h
  have hlt : (g._index + 1) % g._arrayOfRandomNumbers.length < g._arrayOfRandomNumbers.length :=
    Nat.mod_lt _ hpos
  refine ⟨g._arrayOfRandomNumbers[(g._index + 1) % g._arrayOfRandomNumbers.length], ?_, ?_⟩
  · exact List.getElem?_eq_getElem hlt
  · unfold getNumberFromArray
    rw [if_neg (by omega)]
    simp only [List.getElem?_eq_getElem hlt]

/-- The word returned by a draw is an element of the ring. -/
theorem getNumberFromArray_mem (g g' : NumberGeneratorImpl) (w : Nat)
    (h : g.getNumberFromArray = some (w, g')) : w ∈ g._arrayOfRandomNumbers := by
  unfold getNumberFromArray at h
  split at h
  · simp at h
  · simp only at h
    split at h
    · simp at h
    · rename_i w' hw
      simp only [Option.some.injEq, Prod.mk.injEq] at h
      rw [← h.1]
      exact List.getElem?_mem hw

/-- Setting the lowest bit of a number. -/
theorem or_one_eq (t : Nat) : t ||| 1 = 2 * (t / 2) + 1 := by
  have key : 2 ^ 1 * (t / 2) + 1 = 2 ^ 1 * (t / 2) ||| 1 :=
    Nat.mul_add_lt_is_or (by norm_num) (t / 2)
  rcases Nat.mod_two_eq_zero_or_one t with h | h
  · have ht : t = 2 ^ 1 * (t / 2) := by omega
    calc t ||| 1 = 2 ^ 1 * (t / 2) ||| 1 := by rw [← ht]
      _ = 2 * (t / 2) + 1 := by rw [← key]; norm_num
  · have ht : t = 2 ^ 1 * (t / 2) ||| 1 := by rw [← key]; omega
    calc t ||| 1 = (2 ^ 1 * (t / 2) ||| 1) ||| 1 := by rw [← ht]
      _ = 2 ^ 1 * (t / 2) ||| 1 := by rw [Nat.or_assoc, Nat.or_self]
      _ = 2 * (t / 2) + 1 := by rw [← key]; norm_num

end NumberGeneratorImpl

/-! ## Properties of the ID allocator and the random stream -/

namespace NumberGeneratorImpl

/-- C1: for every 16-bit shard number `t`, every ring size and every previous state, the
`k`-th call of `getId` after `init(arraySize, t)` returns `t * 2^48 + k` whenever
`1 ≤ k < 2^48`; its high 16 bits are `t` and its low 48 bits are `k`. -/
theorem getId_kth_after_init (g : NumberGeneratorImpl) (entropy : Nat → Nat)
    (arraySize t k : Nat) (ht : t < 2 ^ 16) (hk : 1 ≤ k) (hk' : k < 2 ^ 48) :
    kthId (g.init entropy arraySize t) k = t * 2 ^ 48 + k ∧
      kthId (g.init entropy arraySize t) k / 2 ^ 48 = t ∧
      kthId (g.init entropy arraySize t) k % 2 ^ 48 = k := by
  rw [kthId_init_eq g entropy arraySize t k ht hk hk']
  refine ⟨rfl, ?_, ?_⟩ <;> omega

/-- Instance of C1: the second ID of shard 3 on a ring of five words. -/
theorem getId_kth_after_init_witness :
    (3 < 2 ^ 16 ∧ 1 ≤ 2 ∧ 2 < 2 ^ 48) ∧
      (kthId (NumberGeneratorImpl.new.init (fun i => 7 * i) 5 3) 2 = 3 * 2 ^ 48 + 2 ∧
        kthId (NumberGeneratorImpl.new.init (fun i => 7 * i) 5 3) 2 / 2 ^ 48 = 3 ∧
        kthId (NumberGeneratorImpl.new.init (fun i => 7 * i) 5 3) 2 % 2 ^ 48 = 2) :=
  ⟨by decide,
    getId_kth_after_init NumberGeneratorImpl.new (fun i => 7 * i) 5 3 2
      (by decide) (by decide) (by decide)⟩

/-- C2: IDs are unique within and across shards: if the `k1`-th ID of a generator
initialised with shard number `t1` equals the `k2`-th ID of a generator initialised with
shard number `t2` (16-bit shard numbers, `1 ≤ k1, k2 < 2^48`), then `t1 = t2` and
`k1 = k2`. -/
theorem getId_unique (g1 g2 : NumberGeneratorImpl) (entropy1 entropy2 : Nat → Nat)
    (arraySize1 arraySize2 t1 t2 k1 k2 : Nat) (ht1 : t1 < 2 ^ 16) (ht2 : t2 < 2 ^ 16)
    (hk1 : 1 ≤ k1) (hk1' : k1 < 2 ^ 48) (hk2 : 1 ≤ k2) (hk2' : k2 < 2 ^ 48)
    (h : kthId (g1.init entropy1 arraySize1 t1) k1
      = kthId (g2.init entropy2 arraySize2 t2) k2) :
    t1 = t2 ∧ k1 = k2 := by
  rw [kthId_init_eq g1 entropy1 arraySize1 t1 k1 ht1 hk1 hk1',
    kthId_init_eq g2 entropy2 arraySize2 t2 k2 ht2 hk2 hk2'] at h
  omega

/-- Instance of C2: two generators of shard 3 with different rings agree on their second
ID. -/
theorem getId_unique_witness :
    kthId (NumberGeneratorImpl.new.init (fun i => 7 * i) 5 3) 2
        = kthId (NumberGeneratorImpl.new.init (fun i => i) 4 3) 2 ∧
      (3 = 3 ∧ 2 = 2) :=
  ⟨by decide,
    getId_unique NumberGeneratorImpl.new NumberGeneratorImpl.new (fun i => 7 * i) (fun i => i)
      5 4 3 3 2 2 (by decide) (by decide) (by decide) (by decide) (by decide) (by decide)
      (by decide)⟩

/-- C3: on a non-empty ring of `N` words with index `i`, `getRandomInt()` succeeds, sets
the index to `(i + 1) mod N`, returns the ring word stored at the new index and leaves
the ring (and the ID members) unchanged. -/
theorem getRandomInt_draw (g : NumberGeneratorImpl) (h : g._arrayOfRandomNumbers ≠ []) :
    ∃ w g', g.getRandomInt = some (w, g') ∧
      g'._index = (g._index + 1) % g._arrayOfRandomNumbers.length ∧
      g._arrayOfRandomNumbers[g'._index]? = some w ∧
      g'._arrayOfRandomNumbers = g._arrayOfRandomNumbers ∧
      g'._runningNumber = g._runningNumber ∧ g'._threadId = g._threadId := by
  obtain ⟨w, hw, hdraw⟩ := getNumberFromArray_eq g h
  exact ⟨w, _, hdraw, rfl, hw, rfl, rfl, rfl⟩

/-- Instance of C3: a ring of three words with the index at its last position. -/
theorem getRandomInt_draw_witness :
    (⟨2, [10, 20, 30], 0, 0⟩ : NumberGeneratorImpl)._arrayOfRandomNumbers ≠ [] ∧
      ∃ w g', (⟨2, [10, 20, 30], 0, 0⟩ : NumberGeneratorImpl).getRandomInt = some (w, g') ∧
        g'._index = (2 + 1) % 3 ∧
        ([10, 20, 30] : List Nat)[g'._index]? = some w ∧
        g'._arrayOfRandomNumbers = [10, 20, 30] ∧
        g'._runningNumber = 0 ∧ g'._threadId = 0 :=
  ⟨by decide, getRandomInt_draw ⟨2, [10, 20, 30], 0, 0⟩ (by decide)⟩

/-- C6 (amended): for 32-bit `min ≤ max` with `max - min < 2^32 - 1` (so that
`delta = max - min + 1` does not wrap to 0) and every generator with a non-empty ring,
`getRandomInt(min, max)` returns an integer `r` with `min ≤ r ≤ max`. -/
theorem getRandomIntMinMax_in_range (g : NumberGeneratorImpl) (min max : Nat)
    (hring : g._arrayOfRandomNumbers ≠ []) (hle : min ≤ max) (hmax : max < 2 ^ 32)
    (hspan : max - min < 2 ^ 32 - 1) :
    ∃ r g', g.getRandomIntMinMax min max = some (r, g') ∧ min ≤ r ∧ r ≤ max := by
  obtain ⟨w, -, hw⟩ := getNumberFromArray_eq g hring
  have hmin : min % UInt32Size = min := Nat.mod_eq_of_lt (by simp only [UInt32Size]; omega)
  have hmax' : max % UInt32Size = max := Nat.mod_eq_of_lt (by simp only [UInt32Size]; omega)
  have hdelta : (max + UInt32Size - min + 1) % UInt32Size = max - min + 1 := by
    simp only [UInt32Size]; omega
  have hmod : w % (max - min + 1) < max - min + 1 := Nat.mod_lt _ (by omega)
  have hres : (min + w % (max - min + 1)) % UInt32Size = min + w % (max - min + 1) :=
    Nat.mod_eq_of_lt (by simp only [UInt32Size]; omega)
  refine ⟨min + w % (max - min + 1),
    { g with _index := (g._index + 1) % g._arrayOfRandomNumbers.length }, ?_, by omega, by omega⟩
  unfold getRandomIntMinMax
  simp only [hw, hmin, hmax', hdelta, hres]
  rw [if_neg (by omega)]

/-- Instance of C6 (amended): a draw between 3 and 9 on a ring of three words. -/
theorem getRandomIntMinMax_in_range_witness :
    ((⟨2, [10, 20, 30], 0, 0⟩ : NumberGeneratorImpl)._arrayOfRandomNumbers ≠ [] ∧
        3 ≤ 9 ∧ 9 < 2 ^ 32 ∧ 9 - 3 < 2 ^ 32 - 1) ∧
      ∃ r g', (⟨2, [10, 20, 30], 0, 0⟩ : NumberGeneratorImpl).getRandomIntMinMax 3 9
          = some (r, g') ∧ 3 ≤ r ∧ r ≤ 9 :=
  ⟨by decide,
    getRandomIntMinMax_in_range ⟨2, [10, 20, 30], 0, 0⟩ 3 9
      (by decide) (by decide) (by decide) (by decide)⟩

/-- C6 as stated fails for `min = 0`, `max = 2^32 - 1`: `delta` wraps to 0, the remainder
is undefined and no value between `min` and `max` is returned. -/
theorem getRandomIntMinMax_full_range_counterexample :
    (⟨2, [10, 20, 30], 0, 0⟩ : NumberGeneratorImpl)._arrayOfRandomNumbers ≠ [] ∧
      (0 : Nat) ≤ 4294967295 ∧ 4294967295 < 2 ^ 32 ∧
      (⟨2, [10, 20, 30], 0, 0⟩ : NumberGeneratorImpl).getRandomIntMinMax 0 4294967295 = none ∧
      ¬ ∃ r g', (⟨2, [10, 20, 30], 0, 0⟩ : NumberGeneratorImpl).getRandomIntMinMax 0 4294967295
          = some (r, g') ∧ 0 ≤ r ∧ r ≤ 4294967295 := by
  have h : (⟨2, [10, 20, 30], 0, 0⟩ : NumberGeneratorImpl).getRandomIntMinMax 0 4294967295
      = none := by decide
  refine ⟨by decide, by decide, by decide, h, ?_⟩
  rintro ⟨r, g', hr, -⟩
  rw [h] at hr
  exact Option.noConfusion hr

/-- C8: for every generator with a non-empty ring of 32-bit words, `getRandomReal()`
makes one draw and returns the drawn word divided by `2^32`; the result `r` satisfies
`0 ≤ r < 1`, so 1 is never returned. -/
theorem getRandomReal_unit_interval (g : NumberGeneratorImpl)
    (hring : g._arrayOfRandomNumbers ≠ []) (hty : g.WellTyped) :
    ∃ w g', g.getNumberFromArray = some (w, g') ∧
      g.getRandomReal = some ((w : ℚ) / 2 ^ 32, g') ∧
      (0 : ℚ) ≤ (w : ℚ) / 2 ^ 32 ∧ (w : ℚ) / 2 ^ 32 < 1 := by
  obtain ⟨w, -, hw⟩ := getNumberFromArray_eq g hring
  have hmem : w ∈ g._arrayOfRandomNumbers := getNumberFromArray_mem g _ w hw
  have hlt : w < 2 ^ 32 := by simpa [UInt32Size] using hty.1 w hmem
  have hltq : (w : ℚ) < 2 ^ 32 := by exact_mod_cast hlt
  refine ⟨w, _, hw, ?_, by positivity, ?_⟩
  · unfold getRandomReal
    simp only [hw, RandMax]
    norm_num
  · rw [div_lt_one (by norm_num)]
    exact hltq

/-- Instance of C8: a ring whose next word is the largest 32-bit value. -/
theorem getRandomReal_unit_interval_witness :
    ((⟨0, [10, 4294967295], 0, 0⟩ : NumberGeneratorImpl)._arrayOfRandomNumbers ≠ [] ∧
        (⟨0, [10, 4294967295], 0, 0⟩ : NumberGeneratorImpl).WellTyped) ∧
      ∃ w g', (⟨0, [10, 4294967295], 0, 0⟩ : NumberGeneratorImpl).getNumberFromArray
          = some (w, g') ∧
        (⟨0, [10, 4294967295], 0, 0⟩ : NumberGeneratorImpl).getRandomReal
          = some ((w : ℚ) / 2 ^ 32, g') ∧
        (0 : ℚ) ≤ (w : ℚ) / 2 ^ 32 ∧ (w : ℚ) / 2 ^ 32 < 1 :=
  ⟨by decide,
    getRandomReal_unit_interval ⟨0, [10, 4294967295], 0, 0⟩ (by decide) (by decide)⟩

/-- C9 (amended): `getId` has no failure path.  When a generator has issued `2^48 - 1`
IDs since `init(arraySize, t)` with a 16-bit shard number `t` (its counter stands at
`2^48 - 1`), the next call, the `2^48`-th, returns `(t | 1) * 2^48`: the low 48 bits are 0
and the high 16 bits are `t` with its lowest bit set, `2 * (t / 2) + 1`; afterwards the
counter stands at `2^48`. -/
theorem getId_after_exhaustion (g : NumberGeneratorImpl) (entropy : Nat → Nat)
    (arraySize t : Nat) (ht : t < 2 ^ 16) :
    (afterIds (2 ^ 48 - 1) (g.init entropy arraySize t))._runningNumber = 2 ^ 48 - 1 ∧
      kthId (g.init entropy arraySize t) (2 ^ 48) = (t ||| 1) * 2 ^ 48 ∧
      kthId (g.init entropy arraySize t) (2 ^ 48) % 2 ^ 48 = 0 ∧
      kthId (g.init entropy arraySize t) (2 ^ 48) / 2 ^ 48 = 2 * (t / 2) + 1 ∧
      (afterIds (2 ^ 48) (g.init entropy arraySize t))._runningNumber = 2 ^ 48 := by
  have hid := kthId_init_exhausted g entropy arraySize t ht
  refine ⟨?_, hid, ?_, ?_, ?_⟩
  · rw [afterIds_init_runningNumber]; simp [UInt64Size]
  · rw [hid]; exact Nat.mul_mod_left _ _
  · rw [hid, or_one_eq]; exact Nat.mul_div_cancel _ (by norm_num)
  · rw [afterIds_init_runningNumber]; simp [UInt64Size]

/-- Instance of C9 (amended): shard 2 on a ring of five words. -/
theorem getId_after_exhaustion_witness :
    2 < 2 ^ 16 ∧
      ((afterIds (2 ^ 48 - 1) (NumberGeneratorImpl.new.init (fun i => i) 5 2))._runningNumber
          = 2 ^ 48 - 1 ∧
        kthId (NumberGeneratorImpl.new.init (fun i => i) 5 2) (2 ^ 48) = (2 ||| 1) * 2 ^ 48 ∧
        kthId (NumberGeneratorImpl.new.init (fun i => i) 5 2) (2 ^ 48) % 2 ^ 48 = 0 ∧
        kthId (NumberGeneratorImpl.new.init (fun i => i) 5 2) (2 ^ 48) / 2 ^ 48
          = 2 * (2 / 2) + 1 ∧
        (afterIds (2 ^ 48) (NumberGeneratorImpl.new.init (fun i => i) 5 2))._runningNumber
          = 2 ^ 48) :=
  ⟨by decide, getId_after_exhaustion NumberGeneratorImpl.new (fun i => i) 5 2 (by decide)⟩

/-- C9 as stated fails: a generator of shard 2 that has issued `2^48 - 1` IDs returns, on
the next `getId` (the `2^48`-th call), the value `3 * 2^48`, whose high 16 bits are 3 and
not the shard number 2. -/
theorem getId_exhaustion_counterexample :
    (afterIds (2 ^ 48 - 1) (NumberGeneratorImpl.new.init (fun i => i) 5 2))._runningNumber
        = 2 ^ 48 - 1 ∧
      kthId (NumberGeneratorImpl.new.init (fun i => i) 5 2) (2 ^ 48) = 3 * 2 ^ 48 ∧
      kthId (NumberGeneratorImpl.new.init (fun i => i) 5 2) (2 ^ 48) / 2 ^ 48 ≠ 2 := by
  have hid := kthId_init_exhausted NumberGeneratorImpl.new (fun i => i) 5 2 (by decide)
  refine ⟨?_, ?_, ?_⟩
  · rw [afterIds_init_runningNumber]; simp [UInt64Size]
  · rw [hid]; decide
  · rw [hid]; decide

end NumberGeneratorImpl

/-! ## Properties of the total energy computed by the tests -/

namespace SimulationGpuTest

theorem addCellEnergies_eq (cells : List CellDescription) (result : ℚ)
    (h : ∀ cell ∈ cells, cell.energy.isSome) :
    addCellEnergies result cells
      = some (result + (cells.map (fun cell => cell.energy.getD 0)).sum) := by
  induction cells generalizing result with
  | nil => simp [addCellEnergies]
  | cons cell rest ih =>
    have hc := h cell (List.mem_cons_self _ _)
    obtain ⟨e, he⟩ := Option.isSome_iff_exists.mp hc
    have hrest : ∀ c ∈ rest, c.energy.isSome := fun c hc => h c (List.mem_cons_of_mem _ hc)
    simp only [addCellEnergies, he, ih _ hrest, List.map_cons, List.sum_cons, Option.getD_some]
    rw [add_assoc]

theorem addParticleEnergies_eq (particles : List ParticleDescription) (result : ℚ)
    (h : ∀ particle ∈ particles, particle.energy.isSome) :
    addParticleEnergies result particles
      = some (result + (particles.map (fun particle => particle.energy.getD 0)).sum) := by
  induction particles generalizing result with
  | nil => simp [addParticleEnergies]
  | cons particle rest ih =>
    have hc := h particle (List.mem_cons_self _ _)
    obtain ⟨e, he⟩ := Option.isSome_iff_exists.mp hc
    have hrest : ∀ c ∈ rest, c.energy.isSome := fun c hc => h c (List.mem_cons_of_mem _ hc)
    simp only [addParticleEnergies, he, ih _ hrest, List.map_cons, List.sum_cons,
      Option.getD_some]
    rw [add_assoc]

theorem relPositions_isSome (clusterPos : QVector2D) (cells : List CellDescription)
    (h : ∀ cell ∈ cells, cell.pos.isSome) : (relPositions clusterPos cells).isSome := by
  induction cells with
  | nil => simp [relPositions]
  | cons cell rest ih =>
    have hc := h cell (List.mem_cons_self _ _)
    obtain ⟨p, hp⟩ := Option.isSome_iff_exists.mp hc
    have hrest : ∀ c ∈ rest, c.pos.isSome := fun c hc => h c (List.mem_cons_of_mem _ hc)
    obtain ⟨ps, hps⟩ := Option.isSome_iff_exists.mp (ih hrest)
    simp [relPositions, hp, hps]

/-- A cluster with all dereferenced optionals present has a kinetic energy. -/
theorem calcKineticEnergyCluster_isSome (ph : Physics) (cluster : ClusterDescription)
    (h : cluster.cells.isSome ∧ cluster.vel.isSome ∧ cluster.pos.isSome ∧
      cluster.angularVel.isSome ∧
      ∀ cell ∈ cellsOf cluster, cell.pos.isSome ∧ cell.energy.isSome) :
    (calcKineticEnergyCluster ph cluster).isSome := by
  obtain ⟨hcells, hvel, hpos, hang, hcell⟩ := h
  obtain ⟨cells, hc⟩ := Option.isSome_iff_exists.mp hcells
  obtain ⟨vel, hv⟩ := Option.isSome_iff_exists.mp hvel
  obtain ⟨pos, hp⟩ := Option.isSome_iff_exists.mp hpos
  obtain ⟨ang, ha⟩ := Option.isSome_iff_exists.mp hang
  have hrel : (relPositions pos cells).isSome := by
    apply relPositions_isSome
    intro cell hmem
    exact (hcell cell (by simpa [cellsOf, hc] using hmem)).1
  obtain ⟨rel, hr⟩ := Option.isSome_iff_exists.mp hrel
  simp [calcKineticEnergyCluster, hc, hv, hp, ha, hr]

/-- Energy of one complete cluster: kinetic energy plus the energies of its cells. -/
theorem calcEnergyCluster_eq (ph : Physics) (cluster : ClusterDescription)
    (h : cluster.cells.isSome ∧ cluster.vel.isSome ∧ cluster.pos.isSome ∧
      cluster.angularVel.isSome ∧
      ∀ cell ∈ cellsOf cluster, cell.pos.isSome ∧ cell.energy.isSome) :
    calcEnergyCluster ph cluster
      = some ((calcKineticEnergyCluster ph cluster).getD 0
          + ((cellsOf cluster).map (fun cell => cell.energy.getD 0)).sum) := by
  obtain ⟨k, hk⟩ := Option.isSome_iff_exists.mp (calcKineticEnergyCluster_isSome ph cluster h)
  obtain ⟨cells, hc⟩ := Option.isSome_iff_exists.mp h.1
  have hcell : ∀ cell ∈ cells, cell.energy.isSome := by
    intro cell hmem
    exact (h.2.2.2.2 cell (by simpa [cellsOf, hc] using hmem)).2
  simp only [calcEnergyCluster, hk, hc, cellsOf, Option.getD_some]
  exact addCellEnergies_eq cells k hcell

theorem addClusterEnergies_eq (ph : Physics) (clusters : List ClusterDescription) (result : ℚ)
    (h : ∀ cluster ∈ clusters,
      cluster.cells.isSome ∧ cluster.vel.isSome ∧ cluster.pos.isSome ∧
        cluster.angularVel.isSome ∧
        ∀ cell ∈ cellsOf cluster, cell.pos.isSome ∧ cell.energy.isSome) :
    addClusterEnergies ph result clusters
      = some (result
          + ((clusters.flatMap cellsOf).map (fun cell => cell.energy.getD 0)).sum
          + (clusters.map (fun cluster => (calcKineticEnergyCluster ph cluster).getD 0)).sum) := by
  induction clusters generalizing result with
  | nil => simp [addClusterEnergies]
  | cons cluster rest ih =>
    have hc := calcEnergyCluster_eq ph cluster (h cluster (List.mem_cons_self _ _))
    have hrest := ih (result + ((calcKineticEnergyCluster ph cluster).getD 0
      + ((cellsOf cluster).map (fun cell => cell.energy.getD 0)).sum))
      (fun c hc => h c (List.mem_cons_of_mem _ hc))
    simp only [addClusterEnergies, hc, hrest, List.flatMap_cons, List.map_append,
      List.sum_append, List.map_cons, List.sum_cons, Option.some.injEq]
    ring

/-- C10 (amended): for every data description in which all dereferenced optionals are
present, `calcEnergy` returns the sum of all cell energies, all particle energies and the
kinetic energies of all clusters.  Token energies are not part of it: the value is the
four-term sum of the energy-conservation property minus the sum of all token energies. -/
theorem calcEnergy_eq_sum_without_tokens (ph : Physics) (data : DataDescription)
    (h : Complete data) :
    calcEnergy ph data
        = some (sumCellEnergy data + sumParticleEnergy data + sumKineticEnergy ph data) ∧
      calcEnergy ph data
        = some (sumCellEnergy data + sumTokenEnergy data + sumParticleEnergy data
            + sumKineticEnergy ph data - sumTokenEnergy data) := by
  have key : calcEnergy ph data
      = some (sumCellEnergy data + sumParticleEnergy data + sumKineticEnergy ph data) := by
    obtain ⟨hcl, hpa⟩ := h
    have h1 := addClusterEnergies_eq ph (clustersOf data) 0 hcl
    have hafter : (match data.clusters with
        | some clusters => addClusterEnergies ph 0 clusters
        | none => some 0)
        = some (sumCellEnergy data + sumKineticEnergy ph data) := by
      cases hc : data.clusters with
      | none => simp [sumCellEnergy, sumKineticEnergy, allCells, clustersOf, hc]
      | some clusters =>
        simp only [clustersOf, hc, Option.getD_some] at h1
        simp only [h1, sumCellEnergy, sumKineticEnergy, allCells, clustersOf, hc,
          Option.getD_some, zero_add]
    unfold calcEnergy
    simp only [hafter]
    cases hp : data.particles with
    | none =>
      simp [sumParticleEnergy, particlesOf, hp]
    | some particles =>
      have h2 := addParticleEnergies_eq particles
        (sumCellEnergy data + sumKineticEnergy ph data)
        (by simpa [particlesOf, hp] using hpa)
      simp only [h2, sumParticleEnergy, particlesOf, hp, Option.getD_some, Option.some.injEq]
      ring
  refine ⟨key, ?_⟩
  rw [key]
  congr 1
  ring

/-- Instance of C10 (amended): the one-cell cluster carrying a token. -/
theorem calcEnergy_eq_sum_without_tokens_witness :
    Complete dataWithToken ∧
      (calcEnergy standardPhysics dataWithToken
          = some (sumCellEnergy dataWithToken + sumParticleEnergy dataWithToken
              + sumKineticEnergy standardPhysics dataWithToken) ∧
        calcEnergy standardPhysics dataWithToken
          = some (sumCellEnergy dataWithToken + sumTokenEnergy dataWithToken
              + sumParticleEnergy dataWithToken
              + sumKineticEnergy standardPhysics dataWithToken
              - sumTokenEnergy dataWithToken)) := by
  have hc : Complete dataWithToken := by
    simp [Complete, clustersOf, particlesOf, cellsOf, dataWithToken, clusterWithToken]
  exact ⟨hc, calcEnergy_eq_sum_without_tokens standardPhysics dataWithToken hc⟩

/-- C10 as stated fails: for the cluster at rest with one cell of energy 100 carrying a
token of energy 50, `calcEnergy` returns 100 while the sum of cell, token, particle and
kinetic energies is 150; the two differ whatever `Physics` computes. -/
theorem calcEnergy_token_counterexample :
    Complete dataWithToken ∧
      calcEnergy standardPhysics dataWithToken = some 100 ∧
      sumCellEnergy dataWithToken + sumTokenEnergy dataWithToken
        + sumParticleEnergy dataWithToken + sumKineticEnergy standardPhysics dataWithToken
        = 150 ∧
      ¬ ∃ ph : Physics, calcEnergy ph dataWithToken
        = some (sumCellEnergy dataWithToken + sumTokenEnergy dataWithToken
            + sumParticleEnergy dataWithToken + sumKineticEnergy ph dataWithToken) := by
  have hc : Complete dataWithToken := by
    simp [Complete, clustersOf, particlesOf, cellsOf, dataWithToken, clusterWithToken]
  have hcell : sumCellEnergy dataWithToken = 100 := by
    simp [sumCellEnergy, allCells, clustersOf, cellsOf, dataWithToken, clusterWithToken]
  have htok : sumTokenEnergy dataWithToken = 50 := by
    simp [sumTokenEnergy, allTokens, allCells, clustersOf, cellsOf, dataWithToken,
      clusterWithToken]
  have hpart : sumParticleEnergy dataWithToken = 0 := by
    simp [sumParticleEnergy, particlesOf, dataWithToken]
  have hkin : sumKineticEnergy standardPhysics dataWithToken = 0 := by
    simp [sumKineticEnergy, clustersOf, dataWithToken, clusterWithToken,
      calcKineticEnergyCluster, relPositions, standardPhysics, QVector2D.sub]
  have hcalc : ∀ ph : Physics, calcEnergy ph dataWithToken
      = some (100 + sumKineticEnergy ph dataWithToken) := by
    intro ph
    have := (addClusterEnergies_eq ph [clusterWithToken] 0 (by
      simpa [clustersOf, dataWithToken] using hc.1))
    simp only [calcEnergy, dataWithToken, this, sumKineticEnergy, clustersOf,
      Option.getD_some, Option.some.injEq]
    simp [cellsOf, clusterWithToken]
  refine ⟨hc, ?_, ?_, ?_⟩
  · rw [hcalc, hkin]; norm_num
  · rw [hcell, htok, hpart, hkin]; norm_num
  · rintro ⟨ph, hph⟩
    rw [hcalc, hcell, htok, hpart] at hph
    simp only [Option.some.injEq] at hph
    linarith

end SimulationGpuTest

/-! ## Properties of the builder -/

namespace ModelBuilderFacadeImpl

/-- The loops visit exactly the positions inside the grid. -/
theorem mem_gridPositions (gridSize p : IntVector2D) :
    p ∈ gridPositions gridSize ↔ 0 ≤ p.x ∧ p.x < gridSize.x ∧ 0 ≤ p.y ∧ p.y < gridSize.y := by
  unfold gridPositions
  simp only [List.mem_flatMap, List.mem_map, List.mem_range]
  constructor
  · rintro ⟨a, ha, b, hb, rfl⟩
    simp only [Int.ofNat_eq_coe]
    omega
  · rintro ⟨hx0, hx, hy0, hy⟩
    refine ⟨p.x.toNat, by omega, p.y.toNat, by omega, ?_⟩
    cases p with
    | mk px py =>
      simp only [Int.ofNat_eq_coe] at hx0 hy0 ⊢
      rw [Int.toNat_of_nonneg hx0, Int.toNat_of_nonneg hy0]

/-- Result of the first double loop: the grid holds, latest first, every visited position
with its unit, and the thread controller holds the units in visiting order. -/
theorem registerUnits_eq (entropy : Nat → Nat) (gridSize : IntVector2D)
    (ps : List IntVector2D) (grid : UnitGrid) (threads : List Unit) :
    registerUnits entropy gridSize ps (grid, threads)
      = ({ grid with
            units := (ps.map (fun p => (p, unitAt entropy gridSize p))).reverse ++ grid.units },
          threads ++ ps.map (unitAt entropy gridSize)) := by
  induction ps generalizing grid threads with
  | nil => simp [registerUnits]
  | cons p rest ih =>
    simp only [registerUnits, ih, UnitGrid.registerUnit, unitAt, List.map_cons,
      List.reverse_cons, List.append_assoc, List.singleton_append]

/-- Looking a position up in a list of `(position, f position)` entries. -/
theorem find_entry (f : IntVector2D → Unit) (l : List IntVector2D) (q : IntVector2D) :
    ((l.map (fun p => (p, f p))).find? (fun e => decide (e.1 = q))).map Prod.snd
      = if q ∈ l then some (f q) else none := by
  induction l with
  | nil => simp
  | cons p rest ih =>
    by_cases hpq : p = q
    · subst hpq
      simp [List.find?_cons]
    · have hqp : ¬ q = p := fun h => hpq h.symm
      simp only [List.map_cons, List.find?_cons, hpq, decide_False, List.mem_cons, hqp,
        false_or]
      exact ih

/-- After the first double loop the grid returns, for a position inside the grid, the unit
built for that position, and nothing for any other position. -/
theorem getUnitOfGridPos_controller (entropy : Nat → Nat) (gridSize q : IntVector2D) :
    (buildSimulationController entropy gridSize).grid.getUnitOfGridPos q
      = if q ∈ gridPositions gridSize then some (unitAt entropy gridSize q) else none := by
  simp only [buildSimulationController, registerUnits_eq, UnitGrid.getUnitOfGridPos,
    List.append_nil, ← List.map_reverse]
  rw [find_entry]
  simp only [List.mem_reverse]

/-- The truncating remainder of the neighbour computation is the mathematical one. -/
theorem wrap_eq (x d g : Int) (hx0 : 0 ≤ x) (hd : -1 ≤ d) (hg : 1 ≤ g) :
    Int.tmod (x + d + g) g = (x + d) % g := by
  rw [Int.tmod_eq_emod (by omega) (by omega), Int.add_emod_self]

theorem deltaOf_x_ge (location : RelativeLocation) : -1 ≤ (deltaOf location).x := by
  cases location <;> simp [deltaOf]

theorem deltaOf_y_ge (location : RelativeLocation) : -1 ≤ (deltaOf location).y := by
  cases location <;> simp [deltaOf]

/-- Units built for different positions are different. -/
theorem unitAt_injective (entropy : Nat → Nat) (gridSize p q : IntVector2D)
    (h : unitAt entropy gridSize p = unitAt entropy gridSize q) : p = q := by
  have := congrArg Unit.gridPos h
  simpa [unitAt, buildSimulationUnit] using this

/-- The neighbour registrations made by the second double loop. -/
theorem mem_neighbors (entropy : Nat → Nat) (gridSize : IntVector2D) (r : NeighborRegistration) :
    r ∈ (buildSimulationController entropy gridSize).neighbors ↔
      ∃ p ∈ gridPositions gridSize, ∃ location,
        r = { unit := (buildSimulationController entropy gridSize).grid.getUnitOfGridPos p
              location := location
              neighbor := getContextFromDelta (buildSimulationController entropy gridSize).grid
                gridSize p.x p.y (deltaOf location) } := by
  have hall : ∀ location : RelativeLocation, location ∈ registrationOrder := by
    intro location; cases location <;> simp [registrationOrder]
  constructor
  · intro h
    simp only [buildSimulationController, List.mem_flatMap, registerNeighborContexts,
      List.mem_map] at h
    obtain ⟨p, hp, location, -, rfl⟩ := h
    exact ⟨p, hp, location, rfl⟩
  · rintro ⟨p, hp, location, rfl⟩
    simp only [buildSimulationController, List.mem_flatMap, registerNeighborContexts,
      List.mem_map]
    exact ⟨p, hp, location, hall location, rfl⟩

/-- The lookup made for a relative location of a unit inside the grid finds the unit at
the wrapped position. -/
theorem getContextFromDelta_controller (entropy : Nat → Nat) (gx gy x y : Int)
    (location : RelativeLocation) (hx0 : 0 ≤ x) (hx : x < gx) (hy0 : 0 ≤ y) (hy : y < gy) :
    getContextFromDelta (buildSimulationController entropy ⟨gx, gy⟩).grid ⟨gx, gy⟩ x y
        (deltaOf location)
      = some (unitAt entropy ⟨gx, gy⟩
          ⟨(x + (deltaOf location).x) % gx, (y + (deltaOf location).y) % gy⟩) := by
  unfold getContextFromDelta
  simp only
  rw [wrap_eq x _ gx hx0 (deltaOf_x_ge location) (by omega),
    wrap_eq y _ gy hy0 (deltaOf_y_ge location) (by omega), getUnitOfGridPos_controller]
  rw [if_pos]
  rw [mem_gridPositions]
  exact ⟨Int.emod_nonneg _ (by omega), Int.emod_lt_of_pos _ (by omega),
    Int.emod_nonneg _ (by omega), Int.emod_lt_of_pos _ (by omega)⟩

/-- The `threadId` of a unit is the local of `buildSimulationUnit`. -/
theorem buildSimulationUnit_threadId_eq (entropy : Nat → Nat) (gridSize gridPos : IntVector2D) :
    (buildSimulationUnit entropy gridSize gridPos).threadId = threadIdOf gridSize gridPos := rfl

/-- The shifted shard number stored in a unit's generator. -/
theorem buildSimulationUnit_numberGen (entropy : Nat → Nat) (gridSize gridPos : IntVector2D) :
    (buildSimulationUnit entropy gridSize gridPos).numberGen._threadId
      = ((threadIdOf gridSize gridPos % UInt16Size) * 2 ^ 48) % UInt64Size := rfl

/-- The global generator is initialised with shard number 0. -/
theorem buildSimulationController_numberGen (entropy : Nat → Nat) (gridSize : IntVector2D) :
    (buildSimulationController entropy gridSize).numberGen._threadId = 0 := by
  simp only [buildSimulationController, NumberGeneratorImpl.init, UInt16Size, UInt64Size]
  norm_num

/-- Inside a grid of at most 65535 units the 16-bit conversion does not truncate. -/
theorem threadIdOf_eq (gx gy x y : Int) (hx0 : 0 ≤ x) (hx : x < gx) (hy0 : 0 ≤ y)
    (hy : y < gy) (hsize : gx * gy ≤ 65535) :
    (threadIdOf ⟨gx, gy⟩ ⟨x, y⟩ : Int) = x + y * gx + 1 ∧ x + y * gx + 1 ≤ gx * gy := by
  have hgx : 0 ≤ gx := by omega
  have h1 : y * gx ≤ (gy - 1) * gx := Int.mul_le_mul_of_nonneg_right (by omega) hgx
  have h2 : 0 ≤ y * gx := Int.mul_nonneg hy0 hgx
  have h3 : (gy - 1) * gx = gx * gy - gx := by ring
  have hle : x + y * gx + 1 ≤ gx * gy := by omega
  refine ⟨?_, hle⟩
  unfold threadIdOf
  simp only [UInt16Size]
  rw [Int.toNat_of_nonneg (Int.emod_nonneg _ (by norm_num))]
  exact Int.emod_eq_of_lt (by omega) (by push_cast; omega)

/-- Row-major numbering is one-to-one on the positions of a grid. -/
theorem rowMajor_injective (gx x y x' y' : Int) (hx0 : 0 ≤ x) (hx : x < gx)
    (hx0' : 0 ≤ x') (hx' : x' < gx) (h : x' + y' * gx = x + y * gx) : x' = x ∧ y' = y := by
  have hgx : 0 ≤ gx := by omega
  have hy : y' = y := by
    rcases lt_trichotomy y' y with hlt | heq | hgt
    · have h1 : (y' + 1) * gx ≤ y * gx := Int.mul_le_mul_of_nonneg_right (by omega) hgx
      have h2 : (y' + 1) * gx = y' * gx + gx := by ring
      omega
    · exact heq
    · have h1 : (y + 1) * gx ≤ y' * gx := Int.mul_le_mul_of_nonneg_right (by omega) hgx
      have h2 : (y + 1) * gx = y * gx + gx := by ring
      omega
  subst hy
  exact ⟨by omega, rfl⟩

/-- C4 (amended): for every grid size with at most 65535 units (`gx * gy ≤ 65535`, the
range of the 16-bit shard number) and every unit grid position `(x, y)` inside the grid,
`buildSimulationUnit` gives the unit's generator the shard number `x + y * gx + 1`, which
lies in `{1, ..., gx * gy}`; it is never 0, the number the global generator is initialised
with, and two different grid positions never receive the same shard number. -/
theorem buildSimulationUnit_shard_number (entropy : Nat → Nat) (gx gy x y : Int)
    (hx0 : 0 ≤ x) (hx : x < gx) (hy0 : 0 ≤ y) (hy : y < gy) (hsize : gx * gy ≤ 65535) :
    ((buildSimulationUnit entropy ⟨gx, gy⟩ ⟨x, y⟩).threadId : Int) = x + y * gx + 1 ∧
      1 ≤ (buildSimulationUnit entropy ⟨gx, gy⟩ ⟨x, y⟩).threadId ∧
      ((buildSimulationUnit entropy ⟨gx, gy⟩ ⟨x, y⟩).threadId : Int) ≤ gx * gy ∧
      (buildSimulationUnit entropy ⟨gx, gy⟩ ⟨x, y⟩).numberGen._threadId
        = (buildSimulationUnit entropy ⟨gx, gy⟩ ⟨x, y⟩).threadId * 2 ^ 48 ∧
      (buildSimulationController entropy ⟨gx, gy⟩).numberGen._threadId = 0 ∧
      (buildSimulationUnit entropy ⟨gx, gy⟩ ⟨x, y⟩).numberGen._threadId
        ≠ (buildSimulationController entropy ⟨gx, gy⟩).numberGen._threadId ∧
      ∀ (entropy' : Nat → Nat) (x' y' : Int), 0 ≤ x' → x' < gx → 0 ≤ y' → y' < gy →
        (buildSimulationUnit entropy' ⟨gx, gy⟩ ⟨x', y'⟩).threadId
          = (buildSimulationUnit entropy ⟨gx, gy⟩ ⟨x, y⟩).threadId →
        x' = x ∧ y' = y := by
  obtain ⟨hid, hle⟩ := threadIdOf_eq gx gy x y hx0 hx hy0 hy hsize
  have hgx : 0 ≤ gx := by omega
  have hyg : 0 ≤ y * gx := Int.mul_nonneg hy0 hgx
  have hpos : 1 ≤ threadIdOf ⟨gx, gy⟩ ⟨x, y⟩ := by omega
  have hlt : threadIdOf ⟨gx, gy⟩ ⟨x, y⟩ < 2 ^ 16 := by omega
  have hgen : (buildSimulationUnit entropy ⟨gx, gy⟩ ⟨x, y⟩).numberGen._threadId
      = threadIdOf ⟨gx, gy⟩ ⟨x, y⟩ * 2 ^ 48 := by
    rw [buildSimulationUnit_numberGen]
    simp only [UInt16Size, UInt64Size]
    omega
  rw [buildSimulationUnit_threadId_eq, buildSimulationController_numberGen, hgen]
  refine ⟨hid, hpos, by omega, rfl, rfl, by omega, ?_⟩
  intro entropy' x' y' hx0' hx' hy0' hy' heq
  rw [buildSimulationUnit_threadId_eq] at heq
  obtain ⟨hid', -⟩ := threadIdOf_eq gx gy x' y' hx0' hx' hy0' hy' hsize
  have hcast : (threadIdOf ⟨gx, gy⟩ ⟨x', y'⟩ : Int) = (threadIdOf ⟨gx, gy⟩ ⟨x, y⟩ : Int) := by
    rw [heq]
  exact rowMajor_injective gx x y x' y' hx0 hx hx0' hx' (by omega)

/-- Instance of C4 (amended): position `(1, 2)` of a `2 × 3` grid. -/
theorem buildSimulationUnit_shard_number_witness :
    ((0 : Int) ≤ 1 ∧ (1 : Int) < 2 ∧ (0 : Int) ≤ 2 ∧ (2 : Int) < 3 ∧ (2 : Int) * 3 ≤ 65535) ∧
      (((buildSimulationUnit (fun i => i) ⟨2, 3⟩ ⟨1, 2⟩).threadId : Int) = 1 + 2 * 2 + 1 ∧
      1 ≤ (buildSimulationUnit (fun i => i) ⟨2, 3⟩ ⟨1, 2⟩).threadId ∧
      ((buildSimulationUnit (fun i => i) ⟨2, 3⟩ ⟨1, 2⟩).threadId : Int) ≤ 2 * 3 ∧
      (buildSimulationUnit (fun i => i) ⟨2, 3⟩ ⟨1, 2⟩).numberGen._threadId
        = (buildSimulationUnit (fun i => i) ⟨2, 3⟩ ⟨1, 2⟩).threadId * 2 ^ 48 ∧
      (buildSimulationController (fun i => i) ⟨2, 3⟩).numberGen._threadId = 0 ∧
      (buildSimulationUnit (fun i => i) ⟨2, 3⟩ ⟨1, 2⟩).numberGen._threadId
        ≠ (buildSimulationController (fun i => i) ⟨2, 3⟩).numberGen._threadId ∧
      ∀ (entropy' : Nat → Nat) (x' y' : Int), 0 ≤ x' → x' < 2 → 0 ≤ y' → y' < 3 →
        (buildSimulationUnit entropy' ⟨2, 3⟩ ⟨x', y'⟩).threadId
          = (buildSimulationUnit (fun i => i) ⟨2, 3⟩ ⟨1, 2⟩).threadId →
        x' = 1 ∧ y' = 2) :=
  ⟨by decide,
    buildSimulationUnit_shard_number (fun i => i) 2 3 1 2
      (by decide) (by decide) (by decide) (by decide) (by decide)⟩

/-- C4 as stated fails on a `256 × 257` grid: the unit at `(255, 255)` receives shard
number 0, the number of the global generator, and the units at `(0, 0)` and `(0, 256)`
both receive shard number 1. -/
theorem buildSimulationUnit_shard_counterexample :
    (buildSimulationUnit (fun i => i) ⟨256, 257⟩ ⟨255, 255⟩).threadId = 0 ∧
      (buildSimulationUnit (fun i => i) ⟨256, 257⟩ ⟨255, 255⟩).numberGen._threadId
        = (buildSimulationController (fun i => i) ⟨256, 257⟩).numberGen._threadId ∧
      (buildSimulationUnit (fun i => i) ⟨256, 257⟩ ⟨0, 0⟩).threadId = 1 ∧
      (buildSimulationUnit (fun i => i) ⟨256, 257⟩ ⟨0, 256⟩).threadId = 1 ∧
      (⟨0, 0⟩ : IntVector2D) ≠ ⟨0, 256⟩ ∧
      (⟨255, 255⟩ : IntVector2D) ∈ gridPositions ⟨256, 257⟩ ∧
      (⟨0, 0⟩ : IntVector2D) ∈ gridPositions ⟨256, 257⟩ ∧
      (⟨0, 256⟩ : IntVector2D) ∈ gridPositions ⟨256, 257⟩ := by
  have h1 : threadIdOf ⟨256, 257⟩ ⟨255, 255⟩ = 0 := by decide
  have h2 : threadIdOf ⟨256, 257⟩ ⟨0, 0⟩ = 1 := by decide
  have h3 : threadIdOf ⟨256, 257⟩ ⟨0, 256⟩ = 1 := by decide
  refine ⟨?_, ?_, ?_, ?_, by decide, ?_, ?_, ?_⟩
  · rw [buildSimulationUnit_threadId_eq, h1]
  · rw [buildSimulationUnit_numberGen, buildSimulationController_numberGen, h1]
    decide
  · rw [buildSimulationUnit_threadId_eq, h2]
  · rw [buildSimulationUnit_threadId_eq, h3]
  · rw [mem_gridPositions]; decide
  · rw [mem_gridPositions]; decide
  · rw [mem_gridPositions]; decide

/-- The neighbour registered for a unit inside the grid at a relative location is the
unit found by the lookup at the wrapped position. -/
theorem neighborOf_controller (entropy : Nat → Nat) (gx gy x y : Int)
    (location : RelativeLocation) (hx0 : 0 ≤ x) (hx : x < gx) (hy0 : 0 ≤ y) (hy : y < gy) :
    neighborOf (buildSimulationController entropy ⟨gx, gy⟩) ⟨x, y⟩ location
      = some (unitAt entropy ⟨gx, gy⟩
          ⟨(x + (deltaOf location).x) % gx, (y + (deltaOf location).y) % gy⟩) := by
  have hin : (⟨x, y⟩ : IntVector2D) ∈ gridPositions ⟨gx, gy⟩ := by
    rw [mem_gridPositions]; exact ⟨hx0, hx, hy0, hy⟩
  have hself : (buildSimulationController entropy ⟨gx, gy⟩).grid.getUnitOfGridPos ⟨x, y⟩
      = some (unitAt entropy ⟨gx, gy⟩ ⟨x, y⟩) := by
    rw [getUnitOfGridPos_controller, if_pos hin]
  unfold neighborOf
  cases hfind : (buildSimulationController entropy ⟨gx, gy⟩).neighbors.find?
      (fun r => decide (r.unit
        = (buildSimulationController entropy ⟨gx, gy⟩).grid.getUnitOfGridPos ⟨x, y⟩
          ∧ r.location = location)) with
  | none =>
    exfalso
    rw [List.find?_eq_none] at hfind
    have hmem := (mem_neighbors entropy ⟨gx, gy⟩ _).mpr ⟨⟨x, y⟩, hin, location, rfl⟩
    have := hfind _ hmem
    simp at this
  | some r =>
    have hpred := List.find?_some hfind
    have hmem := List.mem_of_find?_eq_some hfind
    simp only [decide_eq_true_eq] at hpred
    obtain ⟨hunit, hloc⟩ := hpred
    obtain ⟨p, hp, location', hr⟩ := (mem_neighbors entropy ⟨gx, gy⟩ r).mp hmem
    subst hr
    simp only at hunit hloc ⊢
    subst hloc
    rw [hself, getUnitOfGridPos_controller, if_pos hp] at hunit
    have hpq : p = ⟨x, y⟩ := unitAt_injective entropy ⟨gx, gy⟩ _ _ (Option.some.inj hunit)
    subst hpq
    exact getContextFromDelta_controller entropy gx gy x y location' hx0 hx hy0 hy

/-- C5: for every grid size `(gx, gy)` with `gx, gy ≥ 1`, every unit at `(x, y)` inside the
grid and each of the eight relative locations, `buildSimulationController` registers as
the unit's neighbour the unit at `((x + dx) mod gx, (y + dy) mod gy)`, where `(dx, dy)` is
`(-1,-1)` for UpperLeft, `(0,-1)` for Upper, `(1,-1)` for UpperRight, `(-1,0)` for Left,
`(1,0)` for Right, `(-1,1)` for LowerLeft, `(0,1)` for Lower and `(1,1)` for LowerRight;
the looked-up position lies inside the grid and holds a unit. -/
theorem buildSimulationController_neighbors (entropy : Nat → Nat) (gx gy x y : Int)
    (location : RelativeLocation) (hgx : 1 ≤ gx) (hgy : 1 ≤ gy)
    (hx0 : 0 ≤ x) (hx : x < gx) (hy0 : 0 ≤ y) (hy : y < gy) :
    (deltaOf .UpperLeft = ⟨-1, -1⟩ ∧ deltaOf .Upper = ⟨0, -1⟩ ∧ deltaOf .UpperRight = ⟨1, -1⟩ ∧
        deltaOf .Left = ⟨-1, 0⟩ ∧ deltaOf .Right = ⟨1, 0⟩ ∧ deltaOf .LowerLeft = ⟨-1, 1⟩ ∧
        deltaOf .Lower = ⟨0, 1⟩ ∧ deltaOf .LowerRight = ⟨1, 1⟩) ∧
      (0 ≤ (x + (deltaOf location).x) % gx ∧ (x + (deltaOf location).x) % gx < gx ∧
        0 ≤ (y + (deltaOf location).y) % gy ∧ (y + (deltaOf location).y) % gy < gy) ∧
      Int.tmod (x + (deltaOf location).x + gx) gx = (x + (deltaOf location).x) % gx ∧
      Int.tmod (y + (deltaOf location).y + gy) gy = (y + (deltaOf location).y) % gy ∧
      (buildSimulationController entropy ⟨gx, gy⟩).grid.getUnitOfGridPos
          ⟨(x + (deltaOf location).x) % gx, (y + (deltaOf location).y) % gy⟩
        = some (unitAt entropy ⟨gx, gy⟩
            ⟨(x + (deltaOf location).x) % gx, (y + (deltaOf location).y) % gy⟩) ∧
      neighborOf (buildSimulationController entropy ⟨gx, gy⟩) ⟨x, y⟩ location
        = (buildSimulationController entropy ⟨gx, gy⟩).grid.getUnitOfGridPos
            ⟨(x + (deltaOf location).x) % gx, (y + (deltaOf location).y) % gy⟩ ∧
      ({ unit := some (unitAt entropy ⟨gx, gy⟩ ⟨x, y⟩)
         location := location
         neighbor := some (unitAt entropy ⟨gx, gy⟩
            ⟨(x + (deltaOf location).x) % gx, (y + (deltaOf location).y) % gy⟩) }
          : NeighborRegistration)
        ∈ (buildSimulationController entropy ⟨gx, gy⟩).neighbors := by
  have hbounds : 0 ≤ (x + (deltaOf location).x) % gx ∧ (x + (deltaOf location).x) % gx < gx ∧
      0 ≤ (y + (deltaOf location).y) % gy ∧ (y + (deltaOf location).y) % gy < gy :=
    ⟨Int.emod_nonneg _ (by omega), Int.emod_lt_of_pos _ (by omega),
      Int.emod_nonneg _ (by omega), Int.emod_lt_of_pos _ (by omega)⟩
  have hin : (⟨x, y⟩ : IntVector2D) ∈ gridPositions ⟨gx, gy⟩ := by
    rw [mem_gridPositions]; exact ⟨hx0, hx, hy0, hy⟩
  have hlook : (buildSimulationController entropy ⟨gx, gy⟩).grid.getUnitOfGridPos
      ⟨(x + (deltaOf location).x) % gx, (y + (deltaOf location).y) % gy⟩
      = some (unitAt entropy ⟨gx, gy⟩
          ⟨(x + (deltaOf location).x) % gx, (y + (deltaOf location).y) % gy⟩) := by
    rw [getUnitOfGridPos_controller, if_pos]
    rw [mem_gridPositions]; exact hbounds
  refine ⟨⟨rfl, rfl, rfl, rfl, rfl, rfl, rfl, rfl⟩, hbounds,
    wrap_eq x _ gx hx0 (deltaOf_x_ge location) hgx,
    wrap_eq y _ gy hy0 (deltaOf_y_ge location) hgy, hlook, ?_, ?_⟩
  · rw [hlook]
    exact neighborOf_controller entropy gx gy x y location hx0 hx hy0 hy
  · rw [mem_neighbors]
    refine ⟨⟨x, y⟩, hin, location, ?_⟩
    rw [getUnitOfGridPos_controller, if_pos hin,
      getContextFromDelta_controller entropy gx gy x y location hx0 hx hy0 hy]

/-- Instance of C5: the upper-left neighbour of the unit at `(0, 0)` in a `2 × 3` grid is
the unit at `(1, 2)`. -/
theorem buildSimulationController_neighbors_witness :
    ((1 : Int) ≤ 2 ∧ (1 : Int) ≤ 3 ∧ (0 : Int) ≤ 0 ∧ (0 : Int) < 2 ∧ (0 : Int) ≤ 0 ∧
        (0 : Int) < 3) ∧
      (unitAt (fun i => i) ⟨2, 3⟩
          ⟨(0 + (deltaOf .UpperLeft).x) % 2, (0 + (deltaOf .UpperLeft).y) % 3⟩).gridPos
        = ⟨1, 2⟩ ∧
      neighborOf (buildSimulationController (fun i => i) ⟨2, 3⟩) ⟨0, 0⟩ .UpperLeft
        = (buildSimulationController (fun i => i) ⟨2, 3⟩).grid.getUnitOfGridPos
            ⟨(0 + (deltaOf .UpperLeft).x) % 2, (0 + (deltaOf .UpperLeft).y) % 3⟩ ∧
      (buildSimulationController (fun i => i) ⟨2, 3⟩).grid.getUnitOfGridPos
          ⟨(0 + (deltaOf .UpperLeft).x) % 2, (0 + (deltaOf .UpperLeft).y) % 3⟩
        = some (unitAt (fun i => i) ⟨2, 3⟩
            ⟨(0 + (deltaOf .UpperLeft).x) % 2, (0 + (deltaOf .UpperLeft).y) % 3⟩) :=
  ⟨by decide, by decide,
    (buildSimulationController_neighbors (fun i => i) 2 3 0 0 .UpperLeft
      (by decide) (by decide) (by decide) (by decide) (by decide) (by decide)).2.2.2.2.2.1,
    (buildSimulationController_neighbors (fun i => i) 2 3 0 0 .UpperLeft
      (by decide) (by decide) (by decide) (by decide) (by decide) (by decide)).2.2.2.2.1⟩

end ModelBuilderFacadeImpl

/-! ## Properties of the construction token built by the tests -/

namespace QByteArray

theorem charOf_natCast (n : Nat) (h : n < 256) : charOf (n : Int) = n := by
  unfold charOf
  omega

theorem toInt_of_lt (n : Nat) (h : n < 128) : toInt n = (n : Int) := by
  unfold toInt
  rw [if_pos h]

theorem setAt_natCast (a : List Nat) (i : Nat) (v : Int) (h : i < a.length) :
    setAt a (i : Int) v = some (a.set i (charOf v)) := by
  unfold setAt
  rw [if_pos ⟨by omega, by omega⟩]
  rfl

theorem setAt_length (a b : List Nat) (i v : Int) (h : setAt a i v = some b) :
    b.length = a.length := by
  unfold setAt at h
  split at h
  · simp only [Option.some.injEq] at h
    rw [← h, List.length_set]
  · simp at h

/-- Every list that is long enough splits into a prefix of `D` bytes, one byte, `n` bytes,
one byte, `k` bytes and a rest. -/
theorem split_block (a : List Nat) (D n k : Nat) (h : D + 1 + n + 1 + k ≤ a.length) :
    ∃ P b0 S b1 M R, a = P ++ b0 :: (S ++ b1 :: (M ++ R)) ∧
      P.length = D ∧ S.length = n ∧ M.length = k := by
  have h1 : a = a.take D ++ a.drop D := (List.take_append_drop D a).symm
  have hP : (a.take D).length = D := by rw [List.length_take]; omega
  have hlen1 : (a.drop D).length = a.length - D := List.length_drop D a
  cases hd : a.drop D with
  | nil => rw [hd] at hlen1; simp at hlen1; omega
  | cons b0 T =>
    rw [hd] at hlen1 h1
    simp only [List.length_cons] at hlen1
    have h2 : T = T.take n ++ T.drop n := (List.take_append_drop n T).symm
    have hS : (T.take n).length = n := by rw [List.length_take]; omega
    have hlen2 : (T.drop n).length = T.length - n := List.length_drop n T
    cases hd2 : T.drop n with
    | nil => rw [hd2] at hlen2; simp at hlen2; omega
    | cons b1 U =>
      rw [hd2] at hlen2 h2
      simp only [List.length_cons] at hlen2
      have h3 : U = U.take k ++ U.drop k := (List.take_append_drop k U).symm
      have hM : (U.take k).length = k := by rw [List.length_take]; omega
      refine ⟨a.take D, b0, T.take n, b1, U.take k, U.drop k, ?_, hP, hS, hM⟩
      rw [← h3, ← h2]
      exact h1

theorem set_block_head (P T : List Nat) (b x : Nat) :
    (P ++ b :: T).set P.length x = P ++ x :: T := by
  induction P with
  | nil => rfl
  | cons p P ih => simp [ih]

/-- The four writes of the function data, on a memory split into its blocks. -/
theorem write_block (P S M R s m : List Nat) (b0 b1 : Nat) (hS : S.length = s.length)
    (hM : M.length = m.length) :
    (do
      let d ← setAt (P ++ b0 :: (S ++ b1 :: (M ++ R))) (P.length : Int) (s.length : Int)
      let d ← replace d ((P.length : Int) + 1) (s.length : Int) s
      let d ← setAt d ((P.length : Int) + 1 + (s.length : Int)) (m.length : Int)
      replace d ((P.length : Int) + 1 + (s.length : Int) + 1) (m.length : Int) m)
      = some (P ++ charOf (s.length : Int) :: (s ++ charOf (m.length : Int) :: (m ++ R))) := by
  have e1 : setAt (P ++ b0 :: (S ++ b1 :: (M ++ R))) (P.length : Int) (s.length : Int)
      = some (P ++ charOf (s.length : Int) :: (S ++ b1 :: (M ++ R))) := by
    rw [setAt_natCast _ _ _ (by simp), set_block_head]
  have e2 : replace (P ++ charOf (s.length : Int) :: (S ++ b1 :: (M ++ R)))
      ((P.length : Int) + 1) (s.length : Int) s
      = some (P ++ charOf (s.length : Int) :: (s ++ b1 :: (M ++ R))) := by
    unfold replace
    rw [if_pos ⟨by omega, by simp; omega, by omega⟩]
    have t1 : ((P.length : Int) + 1).toNat = (P ++ [charOf (s.length : Int)]).length := by
      simp
    have t2 : ((P.length : Int) + 1).toNat + ((s.length : Int)).toNat
        = (P ++ [charOf (s.length : Int)] ++ S).length := by
      simp; omega
    have f1 : P ++ charOf (s.length : Int) :: (S ++ b1 :: (M ++ R))
        = (P ++ [charOf (s.length : Int)]) ++ (S ++ b1 :: (M ++ R)) := by simp
    have f2 : P ++ charOf (s.length : Int) :: (S ++ b1 :: (M ++ R))
        = (P ++ [charOf (s.length : Int)] ++ S) ++ (b1 :: (M ++ R)) := by simp
    rw [t2]
    conv_lhs => rw [f2, List.drop_left' rfl, ← f2, f1, t1, List.take_left' rfl]
    simp
  have e3 : setAt (P ++ charOf (s.length : Int) :: (s ++ b1 :: (M ++ R)))
      ((P.length : Int) + 1 + (s.length : Int)) (m.length : Int)
      = some (P ++ charOf (s.length : Int) :: (s ++ charOf (m.length : Int) :: (M ++ R))) := by
    have hidx : ((P.length : Int) + 1 + (s.length : Int))
        = (((P ++ [charOf (s.length : Int)] ++ s).length : Nat) : Int) := by
      simp; omega
    have f2 : P ++ charOf (s.length : Int) :: (s ++ b1 :: (M ++ R))
        = (P ++ [charOf (s.length : Int)] ++ s) ++ (b1 :: (M ++ R)) := by simp
    rw [hidx, f2, setAt_natCast _ _ _ (by simp), set_block_head]
    simp
  have e4 : replace (P ++ charOf (s.length : Int) :: (s ++ charOf (m.length : Int) :: (M ++ R)))
      ((P.length : Int) + 1 + (s.length : Int) + 1) (m.length : Int) m
      = some (P ++ charOf (s.length : Int) :: (s ++ charOf (m.length : Int) :: (m ++ R))) := by
    unfold replace
    rw [if_pos ⟨by omega, by simp; omega, by omega⟩]
    have t1 : ((P.length : Int) + 1 + (s.length : Int) + 1).toNat
        = (P ++ [charOf (s.length : Int)] ++ s ++ [charOf (m.length : Int)]).length := by
      simp; omega
    have t2 : ((P.length : Int) + 1 + (s.length : Int) + 1).toNat + ((m.length : Int)).toNat
        = (P ++ [charOf (s.length : Int)] ++ s ++ [charOf (m.length : Int)] ++ M).length := by
      simp; omega
    have f1 : P ++ charOf (s.length : Int) :: (s ++ charOf (m.length : Int) :: (M ++ R))
        = (P ++ [charOf (s.length : Int)] ++ s ++ [charOf (m.length : Int)]) ++ (M ++ R) := by
      simp
    have f2 : P ++ charOf (s.length : Int) :: (s ++ charOf (m.length : Int) :: (M ++ R))
        = (P ++ [charOf (s.length : Int)] ++ s ++ [charOf (m.length : Int)] ++ M) ++ R := by
      simp
    rw [t2]
    conv_lhs => rw [f2, List.drop_left' rfl, ← f2, f1, t1, List.take_left' rfl]
    simp
  simp only [e1, e2, e3, e4, Option.bind_eq_bind, Option.some_bind]

/-- Reading the length byte that precedes a block. -/
theorem charAt_block_head (P T : List Nat) (x : Nat) (hx : x < 128) :
    charAt (P ++ x :: T) (P.length : Int) = some (x : Int) := by
  unfold charAt
  rw [if_pos ⟨by omega, by simp⟩]
  simp only [Int.toNat_ofNat]
  rw [List.getElem?_append_right (Nat.le_refl _)]
  simp [toInt_of_lt x hx]

/-- Reading a block of known length that follows a prefix. -/
theorem mid_block (P S T : List Nat) :
    mid (P ++ (S ++ T)) (P.length : Int) (S.length : Int) = some S := by
  unfold mid
  rw [if_neg (by omega), if_neg (by simp)]
  simp

end QByteArray


namespace ConstructorGpuTests

/-- The decoding of `checkResult` applied to a memory that holds the two length-prefixed
payloads after a prefix of `IN_CELL_FUNCTION_DATA` bytes. -/
theorem decodeFunctionData_block (c : Constr) (P R s m : List Nat)
    (hP : P.length = c.IN_CELL_FUNCTION_DATA) (hs : s.length < 128) (hm : m.length < 128) :
    decodeFunctionData c (P ++ s.length :: (s ++ m.length :: (m ++ R))) = some (s, m) := by
  have a1 : QByteArray.charAt (P ++ s.length :: (s ++ m.length :: (m ++ R)))
      (c.IN_CELL_FUNCTION_DATA : Int) = some (s.length : Int) := by
    rw [← hP]; exact QByteArray.charAt_block_head P _ _ hs
  have a2 : QByteArray.mid (P ++ s.length :: (s ++ m.length :: (m ++ R)))
      ((c.IN_CELL_FUNCTION_DATA : Int) + 1) (s.length : Int) = some s := by
    have f : P ++ s.length :: (s ++ m.length :: (m ++ R))
        = (P ++ [s.length]) ++ (s ++ m.length :: (m ++ R)) := by simp
    have hi : (c.IN_CELL_FUNCTION_DATA : Int) + 1 = (((P ++ [s.length]).length : Nat) : Int) := by
      simp [hP]
    rw [f, hi]
    exact QByteArray.mid_block _ _ _
  have a3 : QByteArray.charAt (P ++ s.length :: (s ++ m.length :: (m ++ R)))
      ((c.IN_CELL_FUNCTION_DATA : Int) + 1 + (s.length : Int)) = some (m.length : Int) := by
    have f : P ++ s.length :: (s ++ m.length :: (m ++ R))
        = (P ++ [s.length] ++ s) ++ (m.length :: (m ++ R)) := by simp
    have hi : (c.IN_CELL_FUNCTION_DATA : Int) + 1 + (s.length : Int)
        = (((P ++ [s.length] ++ s).length : Nat) : Int) := by
      simp [hP]; omega
    rw [f, hi]
    exact QByteArray.charAt_block_head _ _ _ hm
  have a4 : QByteArray.mid (P ++ s.length :: (s ++ m.length :: (m ++ R)))
      ((c.IN_CELL_FUNCTION_DATA : Int) + 1 + (s.length : Int) + 1) (m.length : Int) = some m := by
    have f : P ++ s.length :: (s ++ m.length :: (m ++ R))
        = (P ++ [s.length] ++ s ++ [m.length]) ++ (m ++ R) := by simp
    have hi : (c.IN_CELL_FUNCTION_DATA : Int) + 1 + (s.length : Int) + 1
        = (((P ++ [s.length] ++ s ++ [m.length]).length : Nat) : Int) := by
      simp [hP]; omega
    rw [f, hi]
    exact QByteArray.mid_block _ _ _
  simp only [decodeFunctionData, a1, a2, a3, a4, Option.bind_eq_bind, Option.some_bind,
    Option.pure_def]

/-- The writes of `createTokenForConstruction` on a memory that is long enough: the result
keeps the first `IN_CELL_FUNCTION_DATA` bytes written before and the bytes behind the
payloads, and holds the two length-prefixed payloads in between. -/
theorem writeTokenData_eq (fx : TestFixture) (p : TokenForConstructionParameters)
    (tokenData : List Nat) (hlayout : fx.layout.DataIsLast)
    (hs : p.staticData.length < 128) (hm : p.mutableData.length < 128)
    (hfit : fx.layout.IN_CELL_FUNCTION_DATA + 1 + p.staticData.length + 1
      + p.mutableData.length ≤ tokenData.length) :
    ∃ P R, P.length = fx.layout.IN_CELL_FUNCTION_DATA ∧
      P.length + 1 + p.staticData.length + 1 + p.mutableData.length + R.length
        = tokenData.length ∧
      writeTokenData fx p tokenData
        = some (P ++ p.staticData.length ::
            (p.staticData ++ p.mutableData.length :: (p.mutableData ++ R))) := by
  obtain ⟨h1, h2, h3, h4, h5, h6, -, -⟩ := hlayout
  have e1 := QByteArray.setAt_natCast tokenData fx.layout.IN p.constructionInput.code
    (by omega)
  have e2 := QByteArray.setAt_natCast (tokenData.set fx.layout.IN
    (QByteArray.charOf p.constructionInput.code)) fx.layout.IN_OPTION
    p.constructionOption.code (by rw [List.length_set]; omega)
  generalize hd2 : (tokenData.set fx.layout.IN (QByteArray.charOf p.constructionInput.code)).set
    fx.layout.IN_OPTION (QByteArray.charOf p.constructionOption.code) = d2 at e2
  have l2 : d2.length = tokenData.length := by rw [← hd2]; simp
  have e3 := QByteArray.setAt_natCast d2 fx.layout.INOUT_ANGLE (fx.convertAngleToData p.angle)
    (by omega)
  have e4 := QByteArray.setAt_natCast (d2.set fx.layout.INOUT_ANGLE
    (QByteArray.charOf (fx.convertAngleToData p.angle))) fx.layout.IN_DIST
    (fx.convertDistanceToData p.distance) (by rw [List.length_set]; omega)
  generalize hd4 : (d2.set fx.layout.INOUT_ANGLE
    (QByteArray.charOf (fx.convertAngleToData p.angle))).set fx.layout.IN_DIST
    (QByteArray.charOf (fx.convertDistanceToData p.distance)) = d4 at e4
  have l4 : d4.length = tokenData.length := by rw [← hd4]; simp [l2]
  have e5 := QByteArray.setAt_natCast d4 fx.layout.IN_CELL_MAX_CONNECTIONS p.maxConnections
    (by omega)
  have e6 := QByteArray.setAt_natCast (d4.set fx.layout.IN_CELL_MAX_CONNECTIONS
    (QByteArray.charOf p.maxConnections)) fx.layout.IN_CELL_BRANCH_NO p.cellBranchNumber
    (by rw [List.length_set]; omega)
  generalize hd6 : (d4.set fx.layout.IN_CELL_MAX_CONNECTIONS
    (QByteArray.charOf p.maxConnections)).set fx.layout.IN_CELL_BRANCH_NO
    (QByteArray.charOf p.cellBranchNumber) = d6 at e6
  have l6 : d6.length = tokenData.length := by rw [← hd6]; simp [l4]
  obtain ⟨P, b0, S, b1, M, R, hsplit, hP, hS, hM⟩ := QByteArray.split_block d6
    fx.layout.IN_CELL_FUNCTION_DATA p.staticData.length p.mutableData.length (by omega)
  have hw := QByteArray.write_block P S M R p.staticData p.mutableData b0 b1 hS hM
  rw [QByteArray.charOf_natCast _ (by omega), QByteArray.charOf_natCast _ (by omega),
    ← hsplit, hP] at hw
  refine ⟨P, R, hP, ?_, ?_⟩
  · have := congrArg List.length hsplit
    simp only [List.length_append, List.length_cons] at this
    omega
  · unfold writeTokenData
    simp only [e1, e2, e3, e4, e5, e6, Option.bind_eq_bind, Option.some_bind]
    exact hw

end ConstructorGpuTests

namespace ConstructorGpuTests

/-- C11: token function-data round trip.  For every static payload `s` and mutable payload
`m`, each shorter than 128 bytes and with
`IN_CELL_FUNCTION_DATA + 1 + |s| + 1 + |m| ≤ tokenMemorySize`, the token built by
`createTokenForConstruction` stores `|s|` at offset `IN_CELL_FUNCTION_DATA`, the bytes of
`s` directly after it, `|m|` at the following offset and the bytes of `m` after that, and
the length-prefixed decoding of `checkResult` returns exactly `s` and `m`. -/
theorem createTokenForConstruction_roundtrip (fx : TestFixture)
    (p : TokenForConstructionParameters) (tokenData : List Nat)
    (hdata : fx.simpleToken.data = some tokenData)
    (hsize : tokenData.length = fx.parameters.tokenMemorySize)
    (hlayout : fx.layout.DataIsLast)
    (hs : p.staticData.length < 128) (hm : p.mutableData.length < 128)
    (hfit : fx.layout.IN_CELL_FUNCTION_DATA + 1 + p.staticData.length + 1
      + p.mutableData.length ≤ fx.parameters.tokenMemorySize) :
    ∃ token data, createTokenForConstruction fx p = some token ∧ token.data = some data ∧
      data.length = fx.parameters.tokenMemorySize ∧
      data[fx.layout.IN_CELL_FUNCTION_DATA]? = some p.staticData.length ∧
      (data.drop (fx.layout.IN_CELL_FUNCTION_DATA + 1)).take p.staticData.length
        = p.staticData ∧
      data[fx.layout.IN_CELL_FUNCTION_DATA + 1 + p.staticData.length]?
        = some p.mutableData.length ∧
      (data.drop (fx.layout.IN_CELL_FUNCTION_DATA + 1 + p.staticData.length + 1)).take
        p.mutableData.length = p.mutableData ∧
      decodeFunctionData fx.layout data = some (p.staticData, p.mutableData) := by
  obtain ⟨P, R, hP, hlen, hw⟩ :=
    writeTokenData_eq fx p tokenData hlayout hs hm (by omega)
  refine ⟨{ data := some (P ++ p.staticData.length ::
      (p.staticData ++ p.mutableData.length :: (p.mutableData ++ R)))
            energy := some (p.energy.getD (2 * fx.parameters.tokenMinEnergy
              + 2 * fx.parameters.cellFunctionConstructorOffspringCellEnergy)) },
    P ++ p.staticData.length ::
      (p.staticData ++ p.mutableData.length :: (p.mutableData ++ R)), ?_, rfl, ?_, ?_, ?_, ?_, ?_,
    decodeFunctionData_block fx.layout P R _ _ hP hs hm⟩
  · unfold createTokenForConstruction
    simp only [hdata, hw]
  · simp only [List.length_append, List.length_cons]
    omega
  · rw [← hP, List.getElem?_append_right (Nat.le_refl _)]
    simp
  · have f : P ++ p.staticData.length ::
        (p.staticData ++ p.mutableData.length :: (p.mutableData ++ R))
        = (P ++ [p.staticData.length]) ++
          (p.staticData ++ p.mutableData.length :: (p.mutableData ++ R)) := by simp
    rw [f, List.drop_left' (by simp [hP]), List.take_left' rfl]
  · have f : P ++ p.staticData.length ::
        (p.staticData ++ p.mutableData.length :: (p.mutableData ++ R))
        = (P ++ [p.staticData.length] ++ p.staticData) ++
          (p.mutableData.length :: (p.mutableData ++ R)) := by simp
    have hl : (P ++ [p.staticData.length] ++ p.staticData).length
        = fx.layout.IN_CELL_FUNCTION_DATA + 1 + p.staticData.length := by
      simp [hP]; omega
    rw [f, ← hl, List.getElem?_append_right (Nat.le_refl _)]
    simp
  · have f : P ++ p.staticData.length ::
        (p.staticData ++ p.mutableData.length :: (p.mutableData ++ R))
        = (P ++ [p.staticData.length] ++ p.staticData ++ [p.mutableData.length]) ++
          (p.mutableData ++ R) := by simp
    rw [f, List.drop_left' (by simp [hP]; omega), List.take_left' rfl]

/-- Instance of C11: payloads `[7, 8]` and `[9]` in a 32-byte token memory with the spec's
layout. -/
theorem createTokenForConstruction_roundtrip_witness :
    (exampleFixture.simpleToken.data = some (List.replicate 32 0) ∧
        (List.replicate 32 0).length = exampleFixture.parameters.tokenMemorySize ∧
        exampleFixture.layout.DataIsLast ∧
        ([7, 8] : List Nat).length < 128 ∧ ([9] : List Nat).length < 128 ∧
        exampleFixture.layout.IN_CELL_FUNCTION_DATA + 1 + ([7, 8] : List Nat).length + 1
          + ([9] : List Nat).length ≤ exampleFixture.parameters.tokenMemorySize) ∧
      ∃ token data,
        createTokenForConstruction exampleFixture { staticData := [7, 8], mutableData := [9] }
          = some token ∧ token.data = some data ∧
        data.length = exampleFixture.parameters.tokenMemorySize ∧
        data[exampleFixture.layout.IN_CELL_FUNCTION_DATA]? = some ([7, 8] : List Nat).length ∧
        (data.drop (exampleFixture.layout.IN_CELL_FUNCTION_DATA + 1)).take
          ([7, 8] : List Nat).length = [7, 8] ∧
        data[exampleFixture.layout.IN_CELL_FUNCTION_DATA + 1 + ([7, 8] : List Nat).length]?
          = some ([9] : List Nat).length ∧
        (data.drop (exampleFixture.layout.IN_CELL_FUNCTION_DATA + 1
          + ([7, 8] : List Nat).length + 1)).take ([9] : List Nat).length = [9] ∧
        decodeFunctionData exampleFixture.layout data = some ([7, 8], [9]) :=
  ⟨⟨rfl, by decide, by decide, by decide, by decide, by decide⟩,
    createTokenForConstruction_roundtrip exampleFixture
      { staticData := [7, 8], mutableData := [9] } (List.replicate 32 0)
      rfl (by decide) (by decide) (by decide) (by decide) (by decide)⟩

end ConstructorGpuTests

/-! ## Properties of the constructor cell function and of the expectations of its tests -/

namespace ConstructorFunction

/-- A handler run on a command that is not `DO_NOTHING` executes the command read from the
token. -/
theorem processing_eq_execute (env : ConstructorEnvironment) (site : ConstructionSite)
    (result : ConstructionResult) (cell : CellDescription)
    (h : processing env site = some result) (hcell : result.constructedCell = some cell) :
    ∃ data input cmd, site.token.data = some data ∧ input ≠ ConstrIn.DO_NOTHING ∧
      (data[env.layout.IN]?).bind ConstrIn.ofByte = some input ∧
      readCommand env site data input = some cmd ∧ result = execute env site cmd := by
  unfold processing at h
  split at h
  · simp at h
  · rename_i data hdata
    split at h
    · simp at h
    · simp only [Option.some.injEq] at h
      rw [← h] at hcell
      simp [finishWith] at hcell
    · rename_i input hne hin
      cases hcmd : readCommand env site data input with
      | none => rw [hcmd] at h; simp at h
      | some cmd =>
        rw [hcmd] at h
        simp only [Option.map_some', Option.some.injEq] at h
        refine ⟨data, input, cmd, hdata, ?_, hin, hcmd, h.symm⟩
        intro heq
        exact hne heq

/-- What a command that was read holds. -/
theorem readCommand_eq (env : ConstructorEnvironment) (site : ConstructionSite)
    (data : List Nat) (input : ConstrIn) (cmd : Command)
    (h : readCommand env site data input = some cmd) :
    cmd.data = data ∧ cmd.input = input ∧ site.token.energy = some cmd.energy ∧
      (data[env.layout.IN_OPTION]?).bind ConstrInOption.ofByte = some cmd.option ∧
      data[env.layout.INOUT_ANGLE]? = some cmd.angleByte ∧
      data[env.layout.IN_DIST]? = some cmd.distByte ∧
      data[env.layout.IN_CELL_MAX_CONNECTIONS]? = some cmd.maxConnectionsByte ∧
      data[env.layout.IN_CELL_BRANCH_NO]? = some cmd.branchByte ∧
      data[env.layout.IN_CELL_FUNCTION]? = some cmd.functionByte ∧
      site.constructorCell.pos = some cmd.constructorPos ∧
      site.constructorCell.connectingCells = some cmd.connections := by
  unfold readCommand at h
  split at h
  · rename_i h1 h2 h3 h4 h5 h6 h7 h8 h9
    simp only [Option.some.injEq] at h
    subst h
    exact ⟨rfl, rfl, h1, h2, h3, h4, h5, h6, h7, h8, h9⟩
  · simp at h

/-- A result without mutation has no constructed cell. -/
theorem finishWith_constructedCell (env : ConstructorEnvironment) (site : ConstructionSite)
    (data : List Nat) (out : ConstrOut) :
    (finishWith env site data out).constructedCell = none := rfl

/-- An executed command that constructed a cell passed the energy and connection checks and
is a `construct`. -/
theorem execute_constructed (env : ConstructorEnvironment) (site : ConstructionSite)
    (cmd : Command) (cell : CellDescription)
    (hcell : (execute env site cmd).constructedCell = some cell) :
    energyThreshold env.parameters cmd.option < cmd.energy ∧
      cmd.connections.length + 1 ≤ env.parameters.cellMaxBonds ∧
      ∃ destroyed, execute env site cmd = construct env site cmd destroyed := by
  unfold execute at hcell ⊢
  split_ifs at hcell ⊢ with h1 h2
  · simp [finishWith] at hcell
  · simp [finishWith] at hcell
  · refine ⟨lt_of_not_ge h1, ?_, ?_⟩
    · have := not_or.mp h2
      omega
    · unfold resolveObstacles at hcell ⊢
      split at hcell
      · split_ifs at hcell ⊢ with h3
        · simp [finishWith] at hcell
        · exact ⟨_, rfl⟩
      · split_ifs at hcell ⊢ with h3
        · simp [finishWith] at hcell
        · exact ⟨_, rfl⟩
      · exact ⟨_, rfl⟩

/-- The byte of an option is its numeric value and is a non-negative `char`. -/
theorem ConstrInOption_ofByte_code (b : Nat) (option : ConstrInOption)
    (h : ConstrInOption.ofByte b = some option) : (b : Int) = option.code ∧ b < 128 := by
  unfold ConstrInOption.ofByte at h
  split at h <;> simp at h <;> subst h <;> exact ⟨rfl, by norm_num⟩

/-- Reading a byte of the memory of a result at an offset other than `OUT`. -/
theorem charAt_set_ne (data : List Nat) (out off v b : Nat) (hne : out ≠ off)
    (hb : data[off]? = some b) (h128 : b < 128) :
    QByteArray.charAt (data.set out v) (off : Int) = some (b : Int) := by
  have hlt : off < data.length := by
    rcases List.getElem?_eq_some.mp hb with ⟨h, -⟩
    exact h
  unfold QByteArray.charAt
  rw [if_pos ⟨by omega, by simp; omega⟩]
  simp only [Int.toNat_ofNat]
  rw [List.getElem?_set_ne hne, hb]
  simp [QByteArray.toInt_of_lt b h128]

end ConstructorFunction

namespace ConstructorFunction

/-- The local `isSeparated` of `checkResult` agrees with the separating options. -/
theorem isSeparated_code (option : ConstrInOption) :
    ConstructorGpuTests.isSeparated option.code = option.separates := by
  cases option <;> rfl

/-- The local `isFinished` of `checkResult` agrees with the finishing options. -/
theorem isFinished_code (option : ConstrInOption) :
    ConstructorGpuTests.isFinished option.code = option.finishes := by
  cases option <;> rfl

/-- The separating options by name. -/
theorem separates_iff (option : ConstrInOption) :
    option.separates = false ↔
      (option ≠ .FINISH_WITH_SEP ∧ option ≠ .FINISH_WITH_SEP_RED
        ∧ option ≠ .FINISH_WITH_TOKEN_SEP_RED) := by
  cases option <;> simp [ConstrInOption.separates]

/-- The finishing options by name. -/
theorem finishes_iff (option : ConstrInOption) :
    option.finishes = false ↔
      (option = .STANDARD ∨ option = .CREATE_EMPTY_TOKEN ∨ option = .CREATE_DUP_TOKEN) := by
  cases option <;> simp [ConstrInOption.finishes]

/-- A handler run that constructed a cell: the command it executed and the construction it
made. -/
theorem processing_construct (env : ConstructorEnvironment) (site : ConstructionSite)
    (result : ConstructionResult) (cell : CellDescription)
    (h : processing env site = some result) (hcell : result.constructedCell = some cell) :
    ∃ data input cmd destroyed optionByte,
      site.token.data = some data ∧ input ≠ ConstrIn.DO_NOTHING ∧
      readCommand env site data input = some cmd ∧ cmd.data = data ∧
      data[env.layout.IN_OPTION]? = some optionByte ∧
      ConstrInOption.ofByte optionByte = some cmd.option ∧
      data[env.layout.IN_CELL_MAX_CONNECTIONS]? = some cmd.maxConnectionsByte ∧
      site.constructorCell.connectingCells = some cmd.connections ∧
      energyThreshold env.parameters cmd.option < cmd.energy ∧
      cmd.connections.length + 1 ≤ env.parameters.cellMaxBonds ∧
      result = construct env site cmd destroyed := by
  obtain ⟨data, input, cmd, hdata, hne, -, hcmd, hres⟩ :=
    processing_eq_execute env site result cell h hcell
  rw [hres] at hcell
  obtain ⟨he, hc, destroyed, hex⟩ := execute_constructed env site cmd cell hcell
  obtain ⟨h1, -, -, h4, -, -, h7, -, -, -, h11⟩ := readCommand_eq env site data input cmd hcmd
  obtain ⟨optionByte, hb, hof⟩ := Option.bind_eq_some.mp h4
  exact ⟨data, input, cmd, destroyed, optionByte, hdata, hne, hcmd, h1, hb, hof, h7, h11,
    he, hc, by rw [hres, hex]⟩

/-- C12: after every successful construction (with a fresh offspring ID), the offspring
lists the constructor among its connecting cells if and only if the constructor lists the
offspring among its own, and both hold exactly when `IN_OPTION` is none of
`FINISH_WITH_SEP`, `FINISH_WITH_SEP_RED` and `FINISH_WITH_TOKEN_SEP_RED`; the two
connection expectations of `checkResult` are met. -/
theorem construction_connection_symmetric (env : ConstructorEnvironment)
    (site : ConstructionSite) (result : ConstructionResult) (cell : CellDescription)
    (movementOfCenter : QVector2D) (increaseNumberOfCells : Int)
    (h : processing env site = some result) (hcell : result.constructedCell = some cell)
    (hlayout : env.layout.OutIsSeparate)
    (hfresh : ∀ connections, site.constructorCell.connectingCells = some connections →
      site.offspringId ∉ connections) :
    ∃ data optionByte option offspringConnections constructorConnections,
      site.token.data = some data ∧ data[env.layout.IN_OPTION]? = some optionByte ∧
      ConstrInOption.ofByte optionByte = some option ∧
      cell.connectingCells = some offspringConnections ∧
      result.constructorCell.connectingCells = some constructorConnections ∧
      (result.constructorCell.id ∈ offspringConnections ↔ cell.id ∈ constructorConnections) ∧
      (result.constructorCell.id ∈ offspringConnections ↔
        (option ≠ .FINISH_WITH_SEP ∧ option ≠ .FINISH_WITH_SEP_RED
          ∧ option ≠ .FINISH_WITH_TOKEN_SEP_RED)) ∧
      ConstructorGpuTests.expectConstructedCellConnected env.layout
        (ConstructorGpuTests.testResultOf result movementOfCenter increaseNumberOfCells)
        = some true ∧
      ConstructorGpuTests.expectConstructorConnected env.layout
        (ConstructorGpuTests.testResultOf result movementOfCenter increaseNumberOfCells)
        = some true := by
  obtain ⟨data, input, cmd, destroyed, optionByte, hdata, -, -, hcd, hb, hof, -, hconn, -, -,
    hres⟩ := processing_construct env site result cell h hcell
  have hnot := hfresh cmd.connections hconn
  obtain ⟨hcode, h128⟩ := ConstrInOption_ofByte_code optionByte cmd.option hof
  have hread : QByteArray.charAt (cmd.data.set env.layout.OUT ConstrOut.SUCCESS.code.toNat)
      (env.layout.IN_OPTION : Int) = some cmd.option.code := by
    rw [← hcode]
    exact charAt_set_ne _ _ _ _ _ hlayout.2.1 (by rw [hcd]; exact hb) h128
  subst hres
  simp only [construct, offspring, Option.some.injEq] at hcell
  subst hcell
  refine ⟨data, optionByte, cmd.option, _, _, hdata, hb, hof, rfl, rfl, ?_, ?_, ?_, ?_⟩
  · cases hs : cmd.option.separates <;> simp [construct, offspring, hs, hnot]
  · rw [← separates_iff]
    cases hs : cmd.option.separates <;> simp [construct, offspring, hs]
  · simp only [ConstructorGpuTests.expectConstructedCellConnected,
      ConstructorGpuTests.testResultOf, construct, offspring, hread, Option.bind_eq_bind, Option.some_bind,
      Option.pure_def, isSeparated_code]
    cases hs : cmd.option.separates <;> simp [hs]
  · simp only [ConstructorGpuTests.expectConstructorConnected,
      ConstructorGpuTests.testResultOf, construct, offspring, hread, Option.bind_eq_bind, Option.some_bind,
      Option.pure_def, isSeparated_code]
    cases hs : cmd.option.separates <;> simp [hs, hnot]

end ConstructorFunction

namespace ConstructorFunction

/-- The max-connections expectation of `checkResult` on a construction: it is met exactly
when the option does not reduce. -/
theorem expectMaxConnections_construct (env : ConstructorEnvironment)
    (site : ConstructionSite) (cmd : Command) (destroyed : List Nat)
    (movementOfCenter : QVector2D) (increaseNumberOfCells : Int)
    (hlayout : env.layout.OutIsSeparate)
    (hmax : cmd.data[env.layout.IN_CELL_MAX_CONNECTIONS]? = some cmd.maxConnectionsByte)
    (h128 : cmd.maxConnectionsByte < 128) :
    ConstructorGpuTests.expectMaxConnections env.layout
      (ConstructorGpuTests.testResultOf (construct env site cmd destroyed) movementOfCenter
        increaseNumberOfCells) = some (!cmd.option.reduces) := by
  have hread : QByteArray.charAt (cmd.data.set env.layout.OUT ConstrOut.SUCCESS.code.toNat)
      (env.layout.IN_CELL_MAX_CONNECTIONS : Int) = some (cmd.maxConnectionsByte : Int) :=
    charAt_set_ne _ _ _ _ _ hlayout.2.2 hmax h128
  simp only [ConstructorGpuTests.expectMaxConnections, ConstructorGpuTests.testResultOf,
    construct, offspring, hread, Option.bind_eq_bind, Option.some_bind, Option.pure_def]
  by_cases hz : cmd.maxConnectionsByte = 0
  · cases ho : cmd.option <;>
      simp [offspringMaxConnections, hz, ConstrInOption.reduces, ConstrInOption.separates]
  · have hz' : ¬ ((cmd.maxConnectionsByte : Int) = 0) := by omega
    cases ho : cmd.option <;>
      simp [offspringMaxConnections, hz, hz', ConstrInOption.reduces] <;>
      omega

/-- C13: after every successful construction the offspring is token-blocked exactly when
`IN_OPTION` is `STANDARD`, `CREATE_EMPTY_TOKEN` or `CREATE_DUP_TOKEN`, and unblocked
exactly when it is `FINISH_NO_SEP`, `FINISH_WITH_SEP`, `FINISH_WITH_SEP_RED` or
`FINISH_WITH_TOKEN_SEP_RED`; the token-blocked expectation of `checkResult` is met. -/
theorem construction_tokenBlocked (env : ConstructorEnvironment)
    (site : ConstructionSite) (result : ConstructionResult) (cell : CellDescription)
    (movementOfCenter : QVector2D) (increaseNumberOfCells : Int)
    (h : processing env site = some result) (hcell : result.constructedCell = some cell)
    (hlayout : env.layout.OutIsSeparate) :
    ∃ data optionByte option,
      site.token.data = some data ∧ data[env.layout.IN_OPTION]? = some optionByte ∧
      ConstrInOption.ofByte optionByte = some option ∧
      (cell.tokenBlocked = some true ↔
        (option = .STANDARD ∨ option = .CREATE_EMPTY_TOKEN ∨ option = .CREATE_DUP_TOKEN)) ∧
      (cell.tokenBlocked = some false ↔
        (option = .FINISH_NO_SEP ∨ option = .FINISH_WITH_SEP ∨ option = .FINISH_WITH_SEP_RED
          ∨ option = .FINISH_WITH_TOKEN_SEP_RED)) ∧
      ConstructorGpuTests.expectTokenBlocked env.layout
        (ConstructorGpuTests.testResultOf result movementOfCenter increaseNumberOfCells)
        = some true := by
  obtain ⟨data, input, cmd, destroyed, optionByte, hdata, -, -, hcd, hb, hof, -, -, -, -,
    hres⟩ := processing_construct env site result cell h hcell
  obtain ⟨hcode, h128⟩ := ConstrInOption_ofByte_code optionByte cmd.option hof
  have hread : QByteArray.charAt (cmd.data.set env.layout.OUT ConstrOut.SUCCESS.code.toNat)
      (env.layout.IN_OPTION : Int) = some cmd.option.code := by
    rw [← hcode]
    exact charAt_set_ne _ _ _ _ _ hlayout.2.1 (by rw [hcd]; exact hb) h128
  subst hres
  simp only [construct, offspring, Option.some.injEq] at hcell
  subst hcell
  refine ⟨data, optionByte, cmd.option, hdata, hb, hof, ?_, ?_, ?_⟩
  · cases cmd.option <;> simp [ConstrInOption.finishes]
  · cases cmd.option <;> simp [ConstrInOption.finishes]
  · simp only [ConstructorGpuTests.expectTokenBlocked, ConstructorGpuTests.testResultOf,
      construct, offspring, hread, Option.bind_eq_bind, Option.some_bind, Option.pure_def, isFinished_code]
    simp

/-- C14 (amended): after every successful construction the offspring's max-connections
equals `IN_CELL_MAX_CONNECTIONS` when that field is non-zero and
`max(number of the offspring's connections, 2)` when the field is 0, provided the option is
neither `FINISH_WITH_SEP_RED` nor `FINISH_WITH_TOKEN_SEP_RED`; under these two options it
is one less.  In all cases the offspring's number of connections does not exceed its
max-connections. -/
theorem construction_maxConnections (env : ConstructorEnvironment)
    (site : ConstructionSite) (result : ConstructionResult) (cell : CellDescription)
    (movementOfCenter : QVector2D) (increaseNumberOfCells : Int)
    (h : processing env site = some result) (hcell : result.constructedCell = some cell) :
    ∃ data optionByte option maxConnectionsByte maxConnections offspringConnections,
      site.token.data = some data ∧ data[env.layout.IN_OPTION]? = some optionByte ∧
      ConstrInOption.ofByte optionByte = some option ∧
      data[env.layout.IN_CELL_MAX_CONNECTIONS]? = some maxConnectionsByte ∧
      cell.maxConnections = some maxConnections ∧
      cell.connectingCells = some offspringConnections ∧
      ((option ≠ .FINISH_WITH_SEP_RED ∧ option ≠ .FINISH_WITH_TOKEN_SEP_RED) →
        (maxConnectionsByte ≠ 0 → maxConnections = (maxConnectionsByte : Int)) ∧
        (maxConnectionsByte = 0 →
          maxConnections = ((max offspringConnections.length 2 : Nat) : Int))) ∧
      ((option = .FINISH_WITH_SEP_RED ∨ option = .FINISH_WITH_TOKEN_SEP_RED) →
        (maxConnectionsByte ≠ 0 → maxConnections = (maxConnectionsByte : Int) - 1) ∧
        (maxConnectionsByte = 0 →
          maxConnections = ((max offspringConnections.length 2 : Nat) : Int) - 1)) ∧
      (offspringConnections.length : Int) ≤ maxConnections ∧
      (env.layout.OutIsSeparate → maxConnectionsByte < 128 →
        ConstructorGpuTests.expectMaxConnections env.layout
          (ConstructorGpuTests.testResultOf result movementOfCenter increaseNumberOfCells)
          = some (decide (option ≠ .FINISH_WITH_SEP_RED
              ∧ option ≠ .FINISH_WITH_TOKEN_SEP_RED))) := by
  obtain ⟨data, input, cmd, destroyed, optionByte, hdata, -, -, hcd, hb, hof, hmax, -, -, -,
    hres⟩ := processing_construct env site result cell h hcell
  subst hres
  simp only [construct, offspring, Option.some.injEq] at hcell
  subst hcell
  refine ⟨data, optionByte, cmd.option, cmd.maxConnectionsByte, _, _, hdata, hb, hof, hmax,
    rfl, rfl, ?_, ?_, ?_, ?_⟩
  rotate_left 3
  · intro hlayout h128
    rw [expectMaxConnections_construct env site cmd destroyed movementOfCenter
      increaseNumberOfCells hlayout (by rw [hcd]; exact hmax) h128]
    cases cmd.option <;> simp [ConstrInOption.reduces]
  · intro hopt
    have hr : cmd.option.reduces = false := by
      cases ho : cmd.option <;> simp_all [ConstrInOption.reduces]
    constructor
    · intro hne
      simp [offspringMaxConnections, hr, hne]
    · intro hz
      simp [offspringMaxConnections, hr, hz]
  · intro hopt
    have hr : cmd.option.reduces = true := by
      rcases hopt with ho | ho <;> simp [ho, ConstrInOption.reduces]
    constructor
    · intro hne
      simp [offspringMaxConnections, hr, hne]
    · intro hz
      simp [offspringMaxConnections, hr, hz]
  · by_cases hz : cmd.maxConnectionsByte = 0
    · cases ho : cmd.option <;>
        simp [offspringMaxConnections, hz, ConstrInOption.reduces, ConstrInOption.separates]
    · cases ho : cmd.option <;>
        simp [offspringMaxConnections, hz, ConstrInOption.reduces, ConstrInOption.separates] <;>
        omega

end ConstructorFunction

namespace ConstructorFunction

/-- C15 (amended): for a successful construction with option `FINISH_WITH_SEP_RED` or
`FINISH_WITH_TOKEN_SEP_RED` and a non-zero `IN_CELL_MAX_CONNECTIONS = n` (a non-negative
`char`), the offspring's max-connections is `n - 1`, one less than under
`FINISH_WITH_SEP`, where it is `n`; the expectation encoded in `checkResult` is the
unreduced value `n`, so the max-connections expectation of `checkResult` is not met by this
value. -/
theorem construction_reduced_maxConnections (env : ConstructorEnvironment)
    (site : ConstructionSite) (result : ConstructionResult) (cell : CellDescription)
    (movementOfCenter : QVector2D) (increaseNumberOfCells : Int)
    (data : List Nat) (optionByte n : Nat)
    (h : processing env site = some result) (hcell : result.constructedCell = some cell)
    (hlayout : env.layout.OutIsSeparate)
    (hdata : site.token.data = some data)
    (hb : data[env.layout.IN_OPTION]? = some optionByte)
    (hred : ConstrInOption.ofByte optionByte = some .FINISH_WITH_SEP_RED
      ∨ ConstrInOption.ofByte optionByte = some .FINISH_WITH_TOKEN_SEP_RED)
    (hmax : data[env.layout.IN_CELL_MAX_CONNECTIONS]? = some n) (hn : n ≠ 0)
    (hn128 : n < 128) :
    cell.maxConnections = some ((n : Int) - 1) ∧
      offspringMaxConnections .FINISH_WITH_SEP n 0 = (n : Int) ∧
      ConstructorGpuTests.expectMaxConnections env.layout
        (ConstructorGpuTests.testResultOf result movementOfCenter increaseNumberOfCells)
        = some false := by
  obtain ⟨data', input, cmd, destroyed, optionByte', hdata', -, -, hcd, hb', hof, hmax', -, -,
    -, hres⟩ := processing_construct env site result cell h hcell
  have e1 : data' = data := by rw [hdata] at hdata'; exact (Option.some.inj hdata').symm
  subst e1
  have e2 : optionByte' = optionByte := by rw [hb] at hb'; exact (Option.some.inj hb').symm
  subst e2
  have e3 : cmd.maxConnectionsByte = n := by rw [hmax] at hmax'; exact (Option.some.inj hmax').symm
  have hr : cmd.option.reduces = true := by
    rw [hof] at hred
    rcases hred with ho | ho <;>
      · have := Option.some.inj ho
        simp [this, ConstrInOption.reduces]
  have hexp := expectMaxConnections_construct env site cmd destroyed movementOfCenter
    increaseNumberOfCells hlayout (by rw [hcd, e3]; exact hmax) (by omega)
  subst hres
  simp only [construct, offspring, Option.some.injEq] at hcell
  subst hcell
  refine ⟨?_, ?_, ?_⟩
  · simp [offspringMaxConnections, hr, e3, hn]
  · simp [offspringMaxConnections, ConstrInOption.reduces, hn]
  · rw [hexp, hr]; rfl

end ConstructorFunction

namespace ConstructorFunction

/-- Reading `OUT` from a memory into which it was just written. -/
theorem charAt_set_self (data : List Nat) (out v : Nat) (hlt : out < data.length)
    (h128 : v < 128) : QByteArray.charAt (data.set out v) (out : Int) = some (v : Int) := by
  unfold QByteArray.charAt
  rw [if_pos ⟨by omega, by simp; omega⟩]
  simp only [Int.toNat_ofNat]
  rw [List.getElem?_set_self (by omega)]
  simp [QByteArray.toInt_of_lt v h128]

/-- A run that ends without mutation: what the result holds and what `checkResult` finds. -/
theorem finishWith_spec (env : ConstructorEnvironment) (site : ConstructionSite)
    (data : List Nat) (out : ConstrOut) (movementOfCenter : QVector2D)
    (increaseNumberOfCells : Int) (hout : env.layout.OUT < data.length) :
    tokenOutput env (finishWith env site data out) = some out.code ∧
      (finishWith env site data out).constructedCell = none ∧
      (finishWith env site data out).constructorCell = site.constructorCell ∧
      (finishWith env site data out).token.energy = site.token.energy ∧
      (finishWith env site data out).destroyedCells = [] ∧
      ConstructorGpuTests.expectTokenOutput env.layout
        (ConstructorGpuTests.testResultOf (finishWith env site data out) movementOfCenter
          increaseNumberOfCells) { tokenOutput := out } = some true ∧
      ConstructorGpuTests.expectNoConstructedCell
        (ConstructorGpuTests.testResultOf (finishWith env site data out) movementOfCenter
          increaseNumberOfCells) = true := by
  have hcode : ((out.code.toNat : Nat) : Int) = out.code ∧ out.code.toNat < 128 := by
    cases out <;> exact ⟨rfl, by decide⟩
  have hread := charAt_set_self data env.layout.OUT out.code.toNat hout hcode.2
  rw [hcode.1] at hread
  refine ⟨?_, rfl, rfl, rfl, rfl, ?_, rfl⟩
  · simp only [tokenOutput, finishWith, hread]
  · simp only [ConstructorGpuTests.expectTokenOutput, ConstructorGpuTests.testResultOf,
      finishWith, hread, Option.bind_eq_bind, Option.some_bind, Option.pure_def]
    simp

/-- A handler run on an action other than `DO_NOTHING` whose command can be read. -/
theorem processing_of_command (env : ConstructorEnvironment) (site : ConstructionSite)
    (data : List Nat) (input : ConstrIn) (cmd : Command)
    (hdata : site.token.data = some data)
    (hin : (data[env.layout.IN]?).bind ConstrIn.ofByte = some input)
    (hne : input ≠ .DO_NOTHING) (hcmd : readCommand env site data input = some cmd) :
    processing env site = some (execute env site cmd) := by
  unfold processing
  rw [hdata]
  simp only [hin]
  cases input with
  | DO_NOTHING => exact absurd rfl hne
  | SAFE => simp [hcmd]
  | UNSAFE => simp [hcmd]
  | BRUTEFORCE => simp [hcmd]

/-- C16: for every construction command (`IN` is `SAFE`, `UNSAFE` or `BRUTEFORCE`) whose
token energy does not exceed `2·tokenMinEnergy + cellFunctionConstructorOffspringCellEnergy`
(plus the offspring token energy when the option spawns a token), the handler returns with
`OUT = ERROR_NO_ENERGY`, constructs no cell, destroys none and leaves the constructor and
the token energy unchanged; `checkResult` finds the expected output and no constructed
cell.  The token energy `tokenMinEnergy + offspringCellEnergy / 2` of the test does not
exceed the threshold for all non-negative parameters. -/
theorem processing_errorNoEnergy (env : ConstructorEnvironment) (site : ConstructionSite)
    (data : List Nat) (input : ConstrIn) (cmd : Command) (movementOfCenter : QVector2D)
    (increaseNumberOfCells : Int)
    (hdata : site.token.data = some data)
    (hin : (data[env.layout.IN]?).bind ConstrIn.ofByte = some input)
    (haction : input = .SAFE ∨ input = .UNSAFE ∨ input = .BRUTEFORCE)
    (hcmd : readCommand env site data input = some cmd)
    (hlow : cmd.energy ≤ energyThreshold env.parameters cmd.option)
    (hout : env.layout.OUT < data.length) :
    ∃ result, processing env site = some result ∧
      site.token.energy = some cmd.energy ∧
      tokenOutput env result = some ConstrOut.ERROR_NO_ENERGY.code ∧
      result.constructedCell = none ∧
      result.constructorCell = site.constructorCell ∧
      result.token.energy = site.token.energy ∧
      result.destroyedCells = [] ∧
      ConstructorGpuTests.expectTokenOutput env.layout
        (ConstructorGpuTests.testResultOf result movementOfCenter increaseNumberOfCells)
        { tokenOutput := .ERROR_NO_ENERGY } = some true ∧
      ConstructorGpuTests.expectNoConstructedCell
        (ConstructorGpuTests.testResultOf result movementOfCenter increaseNumberOfCells)
        = true ∧
      (0 ≤ env.parameters.tokenMinEnergy →
        0 ≤ env.parameters.cellFunctionConstructorOffspringCellEnergy →
        0 ≤ env.parameters.cellFunctionConstructorOffspringTokenEnergy →
        ∀ option, ConstructorGpuTests.lowTokenEnergy env.parameters
          ≤ energyThreshold env.parameters option) := by
  have hne : input ≠ .DO_NOTHING := by
    rcases haction with h | h | h <;> simp [h]
  have hproc := processing_of_command env site data input cmd hdata hin hne hcmd
  have hex : execute env site cmd = finishWith env site cmd.data .ERROR_NO_ENERGY := by
    unfold execute
    rw [if_pos hlow]
  obtain ⟨hcd, -, henergy, -⟩ := readCommand_eq env site data input cmd hcmd
  rw [hex, hcd] at hproc
  obtain ⟨f1, f2, f3, f4, f5, f6, f7⟩ := finishWith_spec env site data .ERROR_NO_ENERGY
    movementOfCenter increaseNumberOfCells hout
  refine ⟨_, hproc, henergy, f1, f2, f3, f4, f5, f6, f7, ?_⟩
  intro h1 h2 h3 option
  unfold ConstructorGpuTests.lowTokenEnergy energyThreshold
  split_ifs <;> linarith

end ConstructorFunction

namespace ConstructorFunction

/-- A cell of a list that lies within `cellMinDistance` of a position is found by
`cellsNear`. -/
theorem cellsNear_ne_nil (env : ConstructorEnvironment) (pos p : QVector2D)
    (cells : List CellDescription) (cell : CellDescription) (hmem : cell ∈ cells)
    (hpos : cell.pos = some p) (hnear : env.distance p pos < env.parameters.cellMinDistance) :
    cellsNear env pos cells ≠ [] := by
  have : cell ∈ cellsNear env pos cells := by
    unfold cellsNear
    rw [List.mem_filter]
    exact ⟨hmem, by simp [hpos, hnear]⟩
  exact List.ne_nil_of_mem this

/-- A `SAFE` or `UNSAFE` command with a foreign cell within `cellMinDistance` of the
offspring position ends without mutation; the output is `ERROR_OBSTACLE` when the energy
and the connection accounting admit the construction. -/
theorem execute_obstacle (env : ConstructorEnvironment) (site : ConstructionSite)
    (cmd : Command) (haction : cmd.input = .SAFE ∨ cmd.input = .UNSAFE)
    (hobst : foreignObstacles env site cmd ≠ []) :
    ∃ out, execute env site cmd = finishWith env site cmd.data out ∧
      out ≠ ConstrOut.SUCCESS ∧
      (energyThreshold env.parameters cmd.option < cmd.energy →
        cmd.connections.length + 1 ≤ env.parameters.cellMaxBonds →
        out = ConstrOut.ERROR_OBSTACLE) := by
  unfold execute
  split_ifs with h1 h2
  · exact ⟨_, rfl, by decide, fun henergy _ => absurd h1 (not_le.mpr henergy)⟩
  · refine ⟨_, rfl, by decide, fun _ hconn => ?_⟩
    rcases h2 with h | ⟨h, h'⟩ <;> omega
  · refine ⟨.ERROR_OBSTACLE, ?_, by decide, fun _ _ => rfl⟩
    unfold resolveObstacles
    rcases haction with h | h
    · rw [h]
      simp only
      rw [if_pos (Or.inl hobst)]
    · rw [h]
      simp only
      rw [if_pos hobst]

/-- The rotation by 0 degrees leaves a vector as it is. -/
theorem rotation_zero (env : ConstructorEnvironment) (v : QVector2D) : rotation env 0 v = v :=
  if_pos rfl

/-- The rotation by 90 degrees. -/
theorem rotation_quarter (env : ConstructorEnvironment) (v : QVector2D) :
    rotation env 90 v = ⟨-v.y, v.x⟩ := by
  unfold rotation
  rw [if_neg (by norm_num), if_pos rfl]

/-- The rotation by -90 degrees. -/
theorem rotation_neg_quarter (env : ConstructorEnvironment) (v : QVector2D) :
    rotation env (-90) v = ⟨v.y, -v.x⟩ := by
  unfold rotation
  rw [if_neg (by norm_num), if_neg (by norm_num), if_pos rfl]

/-- The memory with another byte at `IN_DIST` reads the same at every other offset. -/
theorem getElem?_withDistance (data : List Nat) (dist off b : Nat) (hne : dist ≠ off) :
    (data.set dist b)[off]? = data[off]? :=
  List.getElem?_set_ne hne

/-- With another byte at `IN_DIST` the same command is read, but for the distance byte and
the memory. -/
theorem readCommand_withDistance (env : ConstructorEnvironment) (site : ConstructionSite)
    (data : List Nat) (input : ConstrIn) (cmd : Command) (distByte : Nat)
    (hlayout : env.layout.DistIsSeparate)
    (hcmd : readCommand env site data input = some cmd) :
    readCommand env (site.withDistance env.layout distByte)
        (data.set env.layout.IN_DIST distByte) input
      = some { cmd with data := data.set env.layout.IN_DIST distByte, distByte := distByte } := by
  obtain ⟨h1, h2, h3, h4, h5, h6⟩ := hlayout
  have hlt : env.layout.IN_DIST < data.length := by
    obtain ⟨-, -, -, -, -, hd, -⟩ := readCommand_eq env site data input cmd hcmd
    rcases List.getElem?_eq_some.mp hd with ⟨h, -⟩
    exact h
  unfold readCommand at hcmd ⊢
  simp only [ConstructionSite.withDistance]
  rw [getElem?_withDistance _ _ _ _ h2, getElem?_withDistance _ _ _ _ h3,
    getElem?_withDistance _ _ _ _ h4, getElem?_withDistance _ _ _ _ h5,
    getElem?_withDistance _ _ _ _ h6, List.getElem?_set_self hlt]
  split at hcmd
  · rename_i e1 e2 e3 e4 e5 e6 e7 e8 e9
    simp only [Option.some.injEq] at hcmd
    subst hcmd
    simp only [e1, e2, e3, e5, e6, e7, e8, e9]
  · simp at hcmd

/-- On a first construction the byte at `IN_DIST` has no influence on whether a cell is
constructed and where. -/
theorem execute_withDistance (env : ConstructorEnvironment) (site : ConstructionSite)
    (cmd : Command) (cell : CellDescription) (data' : List Nat) (distByte : Nat)
    (hfirst : site.firstConstruction = true)
    (hcell : (execute env site cmd).constructedCell = some cell) :
    ∃ cell', (execute env (site.withDistance env.layout distByte)
        { cmd with data := data', distByte := distByte }).constructedCell = some cell' ∧
      cell'.pos = cell.pos := by
  have hpos : ∀ d1 d2, offspringPosition env (site.withDistance env.layout distByte)
      cmd.constructorPos cmd.option cmd.angleByte d1
      = offspringPosition env site cmd.constructorPos cmd.option cmd.angleByte d2 := by
    intro d1 d2
    simp [offspringPosition, placementDistance, ConstructionSite.withDistance, hfirst]
  have hforeign : foreignObstacles env (site.withDistance env.layout distByte)
      { cmd with data := data', distByte := distByte } = foreignObstacles env site cmd := by
    simp only [foreignObstacles]
    rw [hpos distByte cmd.distByte]
    rfl
  have hown : ownObstacles env (site.withDistance env.layout distByte)
      { cmd with data := data', distByte := distByte } = ownObstacles env site cmd := by
    simp only [ownObstacles]
    rw [hpos distByte cmd.distByte]
    rfl
  have hoff : ∀ destroyed destroyed',
      ((construct env (site.withDistance env.layout distByte)
        { cmd with data := data', distByte := distByte } destroyed').constructedCell.map
          (fun c => c.pos))
        = (construct env site cmd destroyed).constructedCell.map (fun c => c.pos) := by
    intro destroyed destroyed'
    simp only [construct, offspring, Option.map_some']
    rw [hpos distByte cmd.distByte]
  have key : ((execute env (site.withDistance env.layout distByte)
      { cmd with data := data', distByte := distByte }).constructedCell.map (fun c => c.pos))
      = (execute env site cmd).constructedCell.map (fun c => c.pos) := by
    unfold execute
    simp only
    split_ifs with c1 c2
    · rfl
    · rfl
    · unfold resolveObstacles
      rw [hforeign, hown]
      simp only
      split
      · split_ifs
        · rfl
        · exact hoff _ _
      · split_ifs
        · rfl
        · exact hoff _ _
      · exact hoff _ _
  rw [hcell] at key
  cases hc : (execute env (site.withDistance env.layout distByte)
      { cmd with data := data', distByte := distByte }).constructedCell with
  | none => rw [hc] at key; simp at key
  | some cell' =>
    rw [hc] at key
    simp only [Option.map_some', Option.some.injEq] at key
    exact ⟨cell', rfl, key⟩

end ConstructorFunction

/-! ## Evaluation of the constructor model on the line-constructor scenario -/

namespace ConstructorFunction

theorem lineCluster_readCommand (input : ConstrIn) (option : ConstrInOption)
    (angleByte distByte maxConnectionsByte : Nat) (energy : ℚ)
    (foreignCells : List CellDescription) :
    readCommand exampleEnvironment
      (lineClusterSite input option angleByte distByte maxConnectionsByte energy foreignCells)
      (lineClusterTokenData input option angleByte distByte maxConnectionsByte) input
      = some (lineClusterCommand input option angleByte distByte maxConnectionsByte energy) := by
  cases option <;> rfl

theorem lineCluster_input (input : ConstrIn) (option : ConstrInOption)
    (angleByte distByte maxConnectionsByte : Nat) :
    ((lineClusterTokenData input option angleByte distByte maxConnectionsByte)[
        exampleEnvironment.layout.IN]?).bind ConstrIn.ofByte = some input := by
  cases input <;> rfl

/-- In the line-constructor scenario the handler executes the command of the token. -/
theorem lineCluster_processing (input : ConstrIn) (option : ConstrInOption)
    (angleByte distByte maxConnectionsByte : Nat) (energy : ℚ)
    (foreignCells : List CellDescription) (hne : input ≠ .DO_NOTHING) :
    processing exampleEnvironment
      (lineClusterSite input option angleByte distByte maxConnectionsByte energy foreignCells)
      = some (execute exampleEnvironment
          (lineClusterSite input option angleByte distByte maxConnectionsByte energy
            foreignCells)
          (lineClusterCommand input option angleByte distByte maxConnectionsByte energy)) :=
  processing_of_command exampleEnvironment _ _ input _ rfl
    (lineCluster_input input option angleByte distByte maxConnectionsByte) hne
    (lineCluster_readCommand input option angleByte distByte maxConnectionsByte energy
      foreignCells)

/-- The offspring position of the line-constructor scenario for angle byte 0: to the right
of the constructor, at distance 1, or 2 for a separating option. -/
theorem lineCluster_offspringPosition (input : ConstrIn) (option : ConstrInOption)
    (distByte maxConnectionsByte : Nat) (energy : ℚ) (foreignCells : List CellDescription) :
    offspringPosition exampleEnvironment
      (lineClusterSite input option 0 distByte maxConnectionsByte energy foreignCells)
      ⟨23 / 2, 21 / 2⟩ option 0 distByte
      = ⟨23 / 2 + (if option.separates then 2 else 1), 21 / 2⟩ := by
  cases hs : option.separates <;>
    simp [offspringPosition, rotation, placementDistance, exampleEnvironment, exampleFixture,
      lineClusterSite, QVector2D.add, QVector2D.scale, QVector2D.sub, QByteArray.toInt, hs] <;>
    norm_num

/-- With token energy 300 and no foreign cells the line-constructor scenario succeeds. -/
theorem exampleSite_processing (option : ConstrInOption) :
    processing exampleEnvironment (exampleSite option) = some (exampleResult option) := by
  unfold exampleSite exampleResult exampleCommand
  rw [lineCluster_processing _ _ _ _ _ _ _ (by simp)]
  congr 1
  have hpos := lineCluster_offspringPosition .SAFE option 0 3 300 []
  have hen : ¬ ((300 : ℚ) ≤ energyThreshold exampleEnvironment.parameters option) := by
    cases option <;>
      norm_num [energyThreshold, exampleEnvironment, exampleFixture,
        ConstrInOption.spawnsToken]
  have hown : ownObstacles exampleEnvironment (lineClusterSite .SAFE option 0 0 3 300 [])
      (lineClusterCommand .SAFE option 0 0 3 300) = [] := by
    unfold ownObstacles
    simp only [lineClusterCommand]
    rw [hpos]
    cases hs : option.separates <;>
      simp [cellsNear, lineClusterSite, exampleEnvironment, exampleFixture] <;>
      norm_num [abs_of_nonneg, abs_of_neg]
  have hforeign : foreignObstacles exampleEnvironment
      (lineClusterSite .SAFE option 0 0 3 300 [])
      (lineClusterCommand .SAFE option 0 0 3 300) = [] := by
    simp [foreignObstacles, cellsNear, lineClusterSite]
  unfold execute
  rw [if_neg (by simpa [lineClusterCommand] using hen), if_neg (by
    simp [lineClusterCommand, exampleEnvironment, exampleFixture])]
  unfold resolveObstacles
  simp only [lineClusterCommand] at hown hforeign ⊢
  rw [if_neg (by simp [hown, hforeign])]
  rfl

/-- The offspring positions of the line-constructor scenario for the angle bytes 0, 64 and
192 (0, 90 and -90 degrees), whatever byte `IN_DIST` holds: at distance 1 to the right of,
below and above the constructor at `(23/2, 21/2)` (the `y` axis points downwards). -/
theorem angleSite_offspringPosition (distByte : Nat) :
    offspringPosition exampleEnvironment (angleSite 0 distByte) ⟨23 / 2, 21 / 2⟩ .STANDARD 0
        distByte = ⟨25 / 2, 21 / 2⟩ ∧
      offspringPosition exampleEnvironment (angleSite 64 distByte) ⟨23 / 2, 21 / 2⟩ .STANDARD 64
        distByte = ⟨23 / 2, 23 / 2⟩ ∧
      offspringPosition exampleEnvironment (angleSite 192 distByte) ⟨23 / 2, 21 / 2⟩ .STANDARD
        192 distByte = ⟨23 / 2, 19 / 2⟩ := by
  refine ⟨?_, ?_, ?_⟩ <;>
    simp [offspringPosition, rotation, placementDistance, exampleEnvironment, exampleFixture,
      angleSite, lineClusterSite, QVector2D.add, QVector2D.scale, QVector2D.sub,
      QByteArray.toInt, ConstrInOption.separates] <;>
    norm_num

/-- With token energy 300 and no foreign cells the line-constructor scenario succeeds for
the angles 0, 90 and -90, whatever byte `IN_DIST` holds. -/
theorem angleSite_processing (angleByte distByte : Nat)
    (hangle : angleByte = 0 ∨ angleByte = 64 ∨ angleByte = 192) :
    processing exampleEnvironment (angleSite angleByte distByte)
      = some (angleResult angleByte distByte) := by
  unfold angleSite angleResult angleCommand angleSite
  rw [lineCluster_processing _ _ _ _ _ _ _ (by simp)]
  congr 1
  obtain ⟨p0, p1, p2⟩ := angleSite_offspringPosition distByte
  unfold angleSite at p0 p1 p2
  have hown : ownObstacles exampleEnvironment
      (lineClusterSite .SAFE .STANDARD angleByte distByte 3 300 [])
      (lineClusterCommand .SAFE .STANDARD angleByte distByte 3 300) = [] := by
    unfold ownObstacles
    simp only [lineClusterCommand]
    rcases hangle with h | h | h <;> subst h
    · rw [p0]
      simp [cellsNear, lineClusterSite, exampleEnvironment, exampleFixture]
      norm_num [abs_of_nonneg, abs_of_neg]
    · rw [p1]
      simp [cellsNear, lineClusterSite, exampleEnvironment, exampleFixture]
      norm_num [abs_of_nonneg, abs_of_neg]
    · rw [p2]
      simp [cellsNear, lineClusterSite, exampleEnvironment, exampleFixture]
      norm_num [abs_of_nonneg, abs_of_neg]
  have hforeign : foreignObstacles exampleEnvironment
      (lineClusterSite .SAFE .STANDARD angleByte distByte 3 300 [])
      (lineClusterCommand .SAFE .STANDARD angleByte distByte 3 300) = [] := by
    simp [foreignObstacles, cellsNear, lineClusterSite]
  unfold execute
  rw [if_neg (by
    norm_num [lineClusterCommand, energyThreshold, exampleEnvironment, exampleFixture,
      ConstrInOption.spawnsToken]), if_neg (by
    simp [lineClusterCommand, exampleEnvironment, exampleFixture])]
  unfold resolveObstacles
  simp only [lineClusterCommand] at hown hforeign ⊢
  rw [if_neg (by simp [hown, hforeign])]

/-- The foreign cell `obstacleCell` lies within `cellMinDistance` of the offspring position
of the scenario: its distance is `cellMinDistance / 2`. -/
theorem obstacleCell_near (energy : ℚ) :
    exampleEnvironment.distance ⟨253 / 20, 21 / 2⟩
      (offspringPosition exampleEnvironment
        (lineClusterSite .SAFE .STANDARD 0 0 0 energy [obstacleCell]) ⟨23 / 2, 21 / 2⟩
        .STANDARD 0 0)
      = exampleEnvironment.parameters.cellMinDistance / 2 := by
  rw [lineCluster_offspringPosition]
  norm_num [exampleEnvironment, exampleFixture, ConstrInOption.separates, abs_of_nonneg]

end ConstructorFunction

/-! ## Instances and counterexamples for the constructor cell function -/

namespace ConstructorFunction

theorem exampleSite_fresh (option : ConstrInOption) :
    ∀ connections, (exampleSite option).constructorCell.connectingCells = some connections →
      (exampleSite option).offspringId ∉ connections := by
  intro connections hc
  simp only [exampleSite, lineClusterSite, Option.some.injEq] at hc
  subst hc
  simp [exampleSite, lineClusterSite]

/-- Instance of C12: a `SAFE` construction with `FINISH_WITH_SEP` in the line-constructor
scenario. -/
theorem construction_connection_symmetric_witness :
    (processing exampleEnvironment (exampleSite .FINISH_WITH_SEP)
          = some (exampleResult .FINISH_WITH_SEP) ∧
        (exampleResult .FINISH_WITH_SEP).constructedCell
          = some (exampleOffspring .FINISH_WITH_SEP) ∧
        exampleEnvironment.layout.OutIsSeparate ∧
        (∀ connections,
          (exampleSite .FINISH_WITH_SEP).constructorCell.connectingCells = some connections →
          (exampleSite .FINISH_WITH_SEP).offspringId ∉ connections)) ∧
      ConstructorGpuTests.expectConstructedCellConnected exampleEnvironment.layout
        (ConstructorGpuTests.testResultOf (exampleResult .FINISH_WITH_SEP) ⟨0, 0⟩ 1)
        = some true ∧
      ConstructorGpuTests.expectConstructorConnected exampleEnvironment.layout
        (ConstructorGpuTests.testResultOf (exampleResult .FINISH_WITH_SEP) ⟨0, 0⟩ 1)
        = some true := by
  obtain ⟨_, _, _, _, _, _, _, _, _, _, _, _, c1, c2⟩ :=
    construction_connection_symmetric exampleEnvironment (exampleSite .FINISH_WITH_SEP)
      (exampleResult .FINISH_WITH_SEP) (exampleOffspring .FINISH_WITH_SEP) ⟨0, 0⟩ 1
      (exampleSite_processing .FINISH_WITH_SEP) rfl (by decide)
      (exampleSite_fresh .FINISH_WITH_SEP)
  exact ⟨⟨exampleSite_processing .FINISH_WITH_SEP, rfl, by decide,
    exampleSite_fresh .FINISH_WITH_SEP⟩, c1, c2⟩

/-- Instance of C13: a `SAFE` construction with `STANDARD` in the line-constructor
scenario. -/
theorem construction_tokenBlocked_witness :
    (processing exampleEnvironment (exampleSite .STANDARD) = some (exampleResult .STANDARD) ∧
        (exampleResult .STANDARD).constructedCell = some (exampleOffspring .STANDARD) ∧
        exampleEnvironment.layout.OutIsSeparate) ∧
      ConstructorGpuTests.expectTokenBlocked exampleEnvironment.layout
        (ConstructorGpuTests.testResultOf (exampleResult .STANDARD) ⟨0, 0⟩ 1) = some true := by
  obtain ⟨_, _, _, _, _, _, _, _, c⟩ :=
    construction_tokenBlocked exampleEnvironment (exampleSite .STANDARD)
      (exampleResult .STANDARD) (exampleOffspring .STANDARD) ⟨0, 0⟩ 1
      (exampleSite_processing .STANDARD) rfl (by decide)
  exact ⟨⟨exampleSite_processing .STANDARD, rfl, by decide⟩, c⟩

/-- Instance of C14 (amended): a `SAFE` construction with `STANDARD` and
`IN_CELL_MAX_CONNECTIONS = 3`. -/
theorem construction_maxConnections_witness :
    (processing exampleEnvironment (exampleSite .STANDARD) = some (exampleResult .STANDARD) ∧
        (exampleResult .STANDARD).constructedCell = some (exampleOffspring .STANDARD)) ∧
      ∃ maxConnections offspringConnections,
        (exampleOffspring .STANDARD).maxConnections = some maxConnections ∧
        (exampleOffspring .STANDARD).connectingCells = some offspringConnections ∧
        (offspringConnections.length : Int) ≤ maxConnections := by
  obtain ⟨_, _, _, _, maxConnections, offspringConnections, _, _, _, _, c1, c2, _, _, c3, _⟩ :=
    construction_maxConnections exampleEnvironment (exampleSite .STANDARD)
      (exampleResult .STANDARD) (exampleOffspring .STANDARD) ⟨0, 0⟩ 1
      (exampleSite_processing .STANDARD) rfl
  exact ⟨⟨exampleSite_processing .STANDARD, rfl⟩, maxConnections, offspringConnections, c1, c2,
    c3⟩

/-- C14 as stated fails for `FINISH_WITH_SEP_RED`: with `IN_CELL_MAX_CONNECTIONS = 3` the
successful construction of the line-constructor scenario gives the offspring
max-connections 2. -/
theorem construction_maxConnections_counterexample :
    processing exampleEnvironment (exampleSite .FINISH_WITH_SEP_RED)
        = some (exampleResult .FINISH_WITH_SEP_RED) ∧
      (exampleResult .FINISH_WITH_SEP_RED).constructedCell
        = some (exampleOffspring .FINISH_WITH_SEP_RED) ∧
      (exampleSite .FINISH_WITH_SEP_RED).token.data
        = some (lineClusterTokenData .SAFE .FINISH_WITH_SEP_RED 0 0 3) ∧
      (lineClusterTokenData .SAFE .FINISH_WITH_SEP_RED 0 0 3)[
        exampleEnvironment.layout.IN_CELL_MAX_CONNECTIONS]? = some 3 ∧
      (exampleOffspring .FINISH_WITH_SEP_RED).maxConnections = some 2 ∧
      (exampleOffspring .FINISH_WITH_SEP_RED).maxConnections ≠ some 3 :=
  ⟨exampleSite_processing .FINISH_WITH_SEP_RED, rfl, rfl, rfl, rfl, by decide⟩

/-- Instance of C15 (amended): a `SAFE` construction with `FINISH_WITH_SEP_RED` and
`IN_CELL_MAX_CONNECTIONS = 3`. -/
theorem construction_reduced_maxConnections_witness :
    (processing exampleEnvironment (exampleSite .FINISH_WITH_SEP_RED)
          = some (exampleResult .FINISH_WITH_SEP_RED) ∧
        (exampleResult .FINISH_WITH_SEP_RED).constructedCell
          = some (exampleOffspring .FINISH_WITH_SEP_RED) ∧
        exampleEnvironment.layout.OutIsSeparate ∧
        (exampleSite .FINISH_WITH_SEP_RED).token.data
          = some (lineClusterTokenData .SAFE .FINISH_WITH_SEP_RED 0 0 3) ∧
        (lineClusterTokenData .SAFE .FINISH_WITH_SEP_RED 0 0 3)[
          exampleEnvironment.layout.IN_OPTION]? = some 5 ∧
        (ConstrInOption.ofByte 5 = some .FINISH_WITH_SEP_RED
          ∨ ConstrInOption.ofByte 5 = some .FINISH_WITH_TOKEN_SEP_RED) ∧
        (lineClusterTokenData .SAFE .FINISH_WITH_SEP_RED 0 0 3)[
          exampleEnvironment.layout.IN_CELL_MAX_CONNECTIONS]? = some 3 ∧
        (3 : Nat) ≠ 0 ∧ (3 : Nat) < 128) ∧
      ((exampleOffspring .FINISH_WITH_SEP_RED).maxConnections = some (((3 : Nat) : Int) - 1) ∧
        offspringMaxConnections .FINISH_WITH_SEP 3 0 = ((3 : Nat) : Int) ∧
        ConstructorGpuTests.expectMaxConnections exampleEnvironment.layout
          (ConstructorGpuTests.testResultOf (exampleResult .FINISH_WITH_SEP_RED) ⟨0, 0⟩ 1)
          = some false) :=
  ⟨⟨exampleSite_processing .FINISH_WITH_SEP_RED, rfl, by decide, rfl, rfl, Or.inl rfl, rfl,
      by decide, by decide⟩,
    construction_reduced_maxConnections exampleEnvironment (exampleSite .FINISH_WITH_SEP_RED)
      (exampleResult .FINISH_WITH_SEP_RED) (exampleOffspring .FINISH_WITH_SEP_RED) ⟨0, 0⟩ 1
      (lineClusterTokenData .SAFE .FINISH_WITH_SEP_RED 0 0 3) 5 3
      (exampleSite_processing .FINISH_WITH_SEP_RED) rfl (by decide) rfl rfl (Or.inl rfl) rfl
      (by decide) (by decide)⟩

/-- C15 as stated fails in its last part: for the successful `FINISH_WITH_SEP_RED`
construction with `IN_CELL_MAX_CONNECTIONS = 3` the offspring's max-connections is
`3 - 1 = 2`, and the max-connections expectation of `checkResult`, which compares with 3,
is not met. -/
theorem construction_reduced_expectation_counterexample :
    processing exampleEnvironment (exampleSite .FINISH_WITH_SEP_RED)
        = some (exampleResult .FINISH_WITH_SEP_RED) ∧
      (exampleResult .FINISH_WITH_SEP_RED).constructedCell
        = some (exampleOffspring .FINISH_WITH_SEP_RED) ∧
      (exampleOffspring .FINISH_WITH_SEP_RED).maxConnections = some (3 - 1) ∧
      QByteArray.charAt (lineClusterTokenData .SAFE .FINISH_WITH_SEP_RED 0 0 3)
        exampleEnvironment.layout.IN_CELL_MAX_CONNECTIONS = some 3 ∧
      ConstructorGpuTests.expectMaxConnections exampleEnvironment.layout
        (ConstructorGpuTests.testResultOf (exampleResult .FINISH_WITH_SEP_RED) ⟨0, 0⟩ 1)
        = some false := by
  refine ⟨exampleSite_processing .FINISH_WITH_SEP_RED, rfl, rfl, by decide, ?_⟩
  exact expectMaxConnections_construct exampleEnvironment (exampleSite .FINISH_WITH_SEP_RED)
    (exampleCommand .FINISH_WITH_SEP_RED) [] ⟨0, 0⟩ 1 (by decide) rfl (by decide)

/-- Instance of C16: the line-constructor scenario with the token energy of the no-energy
test, `tokenMinEnergy + offspringCellEnergy / 2 = 53`, below the threshold 106. -/
theorem processing_errorNoEnergy_witness :
    ((lowEnergySite []).token.data = some (lineClusterTokenData .SAFE .STANDARD 0 0 0) ∧
        ((lineClusterTokenData .SAFE .STANDARD 0 0 0)[exampleEnvironment.layout.IN]?).bind
          ConstrIn.ofByte = some .SAFE ∧
        readCommand exampleEnvironment (lowEnergySite [])
          (lineClusterTokenData .SAFE .STANDARD 0 0 0) .SAFE
          = some (lineClusterCommand .SAFE .STANDARD 0 0 0 53) ∧
        (lineClusterCommand .SAFE .STANDARD 0 0 0 53).energy
          ≤ energyThreshold exampleEnvironment.parameters
              (lineClusterCommand .SAFE .STANDARD 0 0 0 53).option ∧
        exampleEnvironment.layout.OUT
          < (lineClusterTokenData .SAFE .STANDARD 0 0 0).length) ∧
      ∃ result, processing exampleEnvironment (lowEnergySite []) = some result ∧
        tokenOutput exampleEnvironment result = some ConstrOut.ERROR_NO_ENERGY.code ∧
        result.constructedCell = none ∧
        result.constructorCell = (lowEnergySite []).constructorCell := by
  have hlow : (lineClusterCommand .SAFE .STANDARD 0 0 0 53).energy
      ≤ energyThreshold exampleEnvironment.parameters
          (lineClusterCommand .SAFE .STANDARD 0 0 0 53).option := by
    norm_num [lineClusterCommand, energyThreshold, exampleEnvironment, exampleFixture,
      ConstrInOption.spawnsToken]
  obtain ⟨result, c1, _, c2, c3, c4, _⟩ :=
    processing_errorNoEnergy exampleEnvironment (lowEnergySite [])
      (lineClusterTokenData .SAFE .STANDARD 0 0 0) .SAFE
      (lineClusterCommand .SAFE .STANDARD 0 0 0 53) ⟨0, 0⟩ 0 rfl
      (lineCluster_input .SAFE .STANDARD 0 0 0) (Or.inl rfl)
      (lineCluster_readCommand .SAFE .STANDARD 0 0 0 53 []) hlow (by decide)
  exact ⟨⟨rfl, lineCluster_input .SAFE .STANDARD 0 0 0,
    lineCluster_readCommand .SAFE .STANDARD 0 0 0 53 [], hlow, by decide⟩,
    result, c1, c2, c3, c4⟩

theorem obstacleSite_near :
    exampleEnvironment.distance ⟨253 / 20, 21 / 2⟩
      (offspringPosition exampleEnvironment obstacleSite
        (lineClusterCommand .SAFE .STANDARD 0 0 0 206).constructorPos
        (lineClusterCommand .SAFE .STANDARD 0 0 0 206).option
        (lineClusterCommand .SAFE .STANDARD 0 0 0 206).angleByte
        (lineClusterCommand .SAFE .STANDARD 0 0 0 206).distByte)
      < exampleEnvironment.parameters.cellMinDistance := by
  have h := obstacleCell_near 206
  simp only [obstacleSite, lineClusterCommand] at h ⊢
  rw [h]
  norm_num [exampleEnvironment, exampleFixture]

theorem obstacleSite_energy :
    energyThreshold exampleEnvironment.parameters
        (lineClusterCommand .SAFE .STANDARD 0 0 0 206).option
      < (lineClusterCommand .SAFE .STANDARD 0 0 0 206).energy := by
  norm_num [lineClusterCommand, energyThreshold, exampleEnvironment, exampleFixture,
    ConstrInOption.spawnsToken]

end ConstructorFunction

/-! ## UnitThreadControllerImpl: neighbour exclusion -/

namespace UnitThreadControllerImpl

theorem isReady_iff (c : UnitThreadControllerImpl) (u : IntVector2D) :
    c.isReady u = true ↔
      c.state u = .Ready ∧ ∀ v ∈ c.dependencies u, c.state v ≠ .Running := by
  simp [isReady]

theorem dispatch_fields (c : UnitThreadControllerImpl) (u : IntVector2D) :
    (c.dispatch u).units = c.units ∧ (c.dispatch u).dependencies = c.dependencies ∧
      (c.dispatch u).maxRunningThreads = c.maxRunningThreads := by
  unfold dispatch
  split <;> simp

theorem numRunning_update_le (c : UnitThreadControllerImpl) (u : IntVector2D) :
    numRunning { c with state := Function.update c.state u .Running } ≤ c.numRunning + 1 := by
  unfold numRunning
  have hsub : (c.units.toFinset.filter
      (fun w => Function.update c.state u UnitState.Running w = .Running))
      ⊆ insert u (c.units.toFinset.filter (fun w => c.state w = .Running)) := by
    intro w hw
    simp only [Finset.mem_filter, Finset.mem_insert] at hw ⊢
    by_cases hwu : w = u
    · exact Or.inl hwu
    · rw [Function.update_noteq hwu] at hw
      exact Or.inr hw
  exact (Finset.card_le_card hsub).trans (Finset.card_insert_le _ _)

theorem dispatch_exclusive (c : UnitThreadControllerImpl) (u : IntVector2D)
    (hu : u ∈ c.units) (hsym : c.SymmetricDependencies) (h : c.Exclusive) :
    (c.dispatch u).Exclusive := by
  unfold dispatch
  split
  · rename_i hcond
    obtain ⟨hready, hcount⟩ := hcond
    rw [isReady_iff] at hready
    obtain ⟨hmem, hexcl, -⟩ := h
    refine ⟨?_, ?_, ?_⟩
    · intro w hw
      by_cases hwu : w = u
      · rw [hwu]; exact hu
      · simp only [Function.update_noteq hwu] at hw
        exact hmem w hw
    · intro a b hab hdep hboth
      simp only at hdep hboth
      by_cases hau : a = u
      · subst hau
        have hb : c.state b = .Running := by
          have := hboth.2
          rwa [Function.update_noteq (Ne.symm hab)] at this
        exact hready.2 b hdep hb
      · have ha : c.state a = .Running := by
          have := hboth.1
          rwa [Function.update_noteq hau] at this
        by_cases hbu : b = u
        · subst hbu
          exact hready.2 a (hsym a (hmem a ha) b hu hdep) ha
        · have hb : c.state b = .Running := by
            have := hboth.2
            rwa [Function.update_noteq hbu] at this
          exact hexcl a b hab hdep ⟨ha, hb⟩
    · have := numRunning_update_le c u
      show ((numRunning { c with state := Function.update c.state u .Running } : Nat) : Int)
        ≤ c.maxRunningThreads
      omega
  · exact h

theorem foldl_dispatch_fields (us : List IntVector2D) (c : UnitThreadControllerImpl) :
    (us.foldl dispatch c).units = c.units ∧
      (us.foldl dispatch c).dependencies = c.dependencies ∧
      (us.foldl dispatch c).maxRunningThreads = c.maxRunningThreads := by
  induction us generalizing c with
  | nil => simp
  | cons a rest ih =>
    obtain ⟨h1, h2, h3⟩ := ih (c.dispatch a)
    obtain ⟨d1, d2, d3⟩ := dispatch_fields c a
    simp only [List.foldl_cons]
    exact ⟨h1.trans d1, h2.trans d2, h3.trans d3⟩

theorem foldl_dispatch_exclusive (us : List IntVector2D) (c : UnitThreadControllerImpl)
    (hus : ∀ u ∈ us, u ∈ c.units) (hsym : c.SymmetricDependencies) (h : c.Exclusive) :
    (us.foldl dispatch c).Exclusive := by
  induction us generalizing c with
  | nil => simpa using h
  | cons a rest ih =>
    simp only [List.foldl_cons]
    obtain ⟨d1, d2, -⟩ := dispatch_fields c a
    apply ih
    · intro u hu
      rw [d1]
      exact hus u (List.mem_cons_of_mem _ hu)
    · unfold SymmetricDependencies
      rw [d1, d2]
      exact hsym
    · exact dispatch_exclusive c a (hus a (List.mem_cons_self _ _)) hsym h

/-- A unit that is `Running` after a scan was `Running` before or was ready at its turn, when
fewer than `maxRunningThreads` units were running. -/
theorem foldl_dispatch_running (us : List IntVector2D) (c : UnitThreadControllerImpl)
    (w : IntVector2D) (h : (us.foldl dispatch c).state w = .Running) :
    c.state w = .Running ∨ ∃ before after, us = before ++ w :: after ∧
      (before.foldl dispatch c).isReady w = true ∧
      ((before.foldl dispatch c).numRunning : Int) < c.maxRunningThreads := by
  induction us generalizing c with
  | nil => exact Or.inl (by simpa using h)
  | cons a rest ih =>
    simp only [List.foldl_cons] at h
    rcases ih (c.dispatch a) h with h1 | ⟨before, after, hsplit, hready, hcount⟩
    · by_cases hc : c.state w = .Running
      · exact Or.inl hc
      · right
        refine ⟨[], rest, ?_, ?_, ?_⟩
        · unfold dispatch at h1
          split at h1
          · by_cases hwa : w = a
            · rw [hwa]; rfl
            · simp only [Function.update_noteq hwa] at h1
              exact absurd h1 hc
          · exact absurd h1 hc
        · unfold dispatch at h1
          split at h1
          · rename_i hcond
            by_cases hwa : w = a
            · rw [hwa]; exact hcond.1
            · simp only [Function.update_noteq hwa] at h1
              exact absurd h1 hc
          · exact absurd h1 hc
        · unfold dispatch at h1
          split at h1
          · rename_i hcond
            exact hcond.2
          · exact absurd h1 hc
    · right
      refine ⟨a :: before, after, by rw [hsplit]; rfl, by simpa using hready, ?_⟩
      rw [(dispatch_fields c a).2.2] at hcount
      simpa using hcount

theorem setState_exclusive (c : UnitThreadControllerImpl) (state : IntVector2D → UnitState)
    (hstate : ∀ u, state u = .Running → c.state u = .Running) (h : c.Exclusive) :
    Exclusive { c with state := state } := by
  obtain ⟨hmem, hexcl, hcount⟩ := h
  refine ⟨fun u hu => hmem u (hstate u hu), ?_, ?_⟩
  · intro a b hab hdep hboth
    exact hexcl a b hab hdep ⟨hstate a hboth.1, hstate b hboth.2⟩
  · have hle : numRunning { c with state := state } ≤ c.numRunning := by
      unfold numRunning
      apply Finset.card_le_card
      intro w hw
      simp only [Finset.mem_filter] at hw ⊢
      exact ⟨hw.1, hstate w hw.2⟩
    show ((numRunning { c with state := state } : Nat) : Int) ≤ c.maxRunningThreads
    omega

theorem call_fields (c : UnitThreadControllerImpl) (k : Call) :
    (c.call k).units = c.units ∧ (c.call k).dependencies = c.dependencies ∧
      (c.call k).maxRunningThreads = c.maxRunningThreads := by
  cases k with
  | calculateTimestep =>
    simp only [call, calculateTimestep]
    split
    · exact foldl_dispatch_fields c.units c
    · exact ⟨rfl, rfl, rfl⟩
  | threadFinishedCalculation sender =>
    simp only [call, threadFinishedCalculation]
    split
    · exact ⟨rfl, rfl, rfl⟩
    · exact foldl_dispatch_fields _ _

theorem call_exclusive (c : UnitThreadControllerImpl) (k : Call)
    (hmax : 0 ≤ c.maxRunningThreads) (hsym : c.SymmetricDependencies) (h : c.Exclusive) :
    (c.call k).Exclusive := by
  cases k with
  | calculateTimestep =>
    simp only [call, calculateTimestep]
    split
    · exact foldl_dispatch_exclusive c.units c (fun u hu => hu) hsym h
    · exact h
  | threadFinishedCalculation sender =>
    have hfin : (c.setFinished sender).Exclusive := by
      apply setState_exclusive c _ _ h
      intro u hu
      by_cases hus : u = sender
      · rw [hus] at hu
        simp at hu
      · rwa [Function.update_noteq hus] at hu
    simp only [call, threadFinishedCalculation]
    split
    · refine ⟨by simp [setAllUnitsReady], by simp [setAllUnitsReady], ?_⟩
      simp [setAllUnitsReady, numRunning]
      exact hmax
    · exact foldl_dispatch_exclusive _ _ (fun u hu => hu) hsym hfin

theorem run_exclusive (calls : List Call) (c : UnitThreadControllerImpl)
    (hmax : 0 ≤ c.maxRunningThreads) (hsym : c.SymmetricDependencies) (h : c.Exclusive) :
    (c.run calls).Exclusive ∧ (c.run calls).units = c.units ∧
      (c.run calls).dependencies = c.dependencies ∧
      (c.run calls).maxRunningThreads = c.maxRunningThreads := by
  induction calls generalizing c with
  | nil => exact ⟨h, rfl, rfl, rfl⟩
  | cons k rest ih =>
    obtain ⟨f1, f2, f3⟩ := call_fields c k
    have hsym' : (c.call k).SymmetricDependencies := by
      unfold SymmetricDependencies
      rw [f1, f2]
      exact hsym
    obtain ⟨i1, i2, i3, i4⟩ := ih (c.call k) (by rw [f3]; exact hmax) hsym'
      (call_exclusive c k hmax hsym h)
    exact ⟨i1, i2.trans f1, i3.trans f2, i4.trans f3⟩

theorem allReady_exclusive (c : UnitThreadControllerImpl)
    (hinit : ∀ u, c.state u = .Ready) (hmax : 0 ≤ c.maxRunningThreads) : c.Exclusive := by
  refine ⟨?_, ?_, ?_⟩
  · intro u hu
    rw [hinit u] at hu
    cases hu
  · intro u v _ _ hboth
    rw [hinit u] at hboth
    cases hboth.1
  · simp [numRunning, hinit, hmax]

theorem mem_gridDependencies (gridSize u v : IntVector2D) :
    v ∈ gridDependencies gridSize u ↔
      ∃ dx dy : Int, -1 ≤ dx ∧ dx ≤ 1 ∧ -1 ≤ dy ∧ dy ≤ 1 ∧ (dx ≠ 0 ∨ dy ≠ 0) ∧
        v = ⟨Int.tmod (u.x + dx + gridSize.x) gridSize.x,
             Int.tmod (u.y + dy + gridSize.y) gridSize.y⟩ := by
  constructor
  · intro h
    simp only [gridDependencies, List.mem_map] at h
    obtain ⟨location, -, rfl⟩ := h
    refine ⟨(ModelBuilderFacadeImpl.deltaOf location).x,
      (ModelBuilderFacadeImpl.deltaOf location).y, ?_⟩
    cases location <;> simp [ModelBuilderFacadeImpl.deltaOf]
  · rintro ⟨dx, dy, h1, h2, h3, h4, hne, rfl⟩
    simp only [gridDependencies, List.mem_map]
    obtain rfl | rfl | rfl : dx = -1 ∨ dx = 0 ∨ dx = 1 := by omega
    · obtain rfl | rfl | rfl : dy = -1 ∨ dy = 0 ∨ dy = 1 := by omega
      · exact ⟨.UpperLeft, by simp [ModelBuilderFacadeImpl.registrationOrder], rfl⟩
      · exact ⟨.Left, by simp [ModelBuilderFacadeImpl.registrationOrder], rfl⟩
      · exact ⟨.LowerLeft, by simp [ModelBuilderFacadeImpl.registrationOrder], rfl⟩
    · obtain rfl | rfl | rfl : dy = -1 ∨ dy = 0 ∨ dy = 1 := by omega
      · exact ⟨.Upper, by simp [ModelBuilderFacadeImpl.registrationOrder], rfl⟩
      · simp at hne
      · exact ⟨.Lower, by simp [ModelBuilderFacadeImpl.registrationOrder], rfl⟩
    · obtain rfl | rfl | rfl : dy = -1 ∨ dy = 0 ∨ dy = 1 := by omega
      · exact ⟨.UpperRight, by simp [ModelBuilderFacadeImpl.registrationOrder], rfl⟩
      · exact ⟨.Right, by simp [ModelBuilderFacadeImpl.registrationOrder], rfl⟩
      · exact ⟨.LowerRight, by simp [ModelBuilderFacadeImpl.registrationOrder], rfl⟩

theorem wrap_back (x d g : Int) (hx0 : 0 ≤ x) (hx : x < g) (hd : -1 ≤ d) (hd1 : d ≤ 1) :
    Int.tmod (Int.tmod (x + d + g) g + -d + g) g = x := by
  have hg : 1 ≤ g := by omega
  rw [ModelBuilderFacadeImpl.wrap_eq x d g hx0 hd hg]
  have h0 : 0 ≤ (x + d) % g := Int.emod_nonneg _ (by omega)
  rw [ModelBuilderFacadeImpl.wrap_eq _ (-d) g h0 (by omega) hg, Int.emod_add_emod]
  rw [show x + d + -d = x by ring]
  exact Int.emod_eq_of_lt hx0 hx

/-- On a unit grid the dependencies are symmetric: the neighbour at the opposite relative
location of a neighbour is the unit itself. -/
theorem gridDependencies_symm (gridSize : IntVector2D) (maxRunningThreads : Int) :
    (ofGrid gridSize maxRunningThreads).SymmetricDependencies := by
  intro u hu v _ hv
  simp only [ofGrid] at hu hv ⊢
  rw [ModelBuilderFacadeImpl.mem_gridPositions] at hu
  rw [mem_gridDependencies] at hv ⊢
  obtain ⟨dx, dy, h1, h2, h3, h4, hne, rfl⟩ := hv
  refine ⟨-dx, -dy, by omega, by omega, by omega, by omega, by omega, ?_⟩
  simp only
  rw [wrap_back u.x dx gridSize.x hu.1 hu.2.1 h1 h2,
    wrap_back u.y dy gridSize.y hu.2.2.1 hu.2.2.2 h3 h4]

/-- C19: in every state that the controller reaches from the state in which all units are
`Ready` through calls of `calculateTimestep` and `threadFinishedCalculation`, with a
non-negative `maxRunningThreads` and a symmetric neighbour relation (as the one of a unit
grid is), two different units of which one is a neighbour of the other are never both
`Running`, at most `maxRunningThreads` units are `Running`, and a unit that a call sets
`Running` was dispatched in the scan of that call at a moment when it was `Ready`, none of
its eight neighbours was `Running` and fewer than `maxRunningThreads` units were
`Running`. -/
theorem neighbour_exclusion (c : UnitThreadControllerImpl) (calls : List Call)
    (hinit : ∀ u, c.state u = .Ready) (hmax : 0 ≤ c.maxRunningThreads)
    (hsym : c.SymmetricDependencies) :
    (∀ u v, u ≠ v → v ∈ c.dependencies u →
      ¬ ((c.run calls).state u = .Running ∧ (c.run calls).state v = .Running)) ∧
    ((c.run calls).numRunning : Int) ≤ c.maxRunningThreads ∧
    (∀ k w, ((c.run calls).call k).state w = .Running → (c.run calls).state w ≠ .Running →
      ∃ start before after,
        (start = c.run calls ∨ ∃ sender, start = (c.run calls).setFinished sender) ∧
        c.units = before ++ w :: after ∧
        (before.foldl dispatch start).state w = .Ready ∧
        (∀ v ∈ c.dependencies w, (before.foldl dispatch start).state v ≠ .Running) ∧
        ((before.foldl dispatch start).numRunning : Int) < c.maxRunningThreads) := by
  obtain ⟨⟨-, hexcl, hcount⟩, hunits, hdeps, hmaxeq⟩ :=
    run_exclusive calls c hmax hsym (allReady_exclusive c hinit hmax)
  refine ⟨?_, ?_, ?_⟩
  · intro u v huv hdep
    exact hexcl u v huv (by rw [hdeps]; exact hdep)
  · rw [← hmaxeq]
    exact hcount
  · intro k w hrun hnot
    cases k with
    | calculateTimestep =>
      simp only [call, calculateTimestep] at hrun
      split at hrun
      · rcases foldl_dispatch_running _ _ w hrun with h | ⟨before, after, hsplit, hready, hlt⟩
        · exact absurd h hnot
        · rw [isReady_iff] at hready
          rw [(foldl_dispatch_fields before (c.run calls)).2.1, hdeps] at hready
          exact ⟨c.run calls, before, after, Or.inl rfl, by rw [← hunits]; exact hsplit,
            hready.1, hready.2, by rw [← hmaxeq]; exact hlt⟩
      · exact absurd hrun hnot
    | threadFinishedCalculation sender =>
      simp only [call, threadFinishedCalculation] at hrun
      split at hrun
      · simp [setAllUnitsReady] at hrun
      · rcases foldl_dispatch_running _ _ w hrun with h | ⟨before, after, hsplit, hready, hlt⟩
        · exfalso
          simp only [setFinished] at h
          by_cases hws : w = sender
          · rw [hws] at h
            simp at h
          · rw [Function.update_noteq hws] at h
            exact hnot h
        · rw [isReady_iff] at hready
          rw [(foldl_dispatch_fields before _).2.1] at hready
          have hd : ((c.run calls).setFinished sender).dependencies = c.dependencies := hdeps
          have hu : ((c.run calls).setFinished sender).units = c.units := hunits
          have hm : ((c.run calls).setFinished sender).maxRunningThreads
              = c.maxRunningThreads := hmaxeq
          rw [hd] at hready
          rw [hu] at hsplit
          rw [hm] at hlt
          exact ⟨_, before, after, Or.inr ⟨sender, rfl⟩, hsplit, hready.1, hready.2, hlt⟩

/-- Instance of C19: the controller of a 4 x 4 unit grid with two running threads at most,
after a tick was started and the unit at `(0, 0)` finished. -/
theorem neighbour_exclusion_witness :
    ((∀ u, (ofGrid ⟨4, 4⟩ 2).state u = .Ready) ∧ 0 ≤ (ofGrid ⟨4, 4⟩ 2).maxRunningThreads ∧
        (ofGrid ⟨4, 4⟩ 2).SymmetricDependencies) ∧
      (∀ u v, u ≠ v → v ∈ (ofGrid ⟨4, 4⟩ 2).dependencies u →
        ¬ (((ofGrid ⟨4, 4⟩ 2).run
              [.calculateTimestep, .threadFinishedCalculation ⟨0, 0⟩]).state u = .Running ∧
          ((ofGrid ⟨4, 4⟩ 2).run
              [.calculateTimestep, .threadFinishedCalculation ⟨0, 0⟩]).state v = .Running)) ∧
      (((ofGrid ⟨4, 4⟩ 2).run
          [.calculateTimestep, .threadFinishedCalculation ⟨0, 0⟩]).numRunning : Int)
        ≤ (ofGrid ⟨4, 4⟩ 2).maxRunningThreads :=
  ⟨⟨fun _ => rfl, by decide, gridDependencies_symm ⟨4, 4⟩ 2⟩,
    (neighbour_exclusion (ofGrid ⟨4, 4⟩ 2)
      [.calculateTimestep, .threadFinishedCalculation ⟨0, 0⟩] (fun _ => rfl) (by decide)
      (gridDependencies_symm ⟨4, 4⟩ 2)).1,
    (neighbour_exclusion (ofGrid ⟨4, 4⟩ 2)
      [.calculateTimestep, .threadFinishedCalculation ⟨0, 0⟩] (fun _ => rfl) (by decide)
      (gridDependencies_symm ⟨4, 4⟩ 2)).2.1⟩

set_option maxRecDepth 100000 in
/-- Evaluation on the 4 x 4 grid with two running threads at most: starting a tick
dispatches the units at `(0, 0)` and `(0, 2)`, which are not neighbours, and no other; when
`(0, 0)` has finished, the scan dispatches `(1, 0)`. -/
theorem ofGrid_example :
    ((ofGrid ⟨4, 4⟩ 2).run [.calculateTimestep]).state ⟨0, 0⟩ = .Running ∧
      ((ofGrid ⟨4, 4⟩ 2).run [.calculateTimestep]).state ⟨0, 2⟩ = .Running ∧
      ((ofGrid ⟨4, 4⟩ 2).run [.calculateTimestep]).numRunning = 2 ∧
      ((ofGrid ⟨4, 4⟩ 2).run
        [.calculateTimestep, .threadFinishedCalculation ⟨0, 0⟩]).state ⟨1, 0⟩ = .Running ∧
      ((ofGrid ⟨4, 4⟩ 2).run
        [.calculateTimestep, .threadFinishedCalculation ⟨0, 0⟩]).state ⟨0, 0⟩ = .Finished := by
  decide

end UnitThreadControllerImpl

/-! ## Decomposition: partition and connectedness -/

namespace ClusterDecomposition

theorem inComponent_of_mem (component : List CellDescription) (cell : CellDescription)
    (h : cell ∈ component) : inComponent component cell = true := by
  unfold inComponent
  rw [List.any_eq_true]
  exact ⟨cell, h, by simp⟩

theorem mem_grow (pool component : List CellDescription) (cell : CellDescription) :
    cell ∈ grow pool component ↔
      cell ∈ component ∨ (cell ∈ pool ∧ inComponent component cell = false ∧
        ∃ d ∈ component, connectedTo d cell = true) := by
  unfold grow
  simp only [List.mem_append, List.mem_filter, Bool.and_eq_true, Bool.not_eq_true',
    List.any_eq_true]

theorem mem_iterate_grow (pool : List CellDescription) (n : Nat)
    (component : List CellDescription) (cell : CellDescription)
    (h : cell ∈ (grow pool)^[n] component) : cell ∈ component ∨ cell ∈ pool := by
  induction n generalizing component with
  | zero => exact Or.inl h
  | succ n ih =>
    rw [Function.iterate_succ_apply] at h
    rcases ih _ h with h1 | h1
    · rw [mem_grow] at h1
      rcases h1 with h2 | h2
      · exact Or.inl h2
      · exact Or.inr h2.1
    · exact Or.inr h1

theorem subset_iterate_grow (pool : List CellDescription) (n : Nat)
    (component : List CellDescription) (cell : CellDescription) (h : cell ∈ component) :
    cell ∈ (grow pool)^[n] component := by
  induction n generalizing component with
  | zero => exact h
  | succ n ih =>
    rw [Function.iterate_succ_apply]
    exact ih _ ((mem_grow pool component cell).2 (Or.inl h))

/-- Every cell that the search adds is reached from the seed along connections inside the
component. -/
theorem reach_iterate_grow (pool : List CellDescription) (seed : CellDescription) (n : Nat)
    (component : List CellDescription)
    (h : ∀ c ∈ component, Relation.ReflTransGen (Linked component) seed c) :
    ∀ c ∈ (grow pool)^[n] component,
      Relation.ReflTransGen (Linked ((grow pool)^[n] component)) seed c := by
  induction n generalizing component with
  | zero => exact h
  | succ n ih =>
    rw [Function.iterate_succ_apply]
    apply ih
    have hmono : ∀ a b, Linked component a b → Linked (grow pool component) a b := by
      intro a b hab
      exact ⟨(mem_grow _ _ _).2 (Or.inl hab.1), (mem_grow _ _ _).2 (Or.inl hab.2.1), hab.2.2⟩
    intro c hc
    rcases (mem_grow _ _ _).1 hc with h1 | ⟨-, -, d, hd, hdc⟩
    · exact Relation.ReflTransGen.mono hmono (h c h1)
    · exact Relation.ReflTransGen.tail (Relation.ReflTransGen.mono hmono (h d hd))
        ⟨(mem_grow _ _ _).2 (Or.inl hd), hc, Or.inl hdc⟩

theorem linked_symm (cells : List CellDescription) (a b : CellDescription)
    (h : Linked cells a b) : Linked cells b a :=
  ⟨h.2.1, h.1, h.2.2.symm⟩

/-- Any two cells of the component of a seed are joined by a chain of connections inside
the component. -/
theorem componentOf_connected (pool : List CellDescription) (seed : CellDescription) :
    ∀ a ∈ componentOf pool seed, ∀ b ∈ componentOf pool seed,
      Relation.ReflTransGen (Linked (componentOf pool seed)) a b := by
  have hreach := reach_iterate_grow pool seed pool.length [seed] (by
    intro c hc
    rw [List.mem_singleton] at hc
    rw [hc])
  intro a ha b hb
  have hsymm : Symmetric (Linked (componentOf pool seed)) := fun x y => linked_symm _ x y
  exact Relation.ReflTransGen.trans
    (Relation.ReflTransGen.symmetric hsymm (hreach a ha)) (hreach b hb)

theorem seed_mem_componentOf (pool : List CellDescription) (seed : CellDescription) :
    seed ∈ componentOf pool seed :=
  subset_iterate_grow pool pool.length [seed] seed (List.mem_singleton_self seed)

theorem mem_componentOf (pool : List CellDescription) (seed cell : CellDescription)
    (h : cell ∈ componentOf pool seed) : cell ∈ seed :: pool := by
  rcases mem_iterate_grow pool pool.length [seed] cell h with h1 | h1
  · rw [List.mem_singleton] at h1
    rw [h1]
    exact List.mem_cons_self _ _
  · exact List.mem_cons_of_mem _ h1

theorem mem_componentsAux (fuel : Nat) (pool : List CellDescription) :
    ∀ K ∈ componentsAux fuel pool, ∀ c ∈ K, c ∈ pool := by
  induction fuel generalizing pool with
  | zero => intro K hK; simp [componentsAux] at hK
  | succ fuel ih =>
    cases pool with
    | nil => intro K hK; simp [componentsAux] at hK
    | cons seed rest =>
      intro K hK c hc
      simp only [componentsAux, List.mem_cons] at hK
      rcases hK with rfl | hK
      · exact mem_componentOf rest seed c hc
      · have := ih _ K hK c hc
        exact List.mem_cons_of_mem _ (List.mem_filter.1 this).1

theorem componentsAux_disjoint (fuel : Nat) (pool : List CellDescription) :
    (componentsAux fuel pool).Pairwise (fun A B => ∀ c ∈ A, c ∉ B) := by
  induction fuel generalizing pool with
  | zero => simp [componentsAux]
  | succ fuel ih =>
    cases pool with
    | nil => simp [componentsAux]
    | cons seed rest =>
      simp only [componentsAux, List.pairwise_cons]
      refine ⟨?_, ih _⟩
      intro K hK c hc hcK
      have := mem_componentsAux fuel _ K hK c hcK
      have hnot := (List.mem_filter.1 this).2
      rw [inComponent_of_mem _ _ hc] at hnot
      simp at hnot

theorem componentsAux_connected (fuel : Nat) (pool : List CellDescription) :
    ∀ K ∈ componentsAux fuel pool, ∀ a ∈ K, ∀ b ∈ K,
      Relation.ReflTransGen (Linked K) a b := by
  induction fuel generalizing pool with
  | zero => intro K hK; simp [componentsAux] at hK
  | succ fuel ih =>
    cases pool with
    | nil => intro K hK; simp [componentsAux] at hK
    | cons seed rest =>
      intro K hK
      simp only [componentsAux, List.mem_cons] at hK
      rcases hK with rfl | hK
      · exact componentOf_connected rest seed
      · exact ih _ K hK

theorem componentsAux_cover (fuel : Nat) (pool : List CellDescription)
    (hfuel : pool.length ≤ fuel) (hids : (pool.map (fun c => c.id)).Nodup) :
    ∀ c ∈ pool, ∃ K ∈ componentsAux fuel pool, c ∈ K := by
  induction fuel generalizing pool with
  | zero =>
    intro c hc
    have : pool = [] := List.length_eq_zero.1 (Nat.le_zero.1 hfuel)
    rw [this] at hc
    cases hc
  | succ fuel ih =>
    cases pool with
    | nil => intro c hc; cases hc
    | cons seed rest =>
      intro c hc
      simp only [componentsAux, List.mem_cons, exists_eq_or_imp]
      by_cases hin : inComponent (componentOf rest seed) c = true
      · left
        unfold inComponent at hin
        rw [List.any_eq_true] at hin
        obtain ⟨d, hd, hdc⟩ := hin
        have hd' := mem_componentOf rest seed d hd
        have heq : d = c :=
          List.inj_on_of_nodup_map hids hd' hc (by simpa using hdc)
        rw [← heq]
        exact hd
      · right
        have hrest : c ∈ rest := by
          rcases List.mem_cons.1 hc with h | h
          · exfalso
            rw [h] at hin
            exact hin (inComponent_of_mem _ _ (seed_mem_componentOf rest seed))
          · exact h
        apply ih
        · have := List.length_filter_le
            (fun cell => !inComponent (componentOf rest seed) cell) rest
          simp only [List.length_cons] at hfuel
          omega
        · have hsub : List.Sublist
              ((rest.filter (fun cell => !inComponent (componentOf rest seed) cell)).map
                (fun c => c.id))
              ((seed :: rest).map (fun c => c.id)) :=
            List.Sublist.map _
              ((List.filter_sublist _).trans (List.sublist_cons_self seed rest))
          exact List.Nodup.sublist hsub hids
        · exact List.mem_filter.2 ⟨hrest, by simpa using hin⟩

theorem length_filter_le_of_imp (l : List CellDescription) (p q : CellDescription → Bool)
    (himp : ∀ c ∈ l, p c = true → q c = true) :
    (l.filter p).length ≤ (l.filter q).length := by
  induction l with
  | nil => simp
  | cons a rest ih =>
    have ih' := ih (fun c hc => himp c (List.mem_cons_of_mem _ hc))
    have ha := himp a (List.mem_cons_self _ _)
    by_cases hp : p a = true
    · rw [List.filter_cons_of_pos hp, List.filter_cons_of_pos (ha hp), List.length_cons,
        List.length_cons]
      omega
    · by_cases hq : q a = true
      · rw [List.filter_cons_of_neg hp, List.filter_cons_of_pos hq, List.length_cons]
        omega
      · rw [List.filter_cons_of_neg hp, List.filter_cons_of_neg hq]
        exact ih'

theorem length_filter_lt_of_imp (l : List CellDescription) (p q : CellDescription → Bool)
    (himp : ∀ c ∈ l, p c = true → q c = true) (c0 : CellDescription) (hc0 : c0 ∈ l)
    (hq0 : q c0 = true) (hp0 : p c0 = false) :
    (l.filter p).length < (l.filter q).length := by
  induction l with
  | nil => cases hc0
  | cons a rest ih =>
    have himp' : ∀ c ∈ rest, p c = true → q c = true :=
      fun c hc => himp c (List.mem_cons_of_mem _ hc)
    have hle := length_filter_le_of_imp rest p q himp'
    by_cases hp : p a = true
    · have hne : c0 ≠ a := by
        intro h
        rw [h, hp] at hp0
        cases hp0
      have hrest : c0 ∈ rest := by
        rcases List.mem_cons.1 hc0 with h | h
        · exact absurd h hne
        · exact h
      have ih' := ih himp' hrest
      rw [List.filter_cons_of_pos hp,
        List.filter_cons_of_pos (himp a (List.mem_cons_self _ _) hp), List.length_cons,
        List.length_cons]
      omega
    · by_cases hq : q a = true
      · rw [List.filter_cons_of_neg hp, List.filter_cons_of_pos hq, List.length_cons]
        omega
      · have hne : c0 ≠ a := by
          intro h
          rw [h] at hq0
          exact hq hq0
        have hrest : c0 ∈ rest := by
          rcases List.mem_cons.1 hc0 with h | h
          · exact absurd h hne
          · exact h
        rw [List.filter_cons_of_neg hp, List.filter_cons_of_neg hq]
        exact ih himp' hrest

theorem inComponent_mono (pool component : List CellDescription) (cell : CellDescription)
    (h : inComponent component cell = true) :
    inComponent (grow pool component) cell = true := by
  unfold inComponent at h ⊢
  rw [List.any_eq_true] at h ⊢
  obtain ⟨d, hd, hdc⟩ := h
  exact ⟨d, (mem_grow _ _ _).2 (Or.inl hd), hdc⟩

/-- A round that adds no cell leaves the component as it is: the component is closed under
the connections into the pool. -/
theorem closed_of_grow_eq (pool component : List CellDescription)
    (h : grow pool component = component) :
    ∀ d ∈ component, ∀ c ∈ pool, connectedTo d c = true → inComponent component c = true := by
  intro d hd c hc hdc
  by_contra hnot
  have hfalse : inComponent component c = false := by simpa using hnot
  have hmem : c ∈ grow pool component := (mem_grow _ _ _).2 (Or.inr ⟨hc, hfalse, d, hd, hdc⟩)
  rw [h] at hmem
  exact hnot (inComponent_of_mem _ _ hmem)

/-- After as many rounds as there are cells of the pool outside the component, a further
round adds nothing. -/
theorem grow_iterate_fixed (pool : List CellDescription) (n : Nat)
    (component : List CellDescription)
    (hn : (pool.filter (fun c => !inComponent component c)).length ≤ n) :
    grow pool ((grow pool)^[n] component) = (grow pool)^[n] component := by
  induction n generalizing component with
  | zero =>
    have hnil : pool.filter (fun c => !inComponent component c) = [] :=
      List.length_eq_zero.1 (Nat.le_zero.1 hn)
    rw [List.filter_eq_nil_iff] at hnil
    show grow pool component = component
    unfold grow
    have : pool.filter (fun cell =>
        !inComponent component cell && component.any (fun d => connectedTo d cell)) = [] := by
      rw [List.filter_eq_nil_iff]
      intro c hc
      have := hnil c hc
      simp only [Bool.and_eq_true, not_and]
      intro h1
      exact absurd h1 this
    rw [this, List.append_nil]
  | succ n ih =>
    rw [Function.iterate_succ_apply]
    by_cases hfix : grow pool component = component
    · rw [hfix, Function.iterate_fixed hfix n]
      exact hfix
    · apply ih
      have hex : ∃ c0 ∈ pool, inComponent component c0 = false ∧ c0 ∈ grow pool component := by
        by_contra hno
        apply hfix
        unfold grow
        have : pool.filter (fun cell =>
            !inComponent component cell && component.any (fun d => connectedTo d cell))
            = [] := by
          rw [List.filter_eq_nil_iff]
          intro c hc hpred
          simp only [Bool.and_eq_true, Bool.not_eq_true', List.any_eq_true] at hpred
          exact hno ⟨c, hc, hpred.1, (mem_grow _ _ _).2 (Or.inr ⟨hc, hpred.1, hpred.2⟩)⟩
        rw [this, List.append_nil]
      obtain ⟨c0, hc0, hout, hin⟩ := hex
      have hlt := length_filter_lt_of_imp pool
        (fun c => !inComponent (grow pool component) c) (fun c => !inComponent component c)
        (by
          intro c _ hc
          simp only [Bool.not_eq_true'] at hc ⊢
          by_contra hcontra
          have := inComponent_mono pool component c (by simpa using hcontra)
          rw [this] at hc
          cases hc)
        c0 hc0 (by simp [hout]) (by simp [inComponent_of_mem _ _ hin])
      omega

/-- The component of a seed is closed under the connections into the pool. -/
theorem componentOf_closed (pool : List CellDescription) (seed : CellDescription) :
    ∀ d ∈ componentOf pool seed, ∀ c ∈ pool, connectedTo d c = true →
      inComponent (componentOf pool seed) c = true :=
  closed_of_grow_eq pool _
    (grow_iterate_fixed pool pool.length [seed] (List.length_filter_le _ _))

/-- No connection leads from a cell of a component to a cell of a later component. -/
theorem componentsAux_separated (fuel : Nat) (pool : List CellDescription) :
    (componentsAux fuel pool).Pairwise
      (fun A B => ∀ a ∈ A, ∀ b ∈ B, connectedTo a b = false) := by
  induction fuel generalizing pool with
  | zero => simp [componentsAux]
  | succ fuel ih =>
    cases pool with
    | nil => simp [componentsAux]
    | cons seed rest =>
      simp only [componentsAux, List.pairwise_cons]
      refine ⟨?_, ih _⟩
      intro K hK a ha b hb
      have hb' := List.mem_filter.1 (mem_componentsAux fuel _ K hK b hb)
      by_contra hconn
      have := componentOf_closed rest seed a ha b hb'.1 (by simpa using hconn)
      rw [this] at hb'
      simp at hb'

/-- The component search commutes with a map of the cells that preserves the membership
test and the connections. -/
theorem map_grow (g : CellDescription → CellDescription)
    (hin : ∀ component cell, inComponent (component.map g) (g cell) = inComponent component cell)
    (hconn : ∀ a b, connectedTo (g a) (g b) = connectedTo a b)
    (pool component : List CellDescription) :
    grow (pool.map g) (component.map g) = (grow pool component).map g := by
  unfold grow
  rw [List.map_append, List.filter_map]
  congr 2
  apply List.filter_congr
  intro c _
  simp only [Function.comp_apply, hin, List.any_map, Function.comp_def, hconn]

theorem map_iterate_grow (g : CellDescription → CellDescription)
    (hin : ∀ component cell, inComponent (component.map g) (g cell) = inComponent component cell)
    (hconn : ∀ a b, connectedTo (g a) (g b) = connectedTo a b)
    (pool : List CellDescription) (n : Nat) (component : List CellDescription) :
    (grow (pool.map g))^[n] (component.map g) = ((grow pool)^[n] component).map g := by
  induction n generalizing component with
  | zero => rfl
  | succ n ih =>
    rw [Function.iterate_succ_apply, Function.iterate_succ_apply, map_grow g hin hconn, ih]

theorem map_componentOf (g : CellDescription → CellDescription)
    (hin : ∀ component cell, inComponent (component.map g) (g cell) = inComponent component cell)
    (hconn : ∀ a b, connectedTo (g a) (g b) = connectedTo a b)
    (pool : List CellDescription) (seed : CellDescription) :
    componentOf (pool.map g) (g seed) = (componentOf pool seed).map g := by
  unfold componentOf
  rw [List.length_map]
  exact map_iterate_grow g hin hconn pool pool.length [seed]

theorem map_componentsAux (g : CellDescription → CellDescription)
    (hin : ∀ component cell, inComponent (component.map g) (g cell) = inComponent component cell)
    (hconn : ∀ a b, connectedTo (g a) (g b) = connectedTo a b)
    (fuel : Nat) (pool : List CellDescription) :
    componentsAux fuel (pool.map g) = (componentsAux fuel pool).map (List.map g) := by
  induction fuel generalizing pool with
  | zero => simp [componentsAux]
  | succ fuel ih =>
    cases pool with
    | nil => simp [componentsAux]
    | cons seed rest =>
      simp only [List.map_cons, componentsAux, map_componentOf g hin hconn]
      congr 1
      rw [← ih, List.filter_map]
      congr 2
      apply List.filter_congr
      intro c _
      simp only [Function.comp_apply, hin]

theorem map_components (g : CellDescription → CellDescription)
    (hin : ∀ component cell, inComponent (component.map g) (g cell) = inComponent component cell)
    (hconn : ∀ a b, connectedTo (g a) (g b) = connectedTo a b)
    (cells : List CellDescription) :
    components (cells.map g) = (components cells).map (List.map g) := by
  unfold components
  rw [List.length_map, map_componentsAux g hin hconn]

theorem skeleton_inComponent (component : List CellDescription) (cell : CellDescription) :
    inComponent (component.map skeleton) (skeleton cell) = inComponent component cell := by
  simp [inComponent, skeleton, List.any_map, Function.comp_def]

/-- The ids of the components are determined by the connection data of the cells. -/
theorem components_ids (cells : List CellDescription) :
    (components cells).map (List.map (fun c => c.id))
      = (components (cells.map skeleton)).map (List.map (fun c => c.id)) := by
  rw [map_components skeleton skeleton_inComponent (fun _ _ => rfl), List.map_map]
  congr 1
  funext K
  simp [Function.comp_def, skeleton]

theorem relabel_inComponent (f : Nat → Nat) (hf : Function.Injective f)
    (component : List CellDescription) (cell : CellDescription) :
    inComponent (component.map (relabel f)) (relabel f cell) = inComponent component cell := by
  unfold inComponent
  rw [List.any_map]
  congr 1
  funext d
  show (f d.id == f cell.id) = (d.id == cell.id)
  rw [Bool.eq_iff_iff]
  simp [hf.eq_iff]

theorem relabel_connectedTo (f : Nat → Nat) (hf : Function.Injective f)
    (a b : CellDescription) :
    connectedTo (relabel f a) (relabel f b) = connectedTo a b := by
  unfold connectedTo relabel
  cases a.connectingCells with
  | none => rfl
  | some l =>
    simp only [Option.map_some', Option.getD_some]
    rw [Bool.eq_iff_iff]
    simp only [List.contains_iff_exists_mem_beq, List.mem_map, beq_iff_eq]
    constructor
    · rintro ⟨_, ⟨x, hx, rfl⟩, h⟩
      exact ⟨x, hx, (hf h).symm ▸ rfl⟩
    · rintro ⟨x, hx, h⟩
      exact ⟨f x, ⟨x, hx, rfl⟩, by rw [h]⟩

/-- Renaming the ids by an injective function renames the ids of the components. -/
theorem components_relabel (f : Nat → Nat) (hf : Function.Injective f)
    (cells : List CellDescription) :
    (components (cells.map (relabel f))).map (List.map (fun c => c.id))
      = ((components cells).map (List.map (fun c => c.id))).map (List.map f) := by
  rw [map_components (relabel f) (relabel_inComponent f hf) (relabel_connectedTo f hf),
    List.map_map, List.map_map]
  congr 1
  funext K
  simp [Function.comp_def, relabel]

open SimulationGpuTest in
theorem remainingCells_decomposeTestCluster (parameters : SimulationParameters)
    (ids : Nat → Nat) (hmin : 0 < parameters.cellMinEnergy) :
    remainingCells parameters (decomposeTestCluster parameters ids)
      = ((List.range 30).filter (fun i => decide (i ≠ 15))).map (lineCell parameters ids)
          ++ [leftCell parameters ids, rightCell parameters ids] := by
  have hline : ∀ i, (!isRemoved parameters (lineCell parameters ids i)) = decide (i ≠ 15) := by
    intro i
    by_cases hi : i = 15
    · simp only [isRemoved, lineCell, hi, if_true]
      simp
      linarith
    · simp only [isRemoved, lineCell, hi, if_false]
      simp [hi]
      linarith
  have hl : (!isRemoved parameters (leftCell parameters ids)) = true := by
    simp [isRemoved, leftCell]; linarith
  have hr : (!isRemoved parameters (rightCell parameters ids)) = true := by
    simp [isRemoved, rightCell]; linarith
  unfold remainingCells decomposeTestCluster
  simp only [Option.getD_some, List.filter_append, List.filter_map]
  congr 1
  · congr 1
    apply List.filter_congr
    intro i _
    exact hline i
  · simp [List.filter, hl, hr]

open SimulationGpuTest in
theorem skeleton_decomposeTestCluster (parameters : SimulationParameters) :
    (((List.range 30).filter (fun i => decide (i ≠ 15))).map
        (lineCell parameters (fun k => k))
      ++ [leftCell parameters (fun k => k), rightCell parameters (fun k => k)]).map skeleton
      = (((List.range 30).filter (fun i => decide (i ≠ 15))).map
        (fun i => skeleton (lineCell exampleFixture.parameters (fun k => k) i))
      ++ [skeleton (leftCell exampleFixture.parameters (fun k => k)),
          skeleton (rightCell exampleFixture.parameters (fun k => k))]) := by
  rw [List.map_append, List.map_map]
  rfl

open SimulationGpuTest in
theorem components_skeleton_decomposeTestCluster :
    (components (((List.range 30).filter (fun i => decide (i ≠ 15))).map
        (fun i => skeleton (lineCell exampleFixture.parameters (fun k => k) i))
      ++ [skeleton (leftCell exampleFixture.parameters (fun k => k)),
          skeleton (rightCell exampleFixture.parameters (fun k => k))])).map
        (List.map (fun c => c.id))
      = [[1, 2, 3, 4, 5, 6, 7, 8, 9, 10, 11, 12, 13, 14, 15],
         [17, 18, 19, 20, 21, 22, 23, 24, 25, 26, 27, 28, 29, 30], [31], [32]] := by
  decide!

open SimulationGpuTest in
theorem lineCell_relabel (parameters : SimulationParameters) (ids : Nat → Nat) (i : Nat) :
    lineCell parameters ids i = relabel ids (lineCell parameters (fun k => k) i) := by
  unfold lineCell relabel
  simp only [Option.map_some', List.map_append]
  congr 3
  · congr 1
    · split_ifs <;> rfl
    · split_ifs <;> rfl
  · split_ifs <;> rfl

open SimulationGpuTest in
theorem remainingCells_relabel (parameters : SimulationParameters) (ids : Nat → Nat) :
    ((List.range 30).filter (fun i => decide (i ≠ 15))).map (lineCell parameters ids)
        ++ [leftCell parameters ids, rightCell parameters ids]
      = (((List.range 30).filter (fun i => decide (i ≠ 15))).map
            (lineCell parameters (fun k => k))
          ++ [leftCell parameters (fun k => k), rightCell parameters (fun k => k)]).map
          (relabel ids) := by
  rw [List.map_append, List.map_map]
  congr 1

/-- The decomposition of the cluster of `testDecomposeClusterAfterLowEnergy`, whatever
pairwise different ids are drawn: the ids of the cells of the resulting cell sets, `ids k`
being the `k`-th id drawn after the id of the cluster. -/
theorem decompose_decomposeTestCluster (parameters : SimulationParameters)
    (ids : Nat → Nat) (hids : Function.Injective ids)
    (hmin : 0 < parameters.cellMinEnergy) :
    (decompose parameters (SimulationGpuTest.decomposeTestCluster parameters ids)).map
        (List.map (fun c => c.id))
      = [[1, 2, 3, 4, 5, 6, 7, 8, 9, 10, 11, 12, 13, 14, 15],
         [17, 18, 19, 20, 21, 22, 23, 24, 25, 26, 27, 28, 29, 30], [31], [32]].map
          (List.map ids) := by
  unfold decompose
  rw [remainingCells_decomposeTestCluster parameters _ hmin, remainingCells_relabel,
    components_relabel ids hids, components_ids, skeleton_decomposeTestCluster,
    components_skeleton_decomposeTestCluster]

/-- C20: for a cluster whose cells have pairwise different ids, the decomposition removes
the cells whose energy is below `cellMinEnergy` and yields cell sets that consist of
remaining cells of the original cluster, unchanged, are pairwise disjoint, together contain
every remaining cell, and in each of which any two cells are joined by a chain of
connections between cells of the set; no connection leads from a cell of one set to a cell
of a later set, so with symmetric connections different sets are not connected.  For the
cross-shaped 32-cell cluster of `testDecomposeClusterAfterLowEnergy` (with pairwise
different ids, `ids k` being the `k`-th id drawn after that of the cluster, and
`cellMinEnergy > 0`) these are 4 sets of 15, 14, 1 and 1 cells: the line above the weak
cell, the line below it, the left cell and the right cell, each cell with the position it
has in the original cluster. -/
theorem decompose_partition (parameters : SimulationParameters) (cluster : ClusterDescription)
    (hids : ((cluster.cells.getD []).map (fun c => c.id)).Nodup) :
    (∀ K ∈ decompose parameters cluster, ∀ c ∈ K,
      c ∈ cluster.cells.getD [] ∧ isRemoved parameters c = false) ∧
    (decompose parameters cluster).Pairwise (fun A B => ∀ c ∈ A, c ∉ B) ∧
    (∀ c ∈ cluster.cells.getD [], isRemoved parameters c = false →
      ∃ K ∈ decompose parameters cluster, c ∈ K) ∧
    (∀ K ∈ decompose parameters cluster, ∀ a ∈ K, ∀ b ∈ K,
      Relation.ReflTransGen (Linked K) a b) ∧
    (decompose parameters cluster).Pairwise
      (fun A B => ∀ a ∈ A, ∀ b ∈ B, connectedTo a b = false) ∧
    ((∀ a ∈ cluster.cells.getD [], ∀ b ∈ cluster.cells.getD [],
        connectedTo a b = connectedTo b a) →
      (decompose parameters cluster).Pairwise
        (fun A B => ∀ a ∈ A, ∀ b ∈ B, connectedTo a b = false ∧ connectedTo b a = false)) ∧
    (∀ ids : Nat → Nat, Function.Injective ids → 0 < parameters.cellMinEnergy →
      (decompose parameters (SimulationGpuTest.decomposeTestCluster parameters ids)).map
          (List.map (fun c => c.id))
        = [[1, 2, 3, 4, 5, 6, 7, 8, 9, 10, 11, 12, 13, 14, 15],
           [17, 18, 19, 20, 21, 22, 23, 24, 25, 26, 27, 28, 29, 30], [31], [32]].map
            (List.map ids) ∧
      (decompose parameters (SimulationGpuTest.decomposeTestCluster parameters ids)).map
          List.length = [15, 14, 1, 1] ∧
      ∀ K ∈ decompose parameters (SimulationGpuTest.decomposeTestCluster parameters ids),
        ∀ c ∈ K, ∃ original ∈
          (SimulationGpuTest.decomposeTestCluster parameters ids).cells.getD [],
          original.id = c.id ∧ original.pos = c.pos) := by
  have hsub : ∀ (cl : ClusterDescription), ∀ K ∈ decompose parameters cl, ∀ c ∈ K,
      c ∈ cl.cells.getD [] ∧ isRemoved parameters c = false := by
    intro cl K hK c hc
    have := mem_componentsAux _ _ K hK c hc
    unfold remainingCells at this
    rw [List.mem_filter] at this
    exact ⟨this.1, by simpa using this.2⟩
  refine ⟨hsub cluster, componentsAux_disjoint _ _, ?_, componentsAux_connected _ _,
    componentsAux_separated _ _, ?_, ?_⟩
  · intro c hc hkeep
    apply componentsAux_cover _ _ (Nat.le_refl _)
    · exact List.Nodup.sublist (List.Sublist.map _ (List.filter_sublist _)) hids
    · unfold remainingCells
      exact List.mem_filter.2 ⟨hc, by simp [hkeep]⟩
  · intro hsymm
    refine List.Pairwise.imp_of_mem ?_ (componentsAux_separated _ _)
    intro A B hA hB hAB a ha b hb
    have h1 := hAB a ha b hb
    refine ⟨h1, ?_⟩
    rw [← hsymm a (hsub cluster A hA a ha).1 b (hsub cluster B hB b hb).1]
    exact h1
  · intro ids hinj hmin
    have hidsEq := decompose_decomposeTestCluster parameters ids hinj hmin
    refine ⟨hidsEq, ?_, ?_⟩
    · have := congrArg (List.map List.length) hidsEq
      simpa [List.map_map, Function.comp_def] using this
    · intro K hK c hc
      exact ⟨c, (hsub _ K hK c hc).1, rfl, rfl⟩

/-- Instance of C20: the cluster of `testDecomposeClusterAfterLowEnergy` with
`cellMinEnergy = 50`. -/
theorem decompose_partition_witness :
    (((SimulationGpuTest.decomposeTestCluster exampleFixture.parameters
        (fun k => k)).cells.getD []).map (fun c => c.id)).Nodup ∧
      (decompose exampleFixture.parameters
        (SimulationGpuTest.decomposeTestCluster exampleFixture.parameters
          (fun k => k))).Pairwise (fun A B => ∀ c ∈ A, c ∉ B) ∧
      (∀ c ∈ (SimulationGpuTest.decomposeTestCluster exampleFixture.parameters
          (fun k => k)).cells.getD [],
        isRemoved exampleFixture.parameters c = false →
        ∃ K ∈ decompose exampleFixture.parameters
          (SimulationGpuTest.decomposeTestCluster exampleFixture.parameters (fun k => k)),
          c ∈ K) ∧
      (0 < exampleFixture.parameters.cellMinEnergy →
        (decompose exampleFixture.parameters
          (SimulationGpuTest.decomposeTestCluster exampleFixture.parameters
            (fun k => k))).map List.length = [15, 14, 1, 1]) := by
  have hids : (((SimulationGpuTest.decomposeTestCluster exampleFixture.parameters
      (fun k => k)).cells.getD []).map (fun c => c.id)).Nodup := by
    decide
  obtain ⟨-, c1, c2, -, -, -, c3⟩ := decompose_partition exampleFixture.parameters
    (SimulationGpuTest.decomposeTestCluster exampleFixture.parameters (fun k => k)) hids
  exact ⟨hids, c1, c2, fun h => (c3 (fun k => k) (fun _ _ h => h) h).2.1⟩

end ClusterDecomposition

/-! ## Arithmetic of `double`: rounding to the nearest value -/

namespace Binary64

/-- The unit in the last place is positive. -/
theorem ulp_pos (x : ℚ) : 0 < ulp x := by
  unfold ulp
  positivity

/-- The unit in the last place does not depend on the sign. -/
theorem ulp_neg (x : ℚ) : ulp (-x) = ulp x := by
  unfold ulp exponent
  rw [abs_neg]

/-- Rounding to the nearest integer does not go below the floor. -/
theorem floor_le_roundHalfEven (y : ℚ) : ⌊y⌋ ≤ roundHalfEven y := by
  unfold roundHalfEven
  split_ifs <;> omega

/-- Rounding to the nearest integer does not go above the floor plus one. -/
theorem roundHalfEven_le_floor_succ (y : ℚ) : roundHalfEven y ≤ ⌊y⌋ + 1 := by
  unfold roundHalfEven
  split_ifs <;> omega

/-- The nearest integer is at most one half away. -/
theorem roundHalfEven_sub_le (y : ℚ) :
    (roundHalfEven y : ℚ) - y ≤ 1 / 2 ∧ y - (roundHalfEven y : ℚ) ≤ 1 / 2 := by
  have h1 := Int.floor_le y
  have h2 := Int.lt_floor_add_one y
  unfold roundHalfEven
  split_ifs <;> push_cast <;> constructor <;> linarith

/-- An integer is rounded to itself. -/
theorem roundHalfEven_intCast (n : Int) : roundHalfEven (n : ℚ) = n := by
  unfold roundHalfEven
  rw [Int.floor_intCast]
  simp

/-- Rounding to the nearest integer is monotone. -/
theorem roundHalfEven_mono (y z : ℚ) (h : y ≤ z) : roundHalfEven y ≤ roundHalfEven z := by
  have hfl : ⌊y⌋ ≤ ⌊z⌋ := Int.floor_mono h
  rcases lt_or_eq_of_le hfl with hlt | heq
  · have h1 := roundHalfEven_le_floor_succ y
    have h2 := floor_le_roundHalfEven z
    omega
  · unfold roundHalfEven
    rw [← heq]
    split_ifs <;> first | omega | (exfalso; linarith)

/-- A non-negative number is rounded to a non-negative integer. -/
theorem roundHalfEven_nonneg (y : ℚ) (h : 0 ≤ y) : 0 ≤ roundHalfEven y := by
  have := roundHalfEven_mono 0 y h
  rwa [show ((0 : ℚ)) = ((0 : Int) : ℚ) by norm_num, roundHalfEven_intCast] at this

/-- The exponent is at least that of the subnormal numbers. -/
theorem exponent_ge (x : ℚ) : -1022 ≤ exponent x := le_max_right _ _

/-- A positive number lies below the upper end of its binade. -/
theorem lt_zpow_exponent (x : ℚ) (hx : 0 < x) : x < (2 : ℚ) ^ (exponent x + 1) := by
  have h1 : x < ((2 : ℕ) : ℚ) ^ (Int.log 2 x + 1) := Int.lt_zpow_succ_log_self (by norm_num) x
  have h2 : ((2 : ℕ) : ℚ) ^ (Int.log 2 x + 1) ≤ (2 : ℚ) ^ (exponent x + 1) := by
    push_cast
    apply zpow_le_zpow_right₀ (by norm_num)
    unfold exponent
    rw [abs_of_pos hx]
    have := le_max_left (Int.log 2 x) (-1022)
    omega
  linarith

/-- A positive normal number lies at or above the lower end of its binade. -/
theorem zpow_exponent_le (x : ℚ) (hx : 0 < x) (h : -1022 < exponent x) :
    (2 : ℚ) ^ exponent x ≤ x := by
  have he : exponent x = Int.log 2 x := by
    unfold exponent at h ⊢
    rw [abs_of_pos hx] at h ⊢
    rcases le_total (Int.log 2 x) (-1022) with h1 | h1
    · rw [max_eq_right h1] at h
      omega
    · exact max_eq_left h1
  rw [he]
  have := Int.zpow_log_le_self (b := 2) (by norm_num) hx
  exact_mod_cast this

/-- The exponent is monotone on the positive numbers. -/
theorem exponent_mono (x y : ℚ) (hx : 0 < x) (h : x ≤ y) : exponent x ≤ exponent y := by
  unfold exponent
  rw [abs_of_pos hx, abs_of_pos (lt_of_lt_of_le hx h)]
  exact max_le_max (Int.log_mono_right hx h) le_rfl

/-- The exponent of a positive number, from the binade it lies in. -/
theorem exponent_eq (x : ℚ) (e : Int) (hx : 0 < x) (he : -1022 ≤ e)
    (hlo : e = -1022 ∨ (2 : ℚ) ^ e ≤ x) (hhi : x < (2 : ℚ) ^ (e + 1)) : exponent x = e := by
  have h1 : Int.log 2 x < e + 1 := by
    rw [← Int.lt_zpow_iff_log_lt (by norm_num) hx]
    exact_mod_cast hhi
  unfold exponent
  rw [abs_of_pos hx]
  rcases hlo with h | h
  · rw [max_eq_right (by omega)]
    exact h.symm
  · have h2 : e ≤ Int.log 2 x := by
      rw [← Int.zpow_le_iff_le_log (by norm_num) hx]
      exact_mod_cast h
    rw [max_eq_left (by omega)]
    omega

/-- Rounding of a non-negative number. -/
theorem round_of_nonneg (x : ℚ) (h : 0 ≤ x) :
    round x = (roundHalfEven (x / ulp x) : ℚ) * ulp x := by
  unfold round
  rw [if_pos h]

/-- Zero is a `double`. -/
theorem round_zero : round 0 = 0 := by
  rw [round_of_nonneg 0 le_rfl, zero_div]
  rw [show ((0 : ℚ)) = ((0 : Int) : ℚ) by norm_num, roundHalfEven_intCast]
  simp

/-- A non-negative number is rounded to a non-negative `double`. -/
theorem round_nonneg (x : ℚ) (h : 0 ≤ x) : 0 ≤ round x := by
  rw [round_of_nonneg x h]
  have h1 := roundHalfEven_nonneg (x / ulp x) (div_nonneg h (ulp_pos x).le)
  have h2 : (0 : ℚ) ≤ (roundHalfEven (x / ulp x) : ℚ) := by exact_mod_cast h1
  exact mul_nonneg h2 (ulp_pos x).le

/-- Rounding is symmetric in the sign. -/
theorem round_neg (x : ℚ) : round (-x) = -round x := by
  rcases lt_trichotomy x 0 with h | h | h
  · have h1 : ¬ (0 ≤ x) := not_le.mpr h
    have h2 : (0 : ℚ) ≤ -x := by linarith
    unfold round
    rw [if_neg h1, if_pos h2, ulp_neg, neg_neg]
  · subst h
    rw [neg_zero, round_zero, neg_zero]
  · have h1 : ¬ (0 ≤ -x) := by
      intro h'
      linarith
    unfold round
    rw [if_neg h1, if_pos h.le, ulp_neg, neg_neg]

/-- Rounding does not leave the binade upwards beyond its upper end. -/
theorem round_le_zpow (x : ℚ) (hx : 0 < x) : round x ≤ (2 : ℚ) ^ (exponent x + 1) := by
  rw [round_of_nonneg x hx.le]
  have hu : ulp x = (2 : ℚ) ^ (exponent x - 52) := rfl
  have hsplit : (2 : ℚ) ^ (exponent x + 1) = ((2 ^ 53 : Int) : ℚ) * ulp x := by
    have hcast : ((2 ^ 53 : Int) : ℚ) = (2 : ℚ) ^ (53 : Int) := by norm_num
    rw [hu, hcast, ← zpow_add₀ (by norm_num)]
    congr 1
    omega
  have hq : x / ulp x ≤ ((2 ^ 53 : Int) : ℚ) := by
    rw [div_le_iff₀ (ulp_pos x), ← hsplit]
    exact (lt_zpow_exponent x hx).le
  have hr := roundHalfEven_mono _ _ hq
  rw [roundHalfEven_intCast] at hr
  rw [hsplit]
  have hr' : (roundHalfEven (x / ulp x) : ℚ) ≤ ((2 ^ 53 : Int) : ℚ) := by exact_mod_cast hr
  exact mul_le_mul_of_nonneg_right hr' (ulp_pos x).le

/-- Rounding of a normal number does not go below the lower end of its binade. -/
theorem zpow_le_round (x : ℚ) (hx : 0 < x) (h : -1022 < exponent x) :
    (2 : ℚ) ^ exponent x ≤ round x := by
  rw [round_of_nonneg x hx.le]
  have hu : ulp x = (2 : ℚ) ^ (exponent x - 52) := rfl
  have hsplit : (2 : ℚ) ^ exponent x = ((2 ^ 52 : Int) : ℚ) * ulp x := by
    have hcast : ((2 ^ 52 : Int) : ℚ) = (2 : ℚ) ^ (52 : Int) := by norm_num
    rw [hu, hcast, ← zpow_add₀ (by norm_num)]
    congr 1
    omega
  have hq : ((2 ^ 52 : Int) : ℚ) ≤ x / ulp x := by
    rw [le_div_iff₀ (ulp_pos x), ← hsplit]
    exact zpow_exponent_le x hx h
  have hr := roundHalfEven_mono _ _ hq
  rw [roundHalfEven_intCast] at hr
  rw [hsplit]
  have hr' : ((2 ^ 52 : Int) : ℚ) ≤ (roundHalfEven (x / ulp x) : ℚ) := by exact_mod_cast hr
  exact mul_le_mul_of_nonneg_right hr' (ulp_pos x).le

/-- Rounding is monotone on the positive numbers. -/
theorem round_mono_of_pos (x y : ℚ) (hx : 0 < x) (h : x ≤ y) : round x ≤ round y := by
  have hy : 0 < y := lt_of_lt_of_le hx h
  rcases lt_or_eq_of_le (exponent_mono x y hx h) with hlt | heq
  · have h1 := round_le_zpow x hx
    have h2 := zpow_le_round y hy (by have := exponent_ge x; omega)
    have h3 : (2 : ℚ) ^ (exponent x + 1) ≤ (2 : ℚ) ^ exponent y :=
      zpow_le_zpow_right₀ (by norm_num) (by omega)
    linarith
  · rw [round_of_nonneg x hx.le, round_of_nonneg y hy.le]
    have hu : ulp x = ulp y := by
      unfold ulp
      rw [heq]
    rw [hu]
    have hq : x / ulp y ≤ y / ulp y := div_le_div_of_nonneg_right h (ulp_pos y).le
    have hr := roundHalfEven_mono _ _ hq
    have hr' : (roundHalfEven (x / ulp y) : ℚ) ≤ (roundHalfEven (y / ulp y) : ℚ) := by
      exact_mod_cast hr
    exact mul_le_mul_of_nonneg_right hr' (ulp_pos y).le

/-- Rounding to `double` is monotone. -/
theorem round_mono (x y : ℚ) (h : x ≤ y) : round x ≤ round y := by
  rcases lt_trichotomy x 0 with hx | hx | hx
  · rcases le_or_lt 0 y with hy | hy
    · have h1 := round_nonneg (-x) (by linarith)
      rw [round_neg] at h1
      have h2 := round_nonneg y hy
      linarith
    · have h1 := round_mono_of_pos (-y) (-x) (by linarith) (by linarith)
      rw [round_neg, round_neg] at h1
      linarith
  · subst hx
    rw [round_zero]
    exact round_nonneg y h
  · exact round_mono_of_pos x y hx h

/-- The rounding error is at most half a unit in the last place. -/
theorem abs_round_sub_le (x : ℚ) : |round x - x| ≤ ulp x / 2 := by
  have key : ∀ z : ℚ, 0 ≤ z → |round z - z| ≤ ulp z / 2 := by
    intro z hz
    rw [round_of_nonneg z hz]
    obtain ⟨h1, h2⟩ := roundHalfEven_sub_le (z / ulp z)
    have hu := ulp_pos z
    have hz' : z = z / ulp z * ulp z := by field_simp
    rw [abs_le]
    constructor
    · have := mul_le_mul_of_nonneg_right h2 hu.le
      rw [sub_mul, ← hz'] at this
      linarith
    · have := mul_le_mul_of_nonneg_right h1 hu.le
      rw [sub_mul, ← hz'] at this
      linarith
  rcases le_or_lt 0 x with hx | hx
  · exact key x hx
  · have := key (-x) (by linarith)
    rw [round_neg, ulp_neg] at this
    rw [show round x - x = -(-round x - -x) by ring, abs_neg]
    exact this


/-- The nearest integer of a number that is less than one half away from an integer. -/
theorem roundHalfEven_eq (y : ℚ) (m : Int) (h1 : (m : ℚ) - 1 / 2 < y)
    (h2 : y < (m : ℚ) + 1 / 2) : roundHalfEven y = m := by
  rcases lt_or_le y (m : ℚ) with h | h
  · have hf : ⌊y⌋ = m - 1 := by
      rw [Int.floor_eq_iff]
      push_cast
      constructor <;> linarith
    unfold roundHalfEven
    rw [hf, if_neg (by push_cast; linarith), if_pos (by push_cast; linarith)]
    omega
  · have hf : ⌊y⌋ = m := by
      rw [Int.floor_eq_iff]
      constructor <;> linarith
    unfold roundHalfEven
    rw [hf, if_pos (by linarith)]

/-- The nearest integer of a number halfway between two integers is the even one. -/
theorem roundHalfEven_tie (y : ℚ) (f : Int) (hy : y = (f : ℚ) + 1 / 2) :
    roundHalfEven y = if f % 2 = 0 then f else f + 1 := by
  have hf : ⌊y⌋ = f := by
    rw [Int.floor_eq_iff]
    constructor <;> linarith
  unfold roundHalfEven
  rw [hf, if_neg (by linarith), if_neg (by linarith)]

/-- The `double` nearest to a positive number, from its binade and the rounded
significand. -/
theorem round_eq (x v : ℚ) (e m : Int) (hx : 0 < x) (he : -1022 ≤ e)
    (hlo : e = -1022 ∨ (2 : ℚ) ^ e ≤ x) (hhi : x < (2 : ℚ) ^ (e + 1))
    (hm : roundHalfEven (x / (2 : ℚ) ^ (e - 52)) = m) (hv : v = (m : ℚ) * (2 : ℚ) ^ (e - 52)) :
    round x = v := by
  have hexp := exponent_eq x e hx he hlo hhi
  rw [round_of_nonneg x hx.le]
  unfold ulp
  rw [hexp, hm, hv]

end Binary64

/-! ## NumberGeneratorImpl: the ring walk -/

namespace NumberGeneratorImpl

/-- C25: the draw index always stays inside the ring.  For every generator state with a
non-empty ring of `N` words and any previous index value, a draw succeeds (no division by
zero and no read outside the ring), the index after it is `(index + 1) mod N`, which is
smaller than `N`, and the word returned is the ring element at that index.  `init` replaces
the ring and leaves the index as it is, so the index before a draw may be left over from a
larger ring. -/
theorem getNumberFromArray_index_in_ring (g : NumberGeneratorImpl)
    (hring : g._arrayOfRandomNumbers ≠ []) :
    (∃ w g', g.getNumberFromArray = some (w, g') ∧
      g'._index = (g._index + 1) % g._arrayOfRandomNumbers.length ∧
      g'._index < g'._arrayOfRandomNumbers.length ∧
      g'._arrayOfRandomNumbers = g._arrayOfRandomNumbers ∧
      g._arrayOfRandomNumbers[g'._index]? = some w ∧
      w ∈ g._arrayOfRandomNumbers) ∧
    (∀ entropy arraySize threadId,
      (g.init entropy arraySize threadId)._index = g._index ∧
      (g.init entropy arraySize threadId)._arrayOfRandomNumbers.length
        = arraySize % UInt32Size) := by
  obtain ⟨w, hw, hdraw⟩ := getNumberFromArray_eq g hring
  have hpos : 0 < g._arrayOfRandomNumbers.length := List.length_pos.mpr hring
  refine ⟨⟨w, _, hdraw, rfl, Nat.mod_lt _ hpos, rfl, hw, List.getElem?_mem hw⟩, ?_⟩
  intro entropy arraySize threadId
  exact ⟨rfl, by simp [init]⟩

/-- Instance of C25: an index left over from a ring of ten words, then `init` with a ring of
three words and a draw. -/
theorem getNumberFromArray_index_in_ring_witness :
    ((⟨9, [], 0, 0⟩ : NumberGeneratorImpl).init (fun i => 10 * i) 3 1)._arrayOfRandomNumbers
        ≠ [] ∧
      ((⟨9, [], 0, 0⟩ : NumberGeneratorImpl).init (fun i => 10 * i) 3 1)._index = 9 ∧
      ∃ w g', ((⟨9, [], 0, 0⟩ : NumberGeneratorImpl).init (fun i => 10 * i) 3
          1).getNumberFromArray = some (w, g') ∧
        g'._index = (9 + 1) % 3 ∧ g'._index < 3 ∧ w = 10 := by
  have hring : ((⟨9, [], 0, 0⟩ : NumberGeneratorImpl).init (fun i => 10 * i) 3
      1)._arrayOfRandomNumbers ≠ [] := by decide
  obtain ⟨⟨w, g', h1, h2, h3, h4, h5, -⟩, -⟩ := getNumberFromArray_index_in_ring
    ((⟨9, [], 0, 0⟩ : NumberGeneratorImpl).init (fun i => 10 * i) 3 1) hring
  refine ⟨hring, rfl, w, g', h1, h2, ?_, ?_⟩
  · rw [h4] at h3
    exact h3
  · rw [h2] at h5
    have h6 : ((⟨9, [], 0, 0⟩ : NumberGeneratorImpl).init (fun i => 10 * i) 3
        1)._arrayOfRandomNumbers[(9 + 1) % 3]? = some 10 := by decide
    exact Option.some.inj (h5.symm.trans h6)

/-- Consecutive draws on a non-empty ring succeed; the word with number `j` (counted from 0)
is the ring word at position `(index + 1 + j) mod N`, and the ring is left unchanged. -/
theorem draws_eq (n : Nat) (g : NumberGeneratorImpl) (hring : g._arrayOfRandomNumbers ≠ []) :
    ∃ ws g', g.draws n = some (ws, g') ∧ ws.length = n ∧
      g'._arrayOfRandomNumbers = g._arrayOfRandomNumbers ∧
      (0 < n → g'._index = (g._index + n) % g._arrayOfRandomNumbers.length) ∧
      ∀ j, j < n → ws[j]?
        = g._arrayOfRandomNumbers[(g._index + 1 + j) % g._arrayOfRandomNumbers.length]? := by
  induction n generalizing g with
  | zero => exact ⟨[], g, rfl, rfl, rfl, fun h => absurd h (Nat.lt_irrefl 0),
      fun j hj => absurd hj (Nat.not_lt_zero j)⟩
  | succ n ih =>
    obtain ⟨w, hw, hdraw⟩ := getNumberFromArray_eq g hring
    obtain ⟨ws, g', hdraws, hlen, hringEq, hidx, hwords⟩ :=
      ih { g with _index := (g._index + 1) % g._arrayOfRandomNumbers.length } hring
    refine ⟨w :: ws, g', ?_, by simp [hlen], hringEq, ?_, ?_⟩
    · simp only [draws, hdraw, hdraws]
    · intro _
      rcases Nat.eq_zero_or_pos n with hn | hn
      · subst hn
        simp only [draws, Option.some.injEq, Prod.mk.injEq] at hdraws
        rw [← hdraws.2]
      · rw [hidx hn]
        simp only
        rw [Nat.mod_add_mod]
        congr 1
        omega
    · intro j hj
      cases j with
      | zero => simpa using hw.symm
      | succ j =>
        simp only [List.getElem?_cons_succ]
        rw [hwords j (by omega)]
        simp only
        rw [Nat.add_assoc ((g._index + 1) % g._arrayOfRandomNumbers.length), Nat.mod_add_mod]
        congr 2
        omega

theorem walk_back (N c p : Nat) (hp : p < N) : (c + (p + (N - c % N))) % N = p := by
  have hN : 0 < N := by omega
  have hc : c % N < N := Nat.mod_lt _ hN
  have hdiv := Nat.div_add_mod c N
  have : c + (p + (N - c % N)) = p + N * (c / N + 1) := by
    rw [Nat.mul_add, Nat.mul_one]
    omega
  rw [this, Nat.add_mul_mod_self_left]
  exact Nat.mod_eq_of_lt hp

/-- A window of `N` consecutive positions of the walk hits every position once. -/
theorem walk_unique (N c p : Nat) (hp : p < N) : ∃! j, j < N ∧ (c + j) % N = p := by
  have hN : 0 < N := by omega
  refine ⟨(p + (N - c % N)) % N, ⟨Nat.mod_lt _ hN, ?_⟩, ?_⟩
  · rw [Nat.add_mod_mod]
    exact walk_back N c p hp
  · rintro j ⟨hj, hjp⟩
    have h1 : (c + j) % N = (c + (p + (N - c % N)) % N) % N := by
      rw [hjp, Nat.add_mod_mod]
      exact (walk_back N c p hp).symm
    have h2 : j ≡ (p + (N - c % N)) % N [MOD N] := Nat.ModEq.add_left_cancel' c h1
    exact Nat.ModEq.eq_of_lt_of_lt h2 hj (Nat.mod_lt _ hN)

/-- C26: the random stream is a cyclic walk over the ring.  On a ring of `N ≥ 1` words any
number of consecutive draws succeeds, the draw with number `j` (counted from 0) reading
position `(index + 1 + j) mod N`; among any `N` consecutive draws (those with the numbers
`k, ..., k + N - 1`) every ring position is read by exactly one; the draw with number
`k + N` returns the same word as the draw with number `k`; and two generators with equal
ring and equal index produce equal draw sequences. -/
theorem draws_cyclic (g : NumberGeneratorImpl) (hring : g._arrayOfRandomNumbers ≠ []) :
    (∀ n, ∃ ws g', g.draws n = some (ws, g') ∧ ws.length = n ∧
      ∀ j, j < n → ws[j]?
        = g._arrayOfRandomNumbers[(g._index + 1 + j) % g._arrayOfRandomNumbers.length]?) ∧
    (∀ k p, p < g._arrayOfRandomNumbers.length →
      ∃! j, j < g._arrayOfRandomNumbers.length ∧
        (g._index + 1 + (k + j)) % g._arrayOfRandomNumbers.length = p) ∧
    (∀ n ws g', g.draws n = some (ws, g') →
      ∀ k, k + g._arrayOfRandomNumbers.length < n →
        ws[k + g._arrayOfRandomNumbers.length]? = ws[k]?) ∧
    (∀ g2 : NumberGeneratorImpl, g2._arrayOfRandomNumbers = g._arrayOfRandomNumbers →
      g2._index = g._index →
      ∀ n, (g2.draws n).map Prod.fst = (g.draws n).map Prod.fst) := by
  refine ⟨?_, ?_, ?_, ?_⟩
  · intro n
    obtain ⟨ws, g', h1, h2, -, -, h3⟩ := draws_eq n g hring
    exact ⟨ws, g', h1, h2, h3⟩
  · intro k p hp
    have := walk_unique g._arrayOfRandomNumbers.length (g._index + 1 + k) p hp
    simpa only [Nat.add_assoc] using this
  · intro n ws g' hdraws k hk
    obtain ⟨ws', g'', h1, -, -, -, h3⟩ := draws_eq n g hring
    rw [hdraws] at h1
    simp only [Option.some.injEq, Prod.mk.injEq] at h1
    rw [h1.1, h3 _ hk, h3 k (by omega)]
    congr 1
    rw [← Nat.add_assoc, Nat.add_mod_right]
  · intro g2 hr hi n
    obtain ⟨ws, g', h1, h2, -, -, h3⟩ := draws_eq n g hring
    obtain ⟨ws2, g2', k1, k2, -, -, k3⟩ := draws_eq n g2 (by rw [hr]; exact hring)
    rw [h1, k1]
    simp only [Option.map_some', Option.some.injEq]
    apply List.ext_getElem?
    intro j
    by_cases hj : j < n
    · rw [h3 j hj, k3 j hj, hr, hi]
    · rw [List.getElem?_eq_none (by omega), List.getElem?_eq_none (by omega)]

/-- Instance of C26: a ring of three words with the index at its last position: seven
draws. -/
theorem draws_cyclic_witness :
    (⟨2, [10, 20, 30], 0, 0⟩ : NumberGeneratorImpl)._arrayOfRandomNumbers ≠ [] ∧
      (⟨2, [10, 20, 30], 0, 0⟩ : NumberGeneratorImpl).draws 7
        = some ([10, 20, 30, 10, 20, 30, 10], ⟨0, [10, 20, 30], 0, 0⟩) ∧
      (∀ k, k + 3 < 7 →
        ([10, 20, 30, 10, 20, 30, 10] : List Nat)[k + 3]?
          = ([10, 20, 30, 10, 20, 30, 10] : List Nat)[k]?) ∧
      (⟨2, [10, 20, 30], 5, 9⟩ : NumberGeneratorImpl).draws 7
        = some ([10, 20, 30, 10, 20, 30, 10], ⟨0, [10, 20, 30], 5, 9⟩) :=
  ⟨by decide, by decide,
    (draws_cyclic ⟨2, [10, 20, 30], 0, 0⟩ (by decide)).2.2.1 7
      [10, 20, 30, 10, 20, 30, 10] ⟨0, [10, 20, 30], 0, 0⟩ (by decide), by decide⟩

theorem getLargeRandomInt_eq (g g' : NumberGeneratorImpl) (w range : Nat)
    (hw : g.getNumberFromArray = some (w, g')) (hrange : range < 2 ^ 32 - 1) :
    g.getLargeRandomInt range = some (w % (range + 1), g') := by
  have h1 : range % UInt32Size = range := Nat.mod_eq_of_lt (by simp only [UInt32Size]; omega)
  have h2 : (range + 1) % UInt32Size = range + 1 :=
    Nat.mod_eq_of_lt (by simp only [UInt32Size]; omega)
  unfold getLargeRandomInt
  simp only [hw, h1, h2]
  rw [if_neg (by omega)]

/-- C29: for every range smaller than `2^32 - 1` and every generator state with a non-empty
ring, `getLargeRandomInt(range)` makes one draw and returns the drawn word modulo
`range + 1`, a value `r` with `0 ≤ r ≤ range`; the upper bound is inclusive (it is returned
when the drawn word is `range`), unlike that of `getRandomInt(range)`, whose result is
below `range`.  The modulus `range + 1` is computed in 32-bit arithmetic: for the 32-bit
range `2^32 - 1` it is 0 and the remainder is undefined. -/
theorem getLargeRandomInt_inclusive (g : NumberGeneratorImpl) (range : Nat)
    (hring : g._arrayOfRandomNumbers ≠ []) (hrange : range < 2 ^ 32 - 1) :
    ∃ w g', g.getNumberFromArray = some (w, g') ∧
      g.getLargeRandomInt range = some (w % (range + 1), g') ∧
      0 ≤ w % (range + 1) ∧ w % (range + 1) ≤ range ∧
      (w = range → w % (range + 1) = range) ∧
      (0 < range → g.getRandomIntRange range = some (w % range, g') ∧ w % range < range) ∧
      (range % UInt32Size + 1) % UInt32Size = range + 1 ∧
      ((2 ^ 32 - 1) % UInt32Size + 1) % UInt32Size = 0 ∧
      g.getLargeRandomInt (2 ^ 32 - 1) = none := by
  obtain ⟨w, -, hw⟩ := getNumberFromArray_eq g hring
  have hlt : w % (range + 1) < range + 1 := Nat.mod_lt _ (by omega)
  have h1 : range % UInt32Size = range := Nat.mod_eq_of_lt (by simp only [UInt32Size]; omega)
  refine ⟨w, _, hw, getLargeRandomInt_eq g _ w range hw hrange, Nat.zero_le _, by omega, ?_,
    ?_, ?_, by simp [UInt32Size], ?_⟩
  · intro h
    rw [h]
    exact Nat.mod_eq_of_lt (by omega)
  · intro hpos
    refine ⟨?_, Nat.mod_lt _ hpos⟩
    unfold getRandomIntRange
    simp only [hw, h1]
    rw [if_neg (by omega)]
  · rw [h1]
    exact Nat.mod_eq_of_lt (by simp only [UInt32Size]; omega)
  · unfold getLargeRandomInt
    simp [hw, UInt32Size]

/-- Instance of C29: the range 29 on a ring whose next word is 29, and on one whose next
word is 30. -/
theorem getLargeRandomInt_inclusive_witness :
    ((⟨0, [10, 29, 30], 0, 0⟩ : NumberGeneratorImpl)._arrayOfRandomNumbers ≠ [] ∧
        29 < 2 ^ 32 - 1) ∧
      (∃ w g', (⟨0, [10, 29, 30], 0, 0⟩ : NumberGeneratorImpl).getNumberFromArray
          = some (w, g') ∧
        (⟨0, [10, 29, 30], 0, 0⟩ : NumberGeneratorImpl).getLargeRandomInt 29
          = some (w % (29 + 1), g') ∧ w % (29 + 1) ≤ 29) ∧
      (⟨0, [10, 29, 30], 0, 0⟩ : NumberGeneratorImpl).getLargeRandomInt 29
        = some (29, ⟨1, [10, 29, 30], 0, 0⟩) ∧
      (⟨1, [10, 29, 30], 0, 0⟩ : NumberGeneratorImpl).getLargeRandomInt 29
        = some (0, ⟨2, [10, 29, 30], 0, 0⟩) := by
  obtain ⟨w, g', h1, h2, -, h3, -⟩ :=
    getLargeRandomInt_inclusive ⟨0, [10, 29, 30], 0, 0⟩ 29 (by decide) (by decide)
  exact ⟨⟨by decide, by decide⟩, ⟨w, g', h1, h2, h3⟩, by decide, by decide⟩

/-- A call of `getRandomReal(min, max)` whose scaled range converts to a 32-bit value
below `2^32 - 1`. -/
theorem getRandomRealMinMax_eq (g g' : NumberGeneratorImpl) (min max : ℚ) (w : Nat)
    (hw : g.getNumberFromArray = some (w, g'))
    (h0 : 0 ≤ Binary64.round (Binary64.round (max - min) * 1000))
    (hlt : Binary64.round (Binary64.round (max - min) * 1000) < 2 ^ 32 - 1) :
    g.getRandomRealMinMax min max
      = some (Binary64.round (Binary64.round
          (((w % (⌊Binary64.round (Binary64.round (max - min) * 1000)⌋.toNat + 1) : Nat) : ℚ)
            / 1000) + min), g') := by
  have hf0 : 0 ≤ ⌊Binary64.round (Binary64.round (max - min) * 1000)⌋ := Int.floor_nonneg.mpr h0
  have hflt : ⌊Binary64.round (Binary64.round (max - min) * 1000)⌋ < 2 ^ 32 - 1 := by
    rw [Int.floor_lt]
    push_cast
    norm_num at hlt ⊢
    exact hlt
  have hnat : ⌊Binary64.round (Binary64.round (max - min) * 1000)⌋.toNat < 2 ^ 32 - 1 := by
    omega
  unfold getRandomRealMinMax
  simp only
  rw [if_neg (by
    simp only [UInt32Size]
    push_cast
    intro h
    rcases h with h | h <;> linarith),
    getLargeRandomInt_eq g _ w _ hw hnat]

/-- C30 (amended): for all `double`s `min ≤ max` whose `double` product
`round (round (max - min) * 1000)` is below `2^32 - 1` and every generator state with a
non-empty ring, `getRandomReal(min, max)` makes one draw and returns the `double`
`r = round (round (j / 1000) + min)` for the integer `j` that is the drawn word modulo
`R + 1`, `R` being the integral part of that product, so `0 ≤ j ≤ R`.  The result satisfies
`min ≤ r`, differs from `min + j / 1000` by at most half a unit in the last place for each
of the two roundings, and exceeds `max` by at most the errors of the four roundings.  When
none of the four operations rounds, `r = min + j / 1000` with `j ≤ ⌊(max - min) * 1000⌋`
and `r ≤ max`. -/
theorem getRandomRealMinMax_rounded (g : NumberGeneratorImpl) (min max : ℚ)
    (hring : g._arrayOfRandomNumbers ≠ []) (hmin : Binary64.IsDouble min) (hle : min ≤ max)
    (hlt : Binary64.round (Binary64.round (max - min) * 1000) < 2 ^ 32 - 1) :
    ∃ w g' j r, g.getNumberFromArray = some (w, g') ∧
      j = w % (⌊Binary64.round (Binary64.round (max - min) * 1000)⌋.toNat + 1) ∧
      r = Binary64.round (Binary64.round ((j : ℚ) / 1000) + min) ∧
      g.getRandomRealMinMax min max = some (r, g') ∧
      (j : Int) ≤ ⌊Binary64.round (Binary64.round (max - min) * 1000)⌋ ∧
      min ≤ r ∧
      |r - (min + (j : ℚ) / 1000)|
        ≤ Binary64.ulp ((j : ℚ) / 1000) / 2
          + Binary64.ulp (Binary64.round ((j : ℚ) / 1000) + min) / 2 ∧
      r ≤ max + (Binary64.ulp (max - min) / 2
          + Binary64.ulp (Binary64.round (max - min) * 1000) / 2000
          + Binary64.ulp ((j : ℚ) / 1000) / 2
          + Binary64.ulp (Binary64.round ((j : ℚ) / 1000) + min) / 2) ∧
      (Binary64.round (max - min) = max - min →
        Binary64.round ((max - min) * 1000) = (max - min) * 1000 →
        Binary64.round ((j : ℚ) / 1000) = (j : ℚ) / 1000 →
        Binary64.round ((j : ℚ) / 1000 + min) = (j : ℚ) / 1000 + min →
        r = min + (j : ℚ) / 1000 ∧ (j : Int) ≤ ⌊(max - min) * 1000⌋ ∧ r ≤ max) := by
  obtain ⟨w, -, hw⟩ := getNumberFromArray_eq g hring
  have ht1 : 0 ≤ Binary64.round (max - min) := Binary64.round_nonneg _ (by linarith)
  have ht2 : 0 ≤ Binary64.round (Binary64.round (max - min) * 1000) :=
    Binary64.round_nonneg _ (by linarith)
  have hf0 : 0 ≤ ⌊Binary64.round (Binary64.round (max - min) * 1000)⌋ :=
    Int.floor_nonneg.mpr ht2
  have hj : w % (⌊Binary64.round (Binary64.round (max - min) * 1000)⌋.toNat + 1)
      ≤ ⌊Binary64.round (Binary64.round (max - min) * 1000)⌋.toNat :=
    Nat.lt_succ_iff.mp (Nat.mod_lt _ (by omega))
  have hjInt : ((w % (⌊Binary64.round (Binary64.round (max - min) * 1000)⌋.toNat + 1) : Nat)
      : Int) ≤ ⌊Binary64.round (Binary64.round (max - min) * 1000)⌋ := by omega
  generalize hjdef : w % (⌊Binary64.round (Binary64.round (max - min) * 1000)⌋.toNat + 1) = j
    at hj hjInt
  have hjQ : (j : ℚ) ≤ Binary64.round (Binary64.round (max - min) * 1000) := by
    have h1 : ((j : Int) : ℚ)
        ≤ ((⌊Binary64.round (Binary64.round (max - min) * 1000)⌋ : Int) : ℚ) := by
      exact_mod_cast hjInt
    have h2 := Int.floor_le (Binary64.round (Binary64.round (max - min) * 1000))
    have h3 : ((j : Int) : ℚ) = (j : ℚ) := by push_cast; rfl
    linarith
  have hj0 : (0 : ℚ) ≤ (j : ℚ) / 1000 := div_nonneg (Nat.cast_nonneg _) (by norm_num)
  have hq0 : 0 ≤ Binary64.round ((j : ℚ) / 1000) := Binary64.round_nonneg _ hj0
  have hres := getRandomRealMinMax_eq g _ min max w hw ht2 hlt
  rw [hjdef] at hres
  have e1 := abs_le.mp (Binary64.abs_round_sub_le (max - min))
  have e2 := abs_le.mp (Binary64.abs_round_sub_le (Binary64.round (max - min) * 1000))
  have e3 := abs_le.mp (Binary64.abs_round_sub_le ((j : ℚ) / 1000))
  have e4 := abs_le.mp (Binary64.abs_round_sub_le (Binary64.round ((j : ℚ) / 1000) + min))
  refine ⟨w, _, j, _, hw, hjdef.symm, rfl, hres, hjInt, ?_, ?_, ?_, ?_⟩
  · have := Binary64.round_mono min (Binary64.round ((j : ℚ) / 1000) + min) (by linarith)
    rw [hmin.1] at this
    exact this
  · rw [abs_le]
    constructor <;> linarith [e3.1, e3.2, e4.1, e4.2]
  · linarith [e1.2, e2.2, e3.2, e4.2]
  · intro x1 x2 x3 x4
    rw [x3, x4]
    rw [x1, x2] at hjQ hjInt
    refine ⟨by ring, hjInt, ?_⟩
    linarith


/-- The `double` `0x1.df3b645a1cac0p-4`, the greatest `double` below `0.117`. -/
theorem round_below_0117 :
    Binary64.round (8430738502437568 / 2 ^ 56 : ℚ) = 8430738502437568 / 2 ^ 56 := by
  refine Binary64.round_eq _ _ (-4) 8430738502437568 (by norm_num) (by norm_num)
    (Or.inr (by norm_num)) (by norm_num) ?_ (by norm_num)
  exact Binary64.roundHalfEven_eq _ _ (by norm_num) (by norm_num)

/-- The product of `0x1.df3b645a1cac0p-4` and `1000` lies halfway between `117` and the
`double` before it and is rounded to `117`. -/
theorem round_below_0117_scaled :
    Binary64.round ((8430738502437568 / 2 ^ 56 : ℚ) * 1000) = 117 := by
  refine Binary64.round_eq _ _ 6 8233143068786688 (by norm_num) (by norm_num)
    (Or.inr (by norm_num)) (by norm_num) ?_ (by norm_num)
  rw [Binary64.roundHalfEven_tie _ 8233143068786687 (by norm_num)]
  decide

/-- The quotient `117 / 1000.0` is the `double` `0x1.df3b645a1cac1p-4`. -/
theorem round_0117 : Binary64.round ((117 : ℚ) / 1000) = 8430738502437569 / 2 ^ 56 := by
  refine Binary64.round_eq _ _ (-4) 8430738502437569 (by norm_num) (by norm_num)
    (Or.inr (by norm_num)) (by norm_num) ?_ (by norm_num)
  exact Binary64.roundHalfEven_eq _ _ (by norm_num) (by norm_num)

/-- The `double` `0x1.df3b645a1cac1p-4` nearest to `0.117`. -/
theorem round_nearest_0117 :
    Binary64.round (8430738502437569 / 2 ^ 56 : ℚ) = 8430738502437569 / 2 ^ 56 := by
  refine Binary64.round_eq _ _ (-4) 8430738502437569 (by norm_num) (by norm_num)
    (Or.inr (by norm_num)) (by norm_num) ?_ (by norm_num)
  exact Binary64.roundHalfEven_eq _ _ (by norm_num) (by norm_num)

/-- The `double` `0x1.0624dd2e147aep+22` nearest to `4294967.295`; it lies below
`4294967.295`. -/
theorem round_below_limit :
    Binary64.round (2305843008676823 / 2 ^ 29 : ℚ) = 2305843008676823 / 2 ^ 29 := by
  refine Binary64.round_eq _ _ 22 4611686017353646 (by norm_num) (by norm_num)
    (Or.inr (by norm_num)) (by norm_num) ?_ (by norm_num)
  exact Binary64.roundHalfEven_eq _ _ (by norm_num) (by norm_num)

/-- The product of `0x1.0624dd2e147aep+22` and `1000` is rounded up to `2^32 - 1`. -/
theorem round_below_limit_scaled :
    Binary64.round ((2305843008676823 / 2 ^ 29 : ℚ) * 1000) = 4294967295 := by
  refine Binary64.round_eq _ _ 31 9007199252643840 (by norm_num) (by norm_num)
    (Or.inr (by norm_num)) (by norm_num) ?_ (by norm_num)
  exact Binary64.roundHalfEven_eq _ _ (by norm_num) (by norm_num)

/-- The numbers `1`, `2` and `2000` are `double`s. -/
theorem round_small : Binary64.round 1 = 1 ∧ Binary64.round 2 = 2
    ∧ Binary64.round 2000 = 2000 := by
  refine ⟨?_, ?_, ?_⟩
  · refine Binary64.round_eq _ _ 0 4503599627370496 (by norm_num) (by norm_num)
      (Or.inr (by norm_num)) (by norm_num) ?_ (by norm_num)
    exact Binary64.roundHalfEven_eq _ _ (by norm_num) (by norm_num)
  · refine Binary64.round_eq _ _ 1 4503599627370496 (by norm_num) (by norm_num)
      (Or.inr (by norm_num)) (by norm_num) ?_ (by norm_num)
    exact Binary64.roundHalfEven_eq _ _ (by norm_num) (by norm_num)
  · refine Binary64.round_eq _ _ 10 8796093022208000 (by norm_num) (by norm_num)
      (Or.inr (by norm_num)) (by norm_num) ?_ (by norm_num)
    exact Binary64.roundHalfEven_eq _ _ (by norm_num) (by norm_num)

/-- Instance of C30 (amended): a real from `1` to `3` from a ring whose next word is
2500. -/
theorem getRandomRealMinMax_rounded_witness :
    ((⟨0, [10, 2500, 30], 0, 0⟩ : NumberGeneratorImpl)._arrayOfRandomNumbers ≠ [] ∧
        Binary64.IsDouble 1 ∧ (1 : ℚ) ≤ 3 ∧
        Binary64.round (Binary64.round ((3 : ℚ) - 1) * 1000) < 2 ^ 32 - 1) ∧
      ∃ w g' j r, (⟨0, [10, 2500, 30], 0, 0⟩ : NumberGeneratorImpl).getNumberFromArray
          = some (w, g') ∧
        j = w % (⌊Binary64.round (Binary64.round ((3 : ℚ) - 1) * 1000)⌋.toNat + 1) ∧
        r = Binary64.round (Binary64.round ((j : ℚ) / 1000) + 1) ∧
        (⟨0, [10, 2500, 30], 0, 0⟩ : NumberGeneratorImpl).getRandomRealMinMax 1 3
          = some (r, g') ∧
        (j : Int) ≤ ⌊Binary64.round (Binary64.round ((3 : ℚ) - 1) * 1000)⌋ ∧
        1 ≤ r ∧
        |r - (1 + (j : ℚ) / 1000)|
          ≤ Binary64.ulp ((j : ℚ) / 1000) / 2
            + Binary64.ulp (Binary64.round ((j : ℚ) / 1000) + 1) / 2 ∧
        r ≤ 3 + (Binary64.ulp ((3 : ℚ) - 1) / 2
            + Binary64.ulp (Binary64.round ((3 : ℚ) - 1) * 1000) / 2000
            + Binary64.ulp ((j : ℚ) / 1000) / 2
            + Binary64.ulp (Binary64.round ((j : ℚ) / 1000) + 1) / 2) ∧
        (Binary64.round ((3 : ℚ) - 1) = 3 - 1 →
          Binary64.round (((3 : ℚ) - 1) * 1000) = (3 - 1) * 1000 →
          Binary64.round ((j : ℚ) / 1000) = (j : ℚ) / 1000 →
          Binary64.round ((j : ℚ) / 1000 + 1) = (j : ℚ) / 1000 + 1 →
          r = 1 + (j : ℚ) / 1000 ∧ (j : Int) ≤ ⌊((3 : ℚ) - 1) * 1000⌋ ∧ r ≤ 3) := by
  have h1 : Binary64.IsDouble 1 := ⟨round_small.1, by norm_num⟩
  have h2 : (1 : ℚ) ≤ 3 := by norm_num
  have h3 : Binary64.round (Binary64.round ((3 : ℚ) - 1) * 1000) < 2 ^ 32 - 1 := by
    rw [show (3 : ℚ) - 1 = 2 by norm_num, round_small.2.1,
      show (2 : ℚ) * 1000 = 2000 by norm_num, round_small.2.2]
    norm_num
  exact ⟨⟨by decide, h1, h2, h3⟩,
    getRandomRealMinMax_rounded ⟨0, [10, 2500, 30], 0, 0⟩ 1 3 (by decide) h1 h2 h3⟩

/-- Counterexample to C30 as stated, at two inputs that satisfy its conditions.  For
`min = 0`, `max = 0x1.df3b645a1cac0p-4` (the greatest `double` below `0.117`) and a ring
whose next word is 117, the product `(max - min) * 1000` is `116.999...` in exact
arithmetic, with floor 116, but is rounded to the `double` `117`; the modulus is 118, `j`
is 117 and the result is the `double` nearest to `0.117`, which is greater than `max` and
is not of the form `min + j / 1000`.  For `min = 0` and `max = 0x1.0624dd2e147aep+22` (the
`double` nearest to `4294967.295`) the product is below `2^32 - 1` in exact arithmetic but
is rounded to `2^32 - 1`; the modulus `range + 1` is 0 in 32-bit arithmetic and the
remainder is undefined. -/
theorem getRandomRealMinMax_in_range_counterexample :
    (Binary64.IsDouble 0 ∧ Binary64.IsDouble (8430738502437568 / 2 ^ 56) ∧
      (0 : ℚ) ≤ 8430738502437568 / 2 ^ 56 ∧
      ((8430738502437568 / 2 ^ 56 : ℚ) - 0) * 1000 < 2 ^ 32 - 1 ∧
      (⟨0, [0, 117], 0, 0⟩ : NumberGeneratorImpl)._arrayOfRandomNumbers ≠ [] ∧
      ⌊((8430738502437568 / 2 ^ 56 : ℚ) - 0) * 1000⌋ = 116 ∧
      (⟨0, [0, 117], 0, 0⟩ : NumberGeneratorImpl).getRandomRealMinMax 0
          (8430738502437568 / 2 ^ 56)
        = some (8430738502437569 / 2 ^ 56, ⟨1, [0, 117], 0, 0⟩) ∧
      (8430738502437568 / 2 ^ 56 : ℚ) < 8430738502437569 / 2 ^ 56 ∧
      ¬ ∃ j : Nat, (8430738502437569 / 2 ^ 56 : ℚ) = 0 + (j : ℚ) / 1000) ∧
    (Binary64.IsDouble (2305843008676823 / 2 ^ 29) ∧
      (0 : ℚ) ≤ 2305843008676823 / 2 ^ 29 ∧
      ((2305843008676823 / 2 ^ 29 : ℚ) - 0) * 1000 < 2 ^ 32 - 1 ∧
      (⟨0, [0, 117], 0, 0⟩ : NumberGeneratorImpl).getRandomRealMinMax 0
          (2305843008676823 / 2 ^ 29) = none) := by
  have hw : (⟨0, [0, 117], 0, 0⟩ : NumberGeneratorImpl).getNumberFromArray
      = some (117, ⟨1, [0, 117], 0, 0⟩) := by decide
  have hscaled : Binary64.round (Binary64.round ((8430738502437568 / 2 ^ 56 : ℚ) - 0) * 1000)
      = 117 := by
    rw [sub_zero, round_below_0117, round_below_0117_scaled]
  have hlimit : Binary64.round (Binary64.round ((2305843008676823 / 2 ^ 29 : ℚ) - 0) * 1000)
      = 4294967295 := by
    rw [sub_zero, round_below_limit, round_below_limit_scaled]
  refine ⟨⟨⟨Binary64.round_zero, by norm_num⟩,
    ⟨round_below_0117, abs_lt.mpr ⟨by norm_num, by norm_num⟩⟩, by norm_num,
    by norm_num, by decide, ?_, ?_, by norm_num, ?_⟩,
    ⟨round_below_limit, abs_lt.mpr ⟨by norm_num, by norm_num⟩⟩, by norm_num, by norm_num, ?_⟩
  · rw [Int.floor_eq_iff]
    norm_num
  · rw [getRandomRealMinMax_eq _ _ 0 _ 117 hw (by rw [hscaled]; norm_num)
      (by rw [hscaled]; norm_num), hscaled]
    have hj : ((117 % (⌊(117 : ℚ)⌋.toNat + 1) : Nat) : ℚ) = 117 := by
      have h1 : ⌊(117 : ℚ)⌋ = 117 := by
        rw [Int.floor_eq_iff]
        norm_num
      have h2 : ⌊(117 : ℚ)⌋.toNat = 117 := by
        rw [h1]
        rfl
      rw [h2]
      norm_num
    rw [hj, round_0117, add_zero, round_nearest_0117]
  · rintro ⟨j, hj⟩
    have h1 : (j : ℚ) * 2 ^ 56 = 8430738502437569 * 1000 := by
      field_simp at hj
      linarith
    have h2 : j * 2 ^ 56 = 8430738502437569 * 1000 := by exact_mod_cast h1
    omega
  · have hfloor : ⌊(4294967295 : ℚ)⌋.toNat = 4294967295 := by
      have h1 : ⌊(4294967295 : ℚ)⌋ = 4294967295 := by
        rw [Int.floor_eq_iff]
        norm_num
      rw [h1]
      rfl
    unfold getRandomRealMinMax
    simp only [hlimit]
    rw [if_neg (by simp only [UInt32Size]; norm_num), hfloor]
    unfold getLargeRandomInt
    simp only [hw, UInt32Size]
    rfl

end NumberGeneratorImpl

/-! ## ModelBuilderFacadeImpl: symmetry and distinctness of the neighbours, registration
order -/

namespace ModelBuilderFacadeImpl

theorem deltaOf_opposite (location : RelativeLocation) :
    (deltaOf location.opposite).x = -(deltaOf location).x ∧
      (deltaOf location.opposite).y = -(deltaOf location).y := by
  cases location <;> simp [deltaOf, RelativeLocation.opposite]

theorem wrap_iff (x x' d g : Int) (hx0 : 0 ≤ x) (hx : x < g) (hx0' : 0 ≤ x') (hx' : x' < g) :
    (x + d) % g = x' ↔ (x' + -d) % g = x := by
  constructor
  · intro h
    rw [← h, Int.emod_add_emod, show x + d + -d = x by ring]
    exact Int.emod_eq_of_lt hx0 hx
  · intro h
    rw [← h, Int.emod_add_emod, show x' + -d + d = x' by ring]
    exact Int.emod_eq_of_lt hx0' hx'

/-- The units registered with the thread controller are the units built for the grid
positions, in the order of the loops. -/
theorem threads_eq (entropy : Nat → Nat) (gridSize : IntVector2D) :
    (buildSimulationController entropy gridSize).threads
      = (gridPositions gridSize).map (unitAt entropy gridSize) := by
  simp only [buildSimulationController, registerUnits_eq, List.nil_append]

/-- A registration of a neighbour for the unit at a position inside the grid is among the
registrations exactly when the neighbour is the unit at the wrapped position. -/
theorem registered_iff (entropy : Nat → Nat) (gx gy x y : Int) (location : RelativeLocation)
    (B : Unit) (hx0 : 0 ≤ x) (hx : x < gx) (hy0 : 0 ≤ y) (hy : y < gy) :
    ({ unit := some (unitAt entropy ⟨gx, gy⟩ ⟨x, y⟩), location := location, neighbor := some B }
        : NeighborRegistration) ∈ (buildSimulationController entropy ⟨gx, gy⟩).neighbors
      ↔ B = unitAt entropy ⟨gx, gy⟩
          ⟨(x + (deltaOf location).x) % gx, (y + (deltaOf location).y) % gy⟩ := by
  have hin : (⟨x, y⟩ : IntVector2D) ∈ gridPositions ⟨gx, gy⟩ := by
    rw [mem_gridPositions]; exact ⟨hx0, hx, hy0, hy⟩
  rw [mem_neighbors]
  constructor
  · rintro ⟨p, hp, location', hr⟩
    rw [getUnitOfGridPos_controller, if_pos hp] at hr
    simp only [NeighborRegistration.mk.injEq, Option.some.injEq] at hr
    obtain ⟨hunit, hloc, hnb⟩ := hr
    have hpq := unitAt_injective entropy ⟨gx, gy⟩ _ _ hunit
    subst hpq
    subst hloc
    rw [getContextFromDelta_controller entropy gx gy x y location hx0 hx hy0 hy] at hnb
    exact Option.some.inj hnb
  · intro hB
    refine ⟨⟨x, y⟩, hin, location, ?_⟩
    rw [getUnitOfGridPos_controller, if_pos hin,
      getContextFromDelta_controller entropy gx gy x y location hx0 hx hy0 hy, hB]

theorem wrapped_eq_iff (gx gy x y bx b_y : Int) (location : RelativeLocation)
    (hx0 : 0 ≤ x) (hx : x < gx) (hy0 : 0 ≤ y) (hy : y < gy)
    (hbx0 : 0 ≤ bx) (hbx : bx < gx) (hby0 : 0 ≤ b_y) (hby : b_y < gy) :
    (⟨bx, b_y⟩ : IntVector2D)
        = ⟨(x + (deltaOf location).x) % gx, (y + (deltaOf location).y) % gy⟩
      ↔ (⟨x, y⟩ : IntVector2D)
        = ⟨(bx + (deltaOf location.opposite).x) % gx,
           (b_y + (deltaOf location.opposite).y) % gy⟩ := by
  obtain ⟨ox, oy⟩ := deltaOf_opposite location
  rw [ox, oy]
  simp only [IntVector2D.mk.injEq]
  have h1 := wrap_iff x bx (deltaOf location).x gx hx0 hx hbx0 hbx
  have h2 := wrap_iff y b_y (deltaOf location).y gy hy0 hy hby0 hby
  constructor
  · rintro ⟨e1, e2⟩
    exact ⟨(h1.1 e1.symm).symm, (h2.1 e2.symm).symm⟩
  · rintro ⟨e1, e2⟩
    exact ⟨(h1.2 e1.symm).symm, (h2.2 e2.symm).symm⟩

/-- C27: neighbour registration is symmetric.  For every grid size and every two units `A`
and `B` of the controller, `B` is registered as the neighbour of `A` at the relative
location `L` if and only if `A` is registered as the neighbour of `B` at the opposite
location (Left/Right, Upper/Lower, UpperLeft/LowerRight, UpperRight/LowerLeft); the same
holds for the neighbour looked up for a unit and a location. -/
theorem neighbors_symmetric (entropy : Nat → Nat) (gridSize : IntVector2D) (A B : Unit)
    (location : RelativeLocation)
    (hA : A ∈ (buildSimulationController entropy gridSize).threads)
    (hB : B ∈ (buildSimulationController entropy gridSize).threads) :
    ((({ unit := some A, location := location, neighbor := some B } : NeighborRegistration)
        ∈ (buildSimulationController entropy gridSize).neighbors)
      ↔ (({ unit := some B, location := location.opposite, neighbor := some A }
          : NeighborRegistration) ∈ (buildSimulationController entropy gridSize).neighbors)) ∧
    (neighborOf (buildSimulationController entropy gridSize) A.gridPos location = some B
      ↔ neighborOf (buildSimulationController entropy gridSize) B.gridPos location.opposite
          = some A) ∧
    (RelativeLocation.opposite .Left = .Right ∧ RelativeLocation.opposite .Right = .Left ∧
      RelativeLocation.opposite .Upper = .Lower ∧ RelativeLocation.opposite .Lower = .Upper ∧
      RelativeLocation.opposite .UpperLeft = .LowerRight ∧
      RelativeLocation.opposite .LowerRight = .UpperLeft ∧
      RelativeLocation.opposite .UpperRight = .LowerLeft ∧
      RelativeLocation.opposite .LowerLeft = .UpperRight) := by
  rw [threads_eq, List.mem_map] at hA hB
  obtain ⟨a, ha, rfl⟩ := hA
  obtain ⟨b, hb, rfl⟩ := hB
  obtain ⟨gx, gy⟩ := gridSize
  obtain ⟨ax, ay⟩ := a
  obtain ⟨bx, b_y⟩ := b
  rw [mem_gridPositions] at ha hb
  obtain ⟨hax0, hax, hay0, hay⟩ := ha
  obtain ⟨hbx0, hbx, hby0, hby⟩ := hb
  simp only at hax0 hax hay0 hay hbx0 hbx hby0 hby
  have hpos := wrapped_eq_iff gx gy ax ay bx b_y location hax0 hax hay0 hay hbx0 hbx hby0 hby
  have hinj : ∀ p q : IntVector2D,
      unitAt entropy ⟨gx, gy⟩ p = unitAt entropy ⟨gx, gy⟩ q ↔ p = q :=
    fun p q => ⟨unitAt_injective entropy ⟨gx, gy⟩ p q, fun h => by rw [h]⟩
  refine ⟨?_, ?_, ⟨rfl, rfl, rfl, rfl, rfl, rfl, rfl, rfl⟩⟩
  · rw [registered_iff entropy gx gy ax ay location _ hax0 hax hay0 hay,
      registered_iff entropy gx gy bx b_y location.opposite _ hbx0 hbx hby0 hby, hinj, hinj]
    exact hpos
  · have e1 : (unitAt entropy ⟨gx, gy⟩ ⟨ax, ay⟩).gridPos = ⟨ax, ay⟩ := rfl
    have e2 : (unitAt entropy ⟨gx, gy⟩ ⟨bx, b_y⟩).gridPos = ⟨bx, b_y⟩ := rfl
    rw [e1, e2, neighborOf_controller entropy gx gy ax ay location hax0 hax hay0 hay,
      neighborOf_controller entropy gx gy bx b_y location.opposite hbx0 hbx hby0 hby]
    simp only [Option.some.injEq]
    rw [hinj, hinj]
    constructor
    · intro h
      exact (hpos.1 h.symm).symm
    · intro h
      exact (hpos.2 h.symm).symm

theorem unitAt_mem_threads (entropy : Nat → Nat) (gx gy x y : Int)
    (hx0 : 0 ≤ x) (hx : x < gx) (hy0 : 0 ≤ y) (hy : y < gy) :
    unitAt entropy ⟨gx, gy⟩ ⟨x, y⟩ ∈ (buildSimulationController entropy ⟨gx, gy⟩).threads := by
  rw [threads_eq, List.mem_map]
  exact ⟨⟨x, y⟩, (mem_gridPositions _ _).2 ⟨hx0, hx, hy0, hy⟩, rfl⟩

/-- Instance of C27: in a `2 × 3` grid the unit at `(1, 2)` is the upper-left neighbour of
the unit at `(0, 0)`, which is the lower-right neighbour of the unit at `(1, 2)`. -/
theorem neighbors_symmetric_witness :
    (unitAt (fun i => i) ⟨2, 3⟩ ⟨0, 0⟩
          ∈ (buildSimulationController (fun i => i) ⟨2, 3⟩).threads ∧
        unitAt (fun i => i) ⟨2, 3⟩ ⟨1, 2⟩
          ∈ (buildSimulationController (fun i => i) ⟨2, 3⟩).threads) ∧
      neighborOf (buildSimulationController (fun i => i) ⟨2, 3⟩) ⟨0, 0⟩ .UpperLeft
        = some (unitAt (fun i => i) ⟨2, 3⟩ ⟨1, 2⟩) ∧
      neighborOf (buildSimulationController (fun i => i) ⟨2, 3⟩) ⟨1, 2⟩ .LowerRight
        = some (unitAt (fun i => i) ⟨2, 3⟩ ⟨0, 0⟩) := by
  have hA := unitAt_mem_threads (fun i => i) 2 3 0 0 (by decide) (by decide) (by decide)
    (by decide)
  have hB := unitAt_mem_threads (fun i => i) 2 3 1 2 (by decide) (by decide) (by decide)
    (by decide)
  have h1 : neighborOf (buildSimulationController (fun i => i) ⟨2, 3⟩) ⟨0, 0⟩ .UpperLeft
      = some (unitAt (fun i => i) ⟨2, 3⟩ ⟨1, 2⟩) :=
    neighborOf_controller (fun i => i) 2 3 0 0 .UpperLeft (by decide) (by decide) (by decide)
      (by decide)
  exact ⟨⟨hA, hB⟩, h1,
    (neighbors_symmetric (fun i => i) ⟨2, 3⟩ _ _ .UpperLeft hA hB).2.1.1 h1⟩

theorem wrap_succ (x g : Int) (hx0 : 0 ≤ x) (hx : x < g) :
    (x + 1) % g = if x + 1 = g then 0 else x + 1 := by
  split
  · rename_i h
    rw [h]
    exact Int.emod_self
  · exact Int.emod_eq_of_lt (by omega) (by omega)

theorem wrap_pred (x g : Int) (hx0 : 0 ≤ x) (hx : x < g) :
    (x + -1) % g = if x = 0 then g - 1 else x - 1 := by
  split
  · rename_i h
    rw [h, show (0 : Int) + -1 = (g - 1) + -1 * g by ring, Int.add_mul_emod_self]
    exact Int.emod_eq_of_lt (by omega) (by omega)
  · rw [show x + -1 = x - 1 by ring]
    exact Int.emod_eq_of_lt (by omega) (by omega)

/-- The three wrapped coordinates `x - 1`, `x`, `x + 1` are pairwise different exactly in
a grid of side 3 or more. -/
theorem wrap_distinct (x g : Int) (hx0 : 0 ≤ x) (hx : x < g) (hg : 3 ≤ g) :
    (x + -1) % g ≠ (x + 0) % g ∧ (x + 1) % g ≠ (x + 0) % g ∧ (x + -1) % g ≠ (x + 1) % g := by
  rw [wrap_succ x g hx0 hx, wrap_pred x g hx0 hx, Int.add_zero, Int.emod_eq_of_lt hx0 hx]
  refine ⟨?_, ?_, ?_⟩ <;> split_ifs <;> omega

theorem neighborOf_eq_iff (entropy : Nat → Nat) (gx gy x y : Int)
    (location location' : RelativeLocation)
    (hx0 : 0 ≤ x) (hx : x < gx) (hy0 : 0 ≤ y) (hy : y < gy) :
    neighborOf (buildSimulationController entropy ⟨gx, gy⟩) ⟨x, y⟩ location
        = neighborOf (buildSimulationController entropy ⟨gx, gy⟩) ⟨x, y⟩ location'
      ↔ (x + (deltaOf location).x) % gx = (x + (deltaOf location').x) % gx ∧
        (y + (deltaOf location).y) % gy = (y + (deltaOf location').y) % gy := by
  rw [neighborOf_controller entropy gx gy x y location hx0 hx hy0 hy,
    neighborOf_controller entropy gx gy x y location' hx0 hx hy0 hy]
  simp only [Option.some.injEq]
  constructor
  · intro h
    have := unitAt_injective entropy ⟨gx, gy⟩ _ _ h
    simpa only [IntVector2D.mk.injEq] using this
  · rintro ⟨h1, h2⟩
    rw [h1, h2]

theorem neighborOf_eq_self_iff (entropy : Nat → Nat) (gx gy x y : Int)
    (location : RelativeLocation)
    (hx0 : 0 ≤ x) (hx : x < gx) (hy0 : 0 ≤ y) (hy : y < gy) :
    neighborOf (buildSimulationController entropy ⟨gx, gy⟩) ⟨x, y⟩ location
        = some (unitAt entropy ⟨gx, gy⟩ ⟨x, y⟩)
      ↔ (x + (deltaOf location).x) % gx = (x + 0) % gx ∧
        (y + (deltaOf location).y) % gy = (y + 0) % gy := by
  rw [neighborOf_controller entropy gx gy x y location hx0 hx hy0 hy, Int.add_zero,
    Int.add_zero, Int.emod_eq_of_lt hx0 hx, Int.emod_eq_of_lt hy0 hy]
  simp only [Option.some.injEq]
  constructor
  · intro h
    have := unitAt_injective entropy ⟨gx, gy⟩ _ _ h
    simpa only [IntVector2D.mk.injEq] using this
  · rintro ⟨h1, h2⟩
    rw [h1, h2]

/-- C28: for a unit inside a grid, the eight neighbours registered for it are pairwise
different units and all different from the unit itself if and only if `gridSize.x ≥ 3` and
`gridSize.y ≥ 3`; in a `1 × 1` grid every one of the eight neighbours is the unit itself,
and with `gridSize.x = 2` the Left and the Right neighbour are the same unit. -/
theorem neighbors_distinct_iff (entropy : Nat → Nat) (gx gy x y : Int)
    (hx0 : 0 ≤ x) (hx : x < gx) (hy0 : 0 ≤ y) (hy : y < gy) :
    (((∀ location, neighborOf (buildSimulationController entropy ⟨gx, gy⟩) ⟨x, y⟩ location
          ≠ some (unitAt entropy ⟨gx, gy⟩ ⟨x, y⟩)) ∧
        (∀ location location', location ≠ location' →
          neighborOf (buildSimulationController entropy ⟨gx, gy⟩) ⟨x, y⟩ location
            ≠ neighborOf (buildSimulationController entropy ⟨gx, gy⟩) ⟨x, y⟩ location'))
      ↔ (3 ≤ gx ∧ 3 ≤ gy)) ∧
    (gx = 1 → gy = 1 → ∀ location,
      neighborOf (buildSimulationController entropy ⟨gx, gy⟩) ⟨x, y⟩ location
        = some (unitAt entropy ⟨gx, gy⟩ ⟨x, y⟩)) ∧
    (gx = 2 →
      neighborOf (buildSimulationController entropy ⟨gx, gy⟩) ⟨x, y⟩ .Left
        = neighborOf (buildSimulationController entropy ⟨gx, gy⟩) ⟨x, y⟩ .Right) := by
  have hself := fun location =>
    neighborOf_eq_self_iff entropy gx gy x y location hx0 hx hy0 hy
  have hpair := fun location location' =>
    neighborOf_eq_iff entropy gx gy x y location location' hx0 hx hy0 hy
  have hsx := wrap_succ x gx hx0 hx
  have hpx := wrap_pred x gx hx0 hx
  have hsy := wrap_succ y gy hy0 hy
  have hpy := wrap_pred y gy hy0 hy
  have hzx : (x + 0) % gx = x := by rw [Int.add_zero]; exact Int.emod_eq_of_lt hx0 hx
  have hzy : (y + 0) % gy = y := by rw [Int.add_zero]; exact Int.emod_eq_of_lt hy0 hy
  refine ⟨⟨?_, ?_⟩, ?_, ?_⟩
  · rintro ⟨h1, h2⟩
    by_contra hsmall
    have hcases : gx = 1 ∨ gx = 2 ∨ gy = 1 ∨ gy = 2 := by omega
    rcases hcases with hg | hg | hg | hg
    · apply h1 .Left
      rw [hself]
      refine ⟨?_, rfl⟩
      show (x + -1) % gx = (x + 0) % gx
      rw [hpx, hzx]
      split_ifs <;> omega
    · apply h2 .Left .Right (by decide)
      rw [hpair]
      refine ⟨?_, rfl⟩
      show (x + -1) % gx = (x + 1) % gx
      rw [hpx, hsx]
      split_ifs <;> omega
    · apply h1 .Upper
      rw [hself]
      refine ⟨rfl, ?_⟩
      show (y + -1) % gy = (y + 0) % gy
      rw [hpy, hzy]
      split_ifs <;> omega
    · apply h2 .Upper .Lower (by decide)
      rw [hpair]
      refine ⟨rfl, ?_⟩
      show (y + -1) % gy = (y + 1) % gy
      rw [hpy, hsy]
      split_ifs <;> omega
  · rintro ⟨h3x, h3y⟩
    obtain ⟨dx1, dx2, dx3⟩ := wrap_distinct x gx hx0 hx h3x
    obtain ⟨dy1, dy2, dy3⟩ := wrap_distinct y gy hy0 hy h3y
    constructor
    · intro location h
      rw [hself] at h
      cases location <;>
        first
          | exact dx1 h.1
          | exact dx2 h.1
          | exact dy1 h.2
          | exact dy2 h.2
    · intro location location' hne h
      rw [hpair] at h
      cases location <;> cases location' <;>
        first
          | exact hne rfl
          | exact dx1 h.1
          | exact dx1 h.1.symm
          | exact dx2 h.1
          | exact dx2 h.1.symm
          | exact dx3 h.1
          | exact dx3 h.1.symm
          | exact dy1 h.2
          | exact dy1 h.2.symm
          | exact dy2 h.2
          | exact dy2 h.2.symm
          | exact dy3 h.2
          | exact dy3 h.2.symm
  · intro h1x h1y location
    rw [hself]
    have ex : ∀ d : Int, (x + d) % gx = (x + 0) % gx := by
      intro d; rw [h1x]; simp [Int.emod_one]
    have ey : ∀ d : Int, (y + d) % gy = (y + 0) % gy := by
      intro d; rw [h1y]; simp [Int.emod_one]
    exact ⟨ex _, ey _⟩
  · intro h2x
    rw [hpair]
    refine ⟨?_, rfl⟩
    show (x + -1) % gx = (x + 1) % gx
    rw [hpx, hsx]
    split_ifs <;> omega

/-- Instance of C28: the unit at `(0, 0)` of a `3 × 3` grid. -/
theorem neighbors_distinct_iff_witness :
    ((0 : Int) ≤ 0 ∧ (0 : Int) < 3 ∧ (0 : Int) ≤ 0 ∧ (0 : Int) < 3) ∧
      (∀ location, neighborOf (buildSimulationController (fun i => i) ⟨3, 3⟩) ⟨0, 0⟩ location
        ≠ some (unitAt (fun i => i) ⟨3, 3⟩ ⟨0, 0⟩)) ∧
      (∀ location location', location ≠ location' →
        neighborOf (buildSimulationController (fun i => i) ⟨3, 3⟩) ⟨0, 0⟩ location
          ≠ neighborOf (buildSimulationController (fun i => i) ⟨3, 3⟩) ⟨0, 0⟩ location') :=
  ⟨by decide,
    (neighbors_distinct_iff (fun i => i) 3 3 0 0 (by decide) (by decide) (by decide)
      (by decide)).1.2 ⟨by decide, by decide⟩⟩

theorem gridPositions_length (gx gy : Nat) :
    (gridPositions ⟨gx, gy⟩).length = gx * gy := by
  unfold gridPositions
  simp only [Int.toNat_ofNat]
  induction gx with
  | zero => simp
  | succ n ih =>
    rw [List.range_succ, List.flatMap_append, List.length_append, ih]
    simp [Nat.succ_mul]

/-- The position visited by the loops at step `i * gy + j`. -/
theorem gridPositions_getElem (gx gy i j : Nat) (hi : i < gx) (hj : j < gy) :
    (gridPositions ⟨gx, gy⟩)[i * gy + j]? = some ⟨i, j⟩ := by
  induction gx with
  | zero => omega
  | succ n ih =>
    have hlen := gridPositions_length n gy
    unfold gridPositions at ih hlen ⊢
    simp only [Int.toNat_ofNat] at ih hlen ⊢
    rw [List.range_succ, List.flatMap_append]
    by_cases hin : i < n
    · have hlt : i * gy + j < n * gy := by
        have : (i + 1) * gy ≤ n * gy := Nat.mul_le_mul_right gy hin
        rw [Nat.succ_mul] at this
        omega
      rw [List.getElem?_append_left (by rw [hlen]; exact hlt)]
      exact ih hin
    · have hin' : i = n := by omega
      subst hin'
      rw [List.getElem?_append_right (by rw [hlen]; omega), hlen]
      simp only [Nat.add_sub_cancel_left, List.flatMap_singleton]
      rw [List.getElem?_map, List.getElem?_range hj]
      rfl

/-- The unit registered with the thread controller at step `i * gy + j` of the loops. -/
theorem threads_getElem (entropy : Nat → Nat) (gx gy i j : Nat) (hi : i < gx) (hj : j < gy) :
    (buildSimulationController entropy ⟨gx, gy⟩).threads[i * gy + j]?
      = some (unitAt entropy ⟨gx, gy⟩ ⟨i, j⟩) := by
  rw [threads_eq, List.getElem?_map, gridPositions_getElem gx gy i j hi hj]
  rfl

/-- C23 (amended): `buildSimulationController` registers the units with the thread
controller in the order of its loops, `x` outer and `y` inner: for every grid size, the
unit at grid position `(x, y)` is the unit registered at place `x * gridSize.y + y` (counted
from 0) of `gridSize.x * gridSize.y` places, while its unit index, its shard number minus
one, is `x + y * gridSize.x` (for grids of at most 65535 units); the place `x + y *
gridSize.x` holds the unit exactly when both numbers are equal. -/
theorem registerUnit_order (entropy : Nat → Nat) (gx gy x y : Int)
    (hx0 : 0 ≤ x) (hx : x < gx) (hy0 : 0 ≤ y) (hy : y < gy) :
    (buildSimulationController entropy ⟨gx, gy⟩).threads[(x * gy + y).toNat]?
        = some (unitAt entropy ⟨gx, gy⟩ ⟨x, y⟩) ∧
      ((buildSimulationController entropy ⟨gx, gy⟩).threads.length : Int) = gx * gy ∧
      (gx * gy ≤ 65535 →
        ((unitAt entropy ⟨gx, gy⟩ ⟨x, y⟩).threadId : Int) - 1 = x + y * gx) ∧
      ((buildSimulationController entropy ⟨gx, gy⟩).threads[(x + y * gx).toNat]?
          = some (unitAt entropy ⟨gx, gy⟩ ⟨x, y⟩)
        ↔ x + y * gx = x * gy + y) := by
  obtain ⟨n, rfl⟩ := Int.eq_ofNat_of_zero_le (show 0 ≤ gx by omega)
  obtain ⟨m, rfl⟩ := Int.eq_ofNat_of_zero_le (show 0 ≤ gy by omega)
  obtain ⟨i, rfl⟩ := Int.eq_ofNat_of_zero_le hx0
  obtain ⟨j, rfl⟩ := Int.eq_ofNat_of_zero_le hy0
  have hi : i < n := by exact_mod_cast hx
  have hj : j < m := by exact_mod_cast hy
  have hplace : ((i : Int) * (m : Int) + (j : Int)).toNat = i * m + j := by
    have : ((i : Int) * (m : Int) + (j : Int)) = ((i * m + j : Nat) : Int) := by push_cast; rfl
    rw [this, Int.toNat_ofNat]
  have hrow : ((i : Int) + (j : Int) * (n : Int)).toNat = i + j * n := by
    have : ((i : Int) + (j : Int) * (n : Int)) = ((i + j * n : Nat) : Int) := by push_cast; rfl
    rw [this, Int.toNat_ofNat]
  refine ⟨?_, ?_, ?_, ?_⟩
  · rw [hplace]
    exact threads_getElem entropy n m i j hi hj
  · rw [threads_eq, List.length_map, gridPositions_length]
    push_cast
    rfl
  · intro hsize
    have := (threadIdOf_eq n m i j hx0 hx hy0 hy hsize).1
    have e : (unitAt entropy ⟨n, m⟩ ⟨i, j⟩).threadId = threadIdOf ⟨n, m⟩ ⟨i, j⟩ := rfl
    rw [e, this]
    ring
  · rw [hrow]
    constructor
    · intro h
      have hlt : i + j * n < n * m := by
        have h1 := List.getElem?_eq_some_iff.1 h
        obtain ⟨hlen, -⟩ := h1
        rw [threads_eq, List.length_map, gridPositions_length] at hlen
        exact hlen
      have hm : 0 < m := by omega
      have hq : (i + j * n) / m < n := by
        rw [Nat.div_lt_iff_lt_mul hm]
        exact hlt
      have hr : (i + j * n) % m < m := Nat.mod_lt _ hm
      have hk := threads_getElem entropy n m ((i + j * n) / m) ((i + j * n) % m) hq hr
      rw [Nat.mul_comm, Nat.div_add_mod] at hk
      rw [h] at hk
      have hpos := unitAt_injective entropy ⟨n, m⟩ _ _ (Option.some.inj hk)
      simp only [IntVector2D.mk.injEq] at hpos
      have h1 : i = (i + j * n) / m := by exact_mod_cast hpos.1
      have h2 : j = (i + j * n) % m := by exact_mod_cast hpos.2
      have h3 := Nat.div_add_mod (i + j * n) m
      rw [← h1, ← h2] at h3
      have : (i + j * n : Nat) = i * m + j := by rw [Nat.mul_comm i m]; exact h3.symm
      exact_mod_cast this
    · intro h
      have : i + j * n = i * m + j := by exact_mod_cast h
      rw [this]
      exact threads_getElem entropy n m i j hi hj

/-- Instance of C23 (amended): the unit at `(1, 0)` of a `2 × 3` grid is registered at
place 3. -/
theorem registerUnit_order_witness :
    ((0 : Int) ≤ 1 ∧ (1 : Int) < 2 ∧ (0 : Int) ≤ 0 ∧ (0 : Int) < 3) ∧
      (buildSimulationController (fun i => i) ⟨2, 3⟩).threads[3]?
        = some (unitAt (fun i => i) ⟨2, 3⟩ ⟨1, 0⟩) ∧
      ((buildSimulationController (fun i => i) ⟨2, 3⟩).threads.length : Int) = 2 * 3 :=
  ⟨by decide,
    (registerUnit_order (fun i => i) 2 3 1 0 (by decide) (by decide) (by decide)
      (by decide)).1,
    (registerUnit_order (fun i => i) 2 3 1 0 (by decide) (by decide) (by decide)
      (by decide)).2.1⟩

/-- C23 as stated fails: in a `2 × 2` grid the unit at `(1, 0)` has the unit index
`1 + 0 * 2 = 1` (shard number 2), but the unit registered at place 1 is the unit at
`(0, 1)`, whose unit index is 2 (shard number 3); the unit at `(1, 0)` is registered at
place 2. -/
theorem registerUnit_order_counterexample :
    (buildSimulationController (fun i => i) ⟨2, 2⟩).threads[1]?
        = some (unitAt (fun i => i) ⟨2, 2⟩ ⟨0, 1⟩) ∧
      (buildSimulationController (fun i => i) ⟨2, 2⟩).threads[2]?
        = some (unitAt (fun i => i) ⟨2, 2⟩ ⟨1, 0⟩) ∧
      (unitAt (fun i => i) ⟨2, 2⟩ ⟨1, 0⟩).threadId = 2 ∧
      (unitAt (fun i => i) ⟨2, 2⟩ ⟨0, 1⟩).threadId = 3 ∧
      (buildSimulationController (fun i => i) ⟨2, 2⟩).threads[1]?
        ≠ some (unitAt (fun i => i) ⟨2, 2⟩ ⟨1, 0⟩) := by
  have h1 := threads_getElem (fun i => i) 2 2 0 1 (by decide) (by decide)
  have h2 := threads_getElem (fun i => i) 2 2 1 0 (by decide) (by decide)
  have t1 : (unitAt (fun i => i) ⟨2, 2⟩ ⟨1, 0⟩).threadId = threadIdOf ⟨2, 2⟩ ⟨1, 0⟩ := rfl
  have t2 : (unitAt (fun i => i) ⟨2, 2⟩ ⟨0, 1⟩).threadId = threadIdOf ⟨2, 2⟩ ⟨0, 1⟩ := rfl
  refine ⟨h1, h2, by rw [t1]; decide, by rw [t2]; decide, ?_⟩
  intro h
  have h3 : (buildSimulationController (fun i => i) ⟨2, 2⟩).threads[1]?
      = some (unitAt (fun i => i) ⟨2, 2⟩ ⟨0, 1⟩) := h1
  rw [h3] at h
  have := unitAt_injective (fun i => i) ⟨2, 2⟩ _ _ (Option.some.inj h)
  exact absurd this (by decide)

end ModelBuilderFacadeImpl

/-! ## Test data: the cell function type of a construction token, the ids of the fusion
test -/

namespace ConstructorGpuTests

/-- C22 (the code does not do this): `createTokenForConstruction` never reads
`cellFunctionType`: the token it builds is the same for every requested function type, and
the byte at `IN_CELL_FUNCTION` is the one of the token of `createSimpleToken`.  With the
layout of the spec and a token memory of zeros, the token built for the parameters of
`testConstructFirstCellOnLineCluster_nonStandardParameters1` (`SAFE`, branch number 2,
max-connections 3 and any function type `f`) carries 0 at `IN_CELL_FUNCTION`, while the
fields that are written carry their values. -/
theorem createTokenForConstruction_cellFunctionType_unused :
    (∀ (fx : TestFixture) (p : TokenForConstructionParameters) (f : Int),
      createTokenForConstruction fx { p with cellFunctionType := f }
        = createTokenForConstruction fx p) ∧
    (∀ f : Int,
      ((createTokenForConstruction exampleFixture
          { constructionInput := .SAFE, cellBranchNumber := 2, maxConnections := 3
            cellFunctionType := f }).bind (fun token => token.data)).map
          (fun data => (data[exampleFixture.layout.IN_CELL_FUNCTION]?,
            data[exampleFixture.layout.IN_CELL_BRANCH_NO]?,
            data[exampleFixture.layout.IN_CELL_MAX_CONNECTIONS]?,
            data[exampleFixture.layout.IN]?))
        = some (some 0, some 2, some 3, some 1)) ∧
    exampleFixture.simpleToken.data.bind
      (fun data => data[exampleFixture.layout.IN_CELL_FUNCTION]?) = some 0 := by
  refine ⟨fun _ _ _ => rfl, ?_, by decide⟩
  intro f
  have h : createTokenForConstruction exampleFixture
      { constructionInput := .SAFE, cellBranchNumber := 2, maxConnections := 3
        cellFunctionType := f }
      = createTokenForConstruction exampleFixture
          { constructionInput := .SAFE, cellBranchNumber := 2, maxConnections := 3 } := rfl
  rw [h]
  decide

end ConstructorGpuTests

namespace SimulationGpuTest

/-- C24 (the code does not do this): in the data that `testFusionOfSingleParticles`
submits, both particles carry the id returned by the first `getId` call; the id returned
by the second call, `particleId2`, is drawn and not used.  For a generator initialised for
shard 1 the two particles carry `2^48 + 1`, and `particleId2` is `2^48 + 2`. -/
theorem fusionTestSetup_ids (parameters : SimulationParameters)
    (numberGen : NumberGeneratorImpl) :
    ((fusionTestSetup parameters numberGen).origData.particles.getD []).map (fun p => p.id)
        = [(fusionTestSetup parameters numberGen).particleId1,
           (fusionTestSetup parameters numberGen).particleId1] ∧
      (fusionTestSetup parameters numberGen).particleId1 = numberGen.getId.1 ∧
      (fusionTestSetup parameters numberGen).particleId2 = numberGen.getId.2.getId.1 ∧
      ((fusionTestSetup parameters
          (NumberGeneratorImpl.new.init (fun i => i) 3 1)).origData.particles.getD []).map
          (fun p => p.id) = [2 ^ 48 + 1, 2 ^ 48 + 1] ∧
      (fusionTestSetup parameters
          (NumberGeneratorImpl.new.init (fun i => i) 3 1)).particleId2 = 2 ^ 48 + 2 := by
  have h1 : (NumberGeneratorImpl.new.init (fun i => i) 3 1).getId.1 = 2 ^ 48 + 1 := by decide
  have h2 : (NumberGeneratorImpl.new.init (fun i => i) 3 1).getId.2.getId.1 = 2 ^ 48 + 2 := by
    decide
  refine ⟨rfl, rfl, rfl, ?_, h2⟩
  show [(NumberGeneratorImpl.new.init (fun i => i) 3 1).getId.1,
    (NumberGeneratorImpl.new.init (fun i => i) 3 1).getId.1] = [2 ^ 48 + 1, 2 ^ 48 + 1]
  rw [h1]

end SimulationGpuTest


/-! ## Fusion of particles -/

namespace ParticleFusion

theorem fuse_pair (choices : FusionChoices) (p q : Particle) :
    fuse choices [p, q]
      = if gridLocation p.pos = gridLocation q.pos then [merge choices p q] else [p, q] := by
  simp only [fuse, List.foldl_cons, List.foldl_nil, insertParticle]

theorem fuse_single (choices : FusionChoices) (p : Particle) : fuse choices [p] = [p] := rfl

theorem totalEnergy_insertParticle (choices : FusionChoices) (resolved : List Particle)
    (p : Particle) :
    totalEnergy (insertParticle choices resolved p) = totalEnergy resolved + p.energy := by
  induction resolved with
  | nil => simp [insertParticle, totalEnergy]
  | cons q rest ih =>
    unfold insertParticle
    split
    · simp only [totalEnergy, List.map_cons, List.sum_cons, merge]
      ring
    · simp only [totalEnergy, List.map_cons, List.sum_cons] at ih ⊢
      rw [ih]
      ring

theorem totalEnergy_foldl (choices : FusionChoices) (particles resolved : List Particle) :
    totalEnergy (particles.foldl (insertParticle choices) resolved)
      = totalEnergy resolved + totalEnergy particles := by
  induction particles generalizing resolved with
  | nil => simp [totalEnergy]
  | cons p rest ih =>
    rw [List.foldl_cons, ih, totalEnergy_insertParticle]
    simp only [totalEnergy, List.map_cons, List.sum_cons]
    ring

/-- The coordinates of a position inside the universe are not changed by `normalize`. -/
theorem normalize_coordinate (s : Int) (x : ℚ) (hx0 : 0 ≤ x) (hx : x < s) :
    x - (s : ℚ) * ⌊x / (s : ℚ)⌋ = x := by
  have hs : (0 : ℚ) < s := lt_of_le_of_lt hx0 hx
  have hfloor : ⌊x / (s : ℚ)⌋ = 0 := by
    rw [Int.floor_eq_zero_iff]
    exact ⟨div_nonneg hx0 hs.le, (div_lt_one hs).2 hx⟩
  rw [hfloor]
  simp

theorem floor_ne (x y : ℚ) (h : x + 1 ≤ y) : ⌊x⌋ ≠ ⌊y⌋ := by
  intro heq
  have h1 : y < ⌊y⌋ + 1 := Int.lt_floor_add_one y
  have h2 : (⌊x⌋ : ℚ) ≤ x := Int.floor_le x
  rw [heq] at h2
  linarith

theorem move_firstParticle (parameters : SimulationParameters) (universeSize : IntVector2D)
    (id k : Nat) (hk : k + 1 ≤ 10) (hsx : 110 < universeSize.x) (hsy : 100 < universeSize.y) :
    move universeSize (firstParticle parameters id k) = firstParticle parameters id (k + 1) := by
  have hk' : ((k : ℚ)) ≤ 9 := by exact_mod_cast (show k ≤ 9 by omega)
  have hk0 : (0 : ℚ) ≤ (k : ℚ) := Nat.cast_nonneg k
  have hsxq : (110 : ℚ) < universeSize.x := by exact_mod_cast hsx
  have hsyq : (100 : ℚ) < universeSize.y := by exact_mod_cast hsy
  have ex := normalize_coordinate universeSize.x (100 + (k : ℚ) / 2 + 1 / 2)
    (by linarith) (by linarith)
  have ey := normalize_coordinate universeSize.y (100 + 0) (by norm_num) (by linarith)
  simp only [move, firstParticle, normalize, ex, ey]
  congr 2
  · push_cast
    ring
  · norm_num

theorem move_secondParticle (parameters : SimulationParameters) (universeSize : IntVector2D)
    (id k : Nat) (hk : k + 1 ≤ 10) (hsx : 110 < universeSize.x) (hsy : 100 < universeSize.y) :
    move universeSize (secondParticle parameters id k)
      = secondParticle parameters id (k + 1) := by
  have hk' : ((k : ℚ)) ≤ 9 := by exact_mod_cast (show k ≤ 9 by omega)
  have hk0 : (0 : ℚ) ≤ (k : ℚ) := Nat.cast_nonneg k
  have hsxq : (110 : ℚ) < universeSize.x := by exact_mod_cast hsx
  have hsyq : (100 : ℚ) < universeSize.y := by exact_mod_cast hsy
  have ex := normalize_coordinate universeSize.x (110 - (k : ℚ) / 2 + -1 / 2)
    (by linarith) (by linarith)
  have ey := normalize_coordinate universeSize.y (100 + 0) (by norm_num) (by linarith)
  simp only [move, secondParticle, normalize, ex, ey]
  congr 2
  · push_cast
    ring
  · norm_num

/-- While the two particles of the fusion test are more than one grid location apart, a
tick moves them and changes nothing else. -/
theorem tick_approach (parameters : SimulationParameters) (choices : FusionChoices)
    (universeSize : IntVector2D) (id1 id2 k : Nat) (hk : k + 1 ≤ 9)
    (hmin : 0 ≤ parameters.cellMinEnergy)
    (hsx : 110 < universeSize.x) (hsy : 100 < universeSize.y) :
    tick parameters choices universeSize
        { particles := [firstParticle parameters id1 k, secondParticle parameters id2 k]
          seededClusters := [] }
      = { particles := [firstParticle parameters id1 (k + 1),
            secondParticle parameters id2 (k + 1)]
          seededClusters := [] } := by
  have hk' : ((k : ℚ)) ≤ 8 := by exact_mod_cast (show k ≤ 8 by omega)
  have hloc : gridLocation (firstParticle parameters id1 (k + 1)).pos
      ≠ gridLocation (secondParticle parameters id2 (k + 1)).pos := by
    intro h
    simp only [gridLocation, firstParticle, secondParticle, IntVector2D.mk.injEq] at h
    refine floor_ne _ _ ?_ h.1
    push_cast
    linarith
  have hs1 : seedsCluster parameters choices (firstParticle parameters id1 (k + 1)) = false := by
    simp only [seedsCluster, firstParticle, Bool.and_eq_false_imp, decide_eq_true_eq]
    intro h
    linarith
  have hs2 : seedsCluster parameters choices (secondParticle parameters id2 (k + 1))
      = false := by
    simp only [seedsCluster, secondParticle, Bool.and_eq_false_imp, decide_eq_true_eq]
    intro h
    linarith
  simp only [tick, List.map_cons, List.map_nil,
    move_firstParticle parameters universeSize id1 k (by omega) hsx hsy,
    move_secondParticle parameters universeSize id2 k (by omega) hsx hsy, fuse_pair,
    if_neg hloc, List.filter_cons, hs1, hs2, List.filter_nil, Bool.not_false, if_true,
    Bool.false_eq_true, if_false, List.append_nil]

theorem run_approach (parameters : SimulationParameters) (choices : FusionChoices)
    (universeSize : IntVector2D) (id1 id2 k : Nat) (hk : k ≤ 9)
    (hmin : 0 ≤ parameters.cellMinEnergy)
    (hsx : 110 < universeSize.x) (hsy : 100 < universeSize.y) :
    run parameters choices universeSize k
        { particles := [firstParticle parameters id1 0, secondParticle parameters id2 0]
          seededClusters := [] }
      = { particles := [firstParticle parameters id1 k, secondParticle parameters id2 k]
          seededClusters := [] } := by
  induction k with
  | zero => rfl
  | succ k ih =>
    unfold run at ih ⊢
    rw [Function.iterate_succ_apply', ih (by omega)]
    exact tick_approach parameters choices universeSize id1 id2 k (by omega) hmin hsx hsy

/-- In the tenth tick the two particles of the fusion test reach the same grid location and
merge. -/
theorem tick_meet (parameters : SimulationParameters) (choices : FusionChoices)
    (universeSize : IntVector2D) (id1 id2 : Nat)
    (hsx : 110 < universeSize.x) (hsy : 100 < universeSize.y) :
    tick parameters choices universeSize
        { particles := [firstParticle parameters id1 9, secondParticle parameters id2 9]
          seededClusters := [] }
      = { particles := [merge choices (firstParticle parameters id1 10)
            (secondParticle parameters id2 10)]
          seededClusters := [] } := by
  have hloc : gridLocation (firstParticle parameters id1 (9 + 1)).pos
      = gridLocation (secondParticle parameters id2 (9 + 1)).pos := by
    simp only [gridLocation, firstParticle, secondParticle, IntVector2D.mk.injEq]
    norm_num
  have hs : seedsCluster parameters choices (merge choices (firstParticle parameters id1 (9 + 1))
      (secondParticle parameters id2 (9 + 1))) = false := by
    simp only [seedsCluster, merge, firstParticle, secondParticle, Bool.and_eq_false_imp,
      decide_eq_true_eq]
    intro h
    linarith
  simp only [tick, List.map_cons, List.map_nil,
    move_firstParticle parameters universeSize id1 9 (by omega) hsx hsy,
    move_secondParticle parameters universeSize id2 9 (by omega) hsx hsy, fuse_pair,
    if_pos hloc, List.filter_cons, hs, List.filter_nil, Bool.not_false, if_true,
    Bool.false_eq_true, if_false, List.append_nil]

/-- A single particle at rest whose energy does not exceed `cellMinEnergy` stays a single
particle at rest with the same energy. -/
theorem run_single (parameters : SimulationParameters) (choices : FusionChoices)
    (universeSize : IntVector2D) (n : Nat) (r : Particle) (hvel : r.vel = ⟨0, 0⟩)
    (henergy : r.energy ≤ parameters.cellMinEnergy) :
    ∃ r', run parameters choices universeSize n { particles := [r], seededClusters := [] }
        = { particles := [r'], seededClusters := [] } ∧
      r'.vel = ⟨0, 0⟩ ∧ r'.energy = r.energy ∧ r'.id = r.id := by
  induction n with
  | zero => exact ⟨r, rfl, hvel, rfl, rfl⟩
  | succ n ih =>
    obtain ⟨r', hrun, hv, he, hid⟩ := ih
    have hs : seedsCluster parameters choices (move universeSize r') = false := by
      simp only [seedsCluster, move, Bool.and_eq_false_imp, decide_eq_true_eq]
      intro h
      rw [he] at h
      linarith
    refine ⟨move universeSize r', ?_, hv, he, hid⟩
    unfold run at hrun ⊢
    rw [Function.iterate_succ_apply', hrun]
    simp only [tick, List.map_cons, List.map_nil, fuse_single, List.filter_cons, hs,
      List.filter_nil, Bool.not_false, if_true, Bool.false_eq_true, if_false, List.append_nil]

theorem insertParticle_location (choices : FusionChoices)
    (hpos : ∀ p q, gridLocation (choices.pos p q) = gridLocation p.pos)
    (resolved : List Particle) (p : Particle) :
    ∀ a ∈ insertParticle choices resolved p,
      (∃ b ∈ resolved, gridLocation a.pos = gridLocation b.pos)
        ∨ gridLocation a.pos = gridLocation p.pos := by
  induction resolved with
  | nil =>
    intro a ha
    simp only [insertParticle, List.mem_singleton] at ha
    exact Or.inr (by rw [ha])
  | cons q rest ih =>
    intro a ha
    unfold insertParticle at ha
    split at ha
    · rcases List.mem_cons.1 ha with h | h
      · exact Or.inl ⟨q, List.mem_cons_self _ _, by rw [h]; exact hpos q p⟩
      · exact Or.inl ⟨a, List.mem_cons_of_mem _ h, rfl⟩
    · rcases List.mem_cons.1 ha with h | h
      · exact Or.inl ⟨q, List.mem_cons_self _ _, by rw [h]⟩
      · rcases ih a h with ⟨b, hb, hab⟩ | hap
        · exact Or.inl ⟨b, List.mem_cons_of_mem _ hb, hab⟩
        · exact Or.inr hap

theorem insertParticle_pairwise (choices : FusionChoices)
    (hpos : ∀ p q, gridLocation (choices.pos p q) = gridLocation p.pos)
    (resolved : List Particle) (p : Particle)
    (h : resolved.Pairwise (fun a b => gridLocation a.pos ≠ gridLocation b.pos)) :
    (insertParticle choices resolved p).Pairwise
      (fun a b => gridLocation a.pos ≠ gridLocation b.pos) := by
  induction resolved with
  | nil => simp [insertParticle]
  | cons q rest ih =>
    rw [List.pairwise_cons] at h
    unfold insertParticle
    split
    · rw [List.pairwise_cons]
      refine ⟨?_, h.2⟩
      intro b hb
      have : gridLocation (merge choices q p).pos = gridLocation q.pos := hpos q p
      rw [this]
      exact h.1 b hb
    · rename_i hne
      rw [List.pairwise_cons]
      refine ⟨?_, ih h.2⟩
      intro a ha
      rcases insertParticle_location choices hpos rest p a ha with ⟨b, hb, hab⟩ | hap
      · rw [hab]
        exact h.1 b hb
      · rw [hap]
        exact hne

theorem fuse_pairwise (choices : FusionChoices)
    (hpos : ∀ p q, gridLocation (choices.pos p q) = gridLocation p.pos)
    (particles resolved : List Particle)
    (h : resolved.Pairwise (fun a b => gridLocation a.pos ≠ gridLocation b.pos)) :
    (particles.foldl (insertParticle choices) resolved).Pairwise
      (fun a b => gridLocation a.pos ≠ gridLocation b.pos) := by
  induction particles generalizing resolved with
  | nil => exact h
  | cons p rest ih =>
    rw [List.foldl_cons]
    exact ih _ (insertParticle_pairwise choices hpos resolved p h)

theorem load_fusionTestSetup (parameters : SimulationParameters)
    (numberGen : NumberGeneratorImpl) :
    load (SimulationGpuTest.fusionTestSetup parameters numberGen).origData
      = some { particles := [firstParticle parameters numberGen.getId.1 0,
                 secondParticle parameters numberGen.getId.1 0]
               seededClusters := [] } := by
  simp only [load, SimulationGpuTest.fusionTestSetup, Option.getD_some, List.mapM_cons,
    List.mapM_nil, ofDescription, firstParticle, secondParticle]
  norm_num

/-- C21: fusion.  Two particles that occupy the same grid location merge into one particle
whose energy is the sum of both energies and whose velocity is the energy-weighted mean of
both velocities; the fusion phase keeps the sum of the energies of any list of particles
and, when a merged particle stays at the grid location, leaves at most one particle per
grid location.  In the fusion test (two particles of energy `cellMinEnergy / 2 > 0` with
the velocities `(0.5, 0)` and `(-0.5, 0)` at `(100, 100)` and `(110, 100)`, in a universe
that contains both, 30 ticks) exactly one particle remains, with velocity `(0, 0)` and
energy `cellMinEnergy`, and no cluster is created. -/
theorem fusion_of_particles (parameters : SimulationParameters) (choices : FusionChoices)
    (universeSize : IntVector2D) (numberGen : NumberGeneratorImpl) :
    (∀ p q : Particle, gridLocation p.pos = gridLocation q.pos →
      fuse choices [p, q] = [merge choices p q] ∧
      (merge choices p q).energy = p.energy + q.energy ∧
      (p.energy + q.energy ≠ 0 →
        (merge choices p q).vel.x * (p.energy + q.energy)
          = p.energy * p.vel.x + q.energy * q.vel.x ∧
        (merge choices p q).vel.y * (p.energy + q.energy)
          = p.energy * p.vel.y + q.energy * q.vel.y)) ∧
    (∀ particles, totalEnergy (fuse choices particles) = totalEnergy particles) ∧
    ((∀ p q, gridLocation (choices.pos p q) = gridLocation p.pos) →
      ∀ particles, (fuse choices particles).Pairwise
        (fun a b => gridLocation a.pos ≠ gridLocation b.pos)) ∧
    (0 < parameters.cellMinEnergy → 110 < universeSize.x → 100 < universeSize.y →
      ∃ world r, load (SimulationGpuTest.fusionTestSetup parameters numberGen).origData
          = some world ∧
        world.particles.length = 2 ∧
        run parameters choices universeSize 30 world
          = { particles := [r], seededClusters := [] } ∧
        r.vel = ⟨0, 0⟩ ∧ r.energy = parameters.cellMinEnergy) := by
  refine ⟨?_, ?_, ?_, ?_⟩
  · intro p q hloc
    refine ⟨by rw [fuse_pair, if_pos hloc], rfl, ?_⟩
    intro hne
    exact ⟨div_mul_cancel₀ _ hne, div_mul_cancel₀ _ hne⟩
  · intro particles
    unfold fuse
    rw [totalEnergy_foldl]
    simp [totalEnergy]
  · intro hpos particles
    exact fuse_pairwise choices hpos particles [] List.Pairwise.nil
  · intro hmin hsx hsy
    have hmerged : (merge choices (firstParticle parameters numberGen.getId.1 10)
        (secondParticle parameters numberGen.getId.1 10)).vel = ⟨0, 0⟩ := by
      simp only [merge, firstParticle, secondParticle, QVector2D.mk.injEq]
      constructor
      · have : parameters.cellMinEnergy / 2 * (1 / 2) + parameters.cellMinEnergy / 2 * (-1 / 2)
            = 0 := by ring
        rw [this, zero_div]
      · simp
    have henergy : (merge choices (firstParticle parameters numberGen.getId.1 10)
        (secondParticle parameters numberGen.getId.1 10)).energy
          = parameters.cellMinEnergy := by
      simp only [merge, firstParticle, secondParticle]
      ring
    obtain ⟨r, hrun, hv, he, -⟩ := run_single parameters choices universeSize 20 _ hmerged
      (le_of_eq henergy)
    refine ⟨_, r, load_fusionTestSetup parameters numberGen, rfl, ?_, hv, he.trans henergy⟩
    have h9 := run_approach parameters choices universeSize numberGen.getId.1
      numberGen.getId.1 9 (Nat.le_refl 9) hmin.le hsx hsy
    have h10 := tick_meet parameters choices universeSize numberGen.getId.1
      numberGen.getId.1 hsx hsy
    unfold run at h9 hrun ⊢
    rw [show 30 = 20 + (1 + 9) by norm_num, Function.iterate_add_apply,
      Function.iterate_add_apply, h9, Function.iterate_one, h10]
    exact hrun

/-- Instance of C21: the fusion test with `cellMinEnergy = 50` in a universe of size
`600 × 300`, and two particles of energies 2 and 6 in the grid location `(0, 0)`. -/
theorem fusion_of_particles_witness :
    ((0 : ℚ) < exampleFixture.parameters.cellMinEnergy ∧ (110 : Int) < 600 ∧
        (100 : Int) < 300 ∧
        gridLocation (⟨1, ⟨1 / 5, 0⟩, ⟨1, 0⟩, 2⟩ : Particle).pos
          = gridLocation (⟨2, ⟨7 / 10, 0⟩, ⟨-1, 0⟩, 6⟩ : Particle).pos ∧
        (∀ p q, gridLocation (exampleChoices.pos p q) = gridLocation p.pos)) ∧
      (∃ world r, load (SimulationGpuTest.fusionTestSetup exampleFixture.parameters
            NumberGeneratorImpl.new).origData = some world ∧
        world.particles.length = 2 ∧
        run exampleFixture.parameters exampleChoices ⟨600, 300⟩ 30 world
          = { particles := [r], seededClusters := [] } ∧
        r.vel = ⟨0, 0⟩ ∧ r.energy = exampleFixture.parameters.cellMinEnergy) ∧
      fuse exampleChoices [⟨1, ⟨1 / 5, 0⟩, ⟨1, 0⟩, 2⟩, ⟨2, ⟨7 / 10, 0⟩, ⟨-1, 0⟩, 6⟩]
        = [merge exampleChoices ⟨1, ⟨1 / 5, 0⟩, ⟨1, 0⟩, 2⟩ ⟨2, ⟨7 / 10, 0⟩, ⟨-1, 0⟩, 6⟩] ∧
      (merge exampleChoices ⟨1, ⟨1 / 5, 0⟩, ⟨1, 0⟩, 2⟩ ⟨2, ⟨7 / 10, 0⟩, ⟨-1, 0⟩, 6⟩).energy
        = 2 + 6 := by
  have hmin : (0 : ℚ) < exampleFixture.parameters.cellMinEnergy := by
    norm_num [exampleFixture]
  have hloc : gridLocation (⟨1, ⟨1 / 5, 0⟩, ⟨1, 0⟩, 2⟩ : Particle).pos
      = gridLocation (⟨2, ⟨7 / 10, 0⟩, ⟨-1, 0⟩, 6⟩ : Particle).pos := by
    simp only [gridLocation, IntVector2D.mk.injEq, and_true]
    rw [Int.floor_eq_zero_iff.2 ⟨by norm_num, by norm_num⟩,
      Int.floor_eq_zero_iff.2 ⟨by norm_num, by norm_num⟩]
  obtain ⟨h1, -, -, h4⟩ := fusion_of_particles exampleFixture.parameters exampleChoices
    ⟨600, 300⟩ NumberGeneratorImpl.new
  exact ⟨⟨hmin, by decide, by decide, hloc, fun _ _ => rfl⟩,
    h4 hmin (by decide) (by decide), (h1 _ _ hloc).1, (h1 _ _ hloc).2.1⟩

end ParticleFusion

end Alien
